import Mathlib

/-!
# tfchain mint-class transaction controllers

A shallow embedding of `pkg/types/transactions.go`: the Coin-Creation and the
Minter-Definition transaction controllers, the structural conversions they rest
on, and the registration of the controllers per network profile.

The source consumes the rivine library (`types.Transaction`, unlock conditions
and fulfillments, `TransactionFitsInABlock`, `ArbitraryDataFits`, ...).  That
library is not part of the repository, so everything the source calls in it is
collected in the structure `Host`, and every definition below is parametric in a
`Host`.  Theorems hold for every host, the real one included.  The binary
encoders of the host are collected in `HostEncoding`, its JSON encoders in
`HostJson`; the host function `DefaultTransactionValidation` and the block
frequencies of the networks are arguments of the definitions that use them.

Go results are modelled as follows.
* a function returning `error` returns `Outcome Unit`: `Outcome.ok ()` is the nil
  error, `Outcome.error e` a non-nil error, `Outcome.panic` a run-time panic;
* host functions returning `error` return `Option Error` (`none` is nil); the
  size check `TransactionFitsInABlock` returns `Outcome Unit`, because it
  encodes the transaction through the registered controller, code of the source
  that can panic;
* `Currency` (a non-negative big integer) is `Nat`; `uint64` sizes, heights and
  times are `Nat`; a byte is `Fin 256`.
-/

namespace Tfchain

/-! ## Basic data -/

/-- A byte. -/
abbrev Byte := Fin 256

/-- Currency of the host library: a non-negative integer of arbitrary size. -/
abbrev Currency := Nat

/-- Three-way comparison `a.Cmp(b)` of the host currency type: -1, 0 or 1. -/
def Currency.Cmp (a b : Currency) : Int :=
  if a < b then -1 else if a = b then 0 else 1

/-- The zero test `c.IsZero()` of the host currency type. -/
def Currency.IsZero (c : Currency) : Bool := c == 0

/-- The constructor `types.NewCurrency64` of the host currency type. -/
def NewCurrency64 (x : Nat) : Currency := x

/-- TransactionNonceLength defines the length of a TransactionNonce. -/
def TransactionNonceLength : Nat := 8

/-- TransactionNonce is the Go array type `[TransactionNonceLength]byte`. -/
def TransactionNonce : Type := { b : List Byte // b.length = TransactionNonceLength }

instance : DecidableEq TransactionNonce :=
  inferInstanceAs (DecidableEq { b : List Byte // b.length = TransactionNonceLength })

/-- The Go zero value `TransactionNonce{}`: eight zero bytes. -/
def TransactionNonce.zero : TransactionNonce :=
  ⟨List.replicate TransactionNonceLength 0, by simp⟩

/-- An unlock hash of the host library: an unlock type byte and a 32-byte hash. -/
structure UnlockHash where
  Type_ : Nat
  Hash : List Byte
  deriving DecidableEq, Repr

/-- Version tag of a transaction (`types.TransactionVersion`, one byte). -/
abbrev TransactionVersion := Nat

/-- TransactionVersionMinterDefinition: `iota + 128` at iota = 0. -/
def TransactionVersionMinterDefinition : TransactionVersion := 0 + 128

/-- TransactionVersionCoinCreation: `iota + 128` at iota = 1. -/
def TransactionVersionCoinCreation : TransactionVersion := 1 + 128

/-! ## Errors and outcomes -/

/-- Go error values that occur in the source.
`New s` is `errors.New(s)`; `Errorf format cause` is `fmt.Errorf(format, cause)`
with one error argument (rendered by `%v`); `ErrorfNum format n` is
`fmt.Errorf(format, n)` with one integer argument (rendered by `%d`).  The two
sentinels are the package-level error variables of the host library that the
source names. -/
inductive Error
  | ErrTooSmallMinerFee
  | ErrZeroOutput
  | New (text : String)
  | Errorf (format : String) (cause : Error)
  | ErrorfNum (format : String) (n : Nat)
  deriving DecidableEq, Repr

/-- Result of running a Go function: a value with a nil error, a non-nil
error, or a run-time panic. -/
inductive Outcome (α : Type)
  | ok (a : α)
  | error (e : Error)
  | panic
  deriving DecidableEq, Repr

/-! ## Transactions of the host library -/

/-- The validation context `types.ValidationContext`. -/
structure ValidationContext where
  Confirmed : Bool
  BlockHeight : Nat
  BlockTime : Nat
  deriving DecidableEq, Repr

/-- The constants `types.TransactionValidationConstants`. -/
structure TransactionValidationConstants where
  BlockSizeLimit : Nat
  ArbitraryDataSizeLimit : Nat
  MinimumMinerFee : Currency
  deriving DecidableEq, Repr

/-- A coin or block-stake input: the parent output and a fulfillment. -/
structure Input (F : Type) where
  ParentID : List Byte
  Fulfillment : F
  deriving DecidableEq, Repr

/-- A coin output `types.CoinOutput` (block-stake outputs have the same
layout). -/
structure CoinOutput (C : Type) where
  Value : Currency
  Condition : C
  deriving DecidableEq, Repr

/-- CoinCreationTransactionExtension defines the CoinCreationTx Extension Data. -/
structure CoinCreationTransactionExtension (F : Type) where
  Nonce : TransactionNonce
  MintFulfillment : F
  deriving DecidableEq

/-- MinterDefinitionTransactionExtension defines the MinterDefinitionTx
Extension Data. -/
structure MinterDefinitionTransactionExtension (C F : Type) where
  Nonce : TransactionNonce
  MintFulfillment : F
  MintCondition : C
  deriving DecidableEq

/-- The `interface{}` extension payload of a transaction, by dynamic type:
the nil interface, a pointer to a coin-creation extension, a pointer to a
minter-definition extension (`none` is the nil pointer of that type), or a
value of any other dynamic type. -/
inductive Extension (C F : Type)
  | nil
  | coinCreation (p : Option (CoinCreationTransactionExtension F))
  | minterDefinition (p : Option (MinterDefinitionTransactionExtension C F))
  | other (dynamicType : String)
  deriving DecidableEq

/-- The transaction data `types.TransactionData`. -/
structure TransactionData (C F : Type) where
  CoinInputs : List (Input F)
  CoinOutputs : List (CoinOutput C)
  BlockStakeInputs : List (Input F)
  BlockStakeOutputs : List (CoinOutput C)
  MinerFees : List Currency
  ArbitraryData : List Byte
  Extension : Extension C F
  deriving DecidableEq

/-- The transaction `types.Transaction`: a version tag and the data. -/
structure Transaction (C F : Type) where
  Version : TransactionVersion
  CoinInputs : List (Input F)
  CoinOutputs : List (CoinOutput C)
  BlockStakeInputs : List (Input F)
  BlockStakeOutputs : List (CoinOutput C)
  MinerFees : List Currency
  ArbitraryData : List Byte
  Extension : Extension C F
  deriving DecidableEq

/-- The context `types.FulfillContext` handed to `Fulfill`. -/
structure FulfillContext (C F : Type) where
  InputIndex : Nat
  BlockHeight : Nat
  BlockTime : Nat
  Transaction : Transaction C F
  deriving DecidableEq

/-- Everything the source calls in the host library, for unlock conditions of
type `C` and fulfillments of type `F`.  The field `conditionTypes_distinct`
records that the two condition type constants differ: they are the labels of
two cases of one Go `switch`, which does not compile with duplicate constant
labels.  `TransactionFitsInABlock` encodes the transaction before it compares
sizes, through EncodeTransactionData of the controller registered for the
version, so it can end in a run-time panic. -/
structure Host (C F : Type) where
  ConditionTypeUnlockHash : Nat
  ConditionTypeMultiSignature : Nat
  conditionTypes_distinct : ConditionTypeMultiSignature ≠ ConditionTypeUnlockHash
  UnlockTypePubKey : Nat
  ConditionType : C → Nat
  UnlockHash : C → UnlockHash
  IsStandardCondition : C → ValidationContext → Option Error
  Fulfill : C → F → FulfillContext C F → Option Error
  TransactionFitsInABlock : Transaction C F → Nat → Outcome Unit
  ArbitraryDataFits : List Byte → Nat → Option Error
  NewUnlockHashCondition : Tfchain.UnlockHash → C
  NewMultiSignatureCondition : List Tfchain.UnlockHash → Nat → C
  LoadString : String → Except Error Tfchain.UnlockHash

/-! ## The two mint-class transactions -/

/-- CoinCreationTransaction is to be created only by the defined Coin Minters,
as a medium in order to create coins (coin outputs), without backing them. -/
structure CoinCreationTransaction (C F : Type) where
  Nonce : TransactionNonce
  MintFulfillment : F
  CoinOutputs : List (CoinOutput C)
  MinerFees : List Currency
  ArbitraryData : List Byte
  deriving DecidableEq

/-- MinterDefinitionTransaction is to be created only by the defined Coin
Minters, as a medium in order to transfer minting powers. -/
structure MinterDefinitionTransaction (C F : Type) where
  Nonce : TransactionNonce
  MintFulfillment : F
  MintCondition : C
  MinerFees : List Currency
  ArbitraryData : List Byte
  deriving DecidableEq

/-- CoinCreationTransactionController: the controller of transaction
version 129, holding the condition that has to be fulfilled to mint coins. -/
structure CoinCreationTransactionController (C : Type) where
  MintCondition : C
  deriving DecidableEq

/-- MinterDefinitionTransactionController: the controller of transaction
version 128, holding the condition that has to be fulfilled to define the new
minter definition. -/
structure MinterDefinitionTransactionController (C : Type) where
  MintCondition : C
  deriving DecidableEq

variable {C F : Type}

/-- CoinCreationTransactionFromTransactionData creates a
CoinCreationTransaction from transaction data.  The type assertion succeeds
for every pointer of the extension type, the nil pointer included; the nil
pointer is dereferenced only when the result is built. -/
def CoinCreationTransactionFromTransactionData (txData : TransactionData C F) :
    Outcome (CoinCreationTransaction C F) :=
  match txData.Extension with
  | .coinCreation extensionData =>
    if txData.CoinOutputs.length = 0 ∨ txData.MinerFees.length = 0 then
      .error (.New "at least one coin output and miner fee is required for a CoinCreationTransaction")
    else if txData.CoinInputs.length ≠ 0 ∨ txData.BlockStakeInputs.length ≠ 0
        ∨ txData.BlockStakeOutputs.length ≠ 0 then
      .error (.New "no coin inputs and block stake inputs/outputs are allowed in a CoinCreationTransaction")
    else
      match extensionData with
      | none => .panic
      | some ext =>
        .ok { Nonce := ext.Nonce
              MintFulfillment := ext.MintFulfillment
              CoinOutputs := txData.CoinOutputs
              MinerFees := txData.MinerFees
              ArbitraryData := txData.ArbitraryData }
  | _ => .error (.New "invalid extension data for a CoinCreationTransaction")

/-- CoinCreationTransactionFromTransaction creates a CoinCreationTransaction
from a transaction: past the version validation it piggy-backs onto
`CoinCreationTransactionFromTransactionData`. -/
def CoinCreationTransactionFromTransaction (tx : Transaction C F) :
    Outcome (CoinCreationTransaction C F) :=
  if tx.Version ≠ TransactionVersionCoinCreation then
    .error (.ErrorfNum "a coin creation transaction requires tx version %d"
      TransactionVersionCoinCreation)
  else
    CoinCreationTransactionFromTransactionData
      { CoinInputs := tx.CoinInputs
        CoinOutputs := tx.CoinOutputs
        BlockStakeInputs := tx.BlockStakeInputs
        BlockStakeOutputs := tx.BlockStakeOutputs
        MinerFees := tx.MinerFees
        ArbitraryData := tx.ArbitraryData
        Extension := tx.Extension }

/-- MinterDefinitionTransactionFromTransactionData creates a
MinterDefinitionTransaction from transaction data. -/
def MinterDefinitionTransactionFromTransactionData (txData : TransactionData C F) :
    Outcome (MinterDefinitionTransaction C F) :=
  match txData.Extension with
  | .minterDefinition extensionData =>
    if txData.MinerFees.length = 0 then
      .error (.New "at least one miner fee is required for a MinterDefinitionTransaction")
    else if txData.CoinInputs.length ≠ 0 ∨ txData.CoinOutputs.length ≠ 0
        ∨ txData.BlockStakeInputs.length ≠ 0 ∨ txData.BlockStakeOutputs.length ≠ 0 then
      .error (.New "no coin inputs/outputs and block stake inputs/outputs are allowed in a MinterDefinitionTransaction")
    else
      match extensionData with
      | none => .panic
      | some ext =>
        .ok { Nonce := ext.Nonce
              MintFulfillment := ext.MintFulfillment
              MintCondition := ext.MintCondition
              MinerFees := txData.MinerFees
              ArbitraryData := txData.ArbitraryData }
  | _ => .error (.New "invalid extension data for a MinterDefinitionTransaction")

/-- MinterDefinitionTransactionFromTransaction creates a
MinterDefinitionTransaction from a transaction.  The version named in the error
is the one the source passes to the format: TransactionVersionCoinCreation. -/
def MinterDefinitionTransactionFromTransaction (tx : Transaction C F) :
    Outcome (MinterDefinitionTransaction C F) :=
  if tx.Version ≠ TransactionVersionMinterDefinition then
    .error (.ErrorfNum "a minter definition transaction requires tx version %d"
      TransactionVersionCoinCreation)
  else
    MinterDefinitionTransactionFromTransactionData
      { CoinInputs := tx.CoinInputs
        CoinOutputs := tx.CoinOutputs
        BlockStakeInputs := tx.BlockStakeInputs
        BlockStakeOutputs := tx.BlockStakeOutputs
        MinerFees := tx.MinerFees
        ArbitraryData := tx.ArbitraryData
        Extension := tx.Extension }

/-! ## Validation -/

/-- The loop `for _, fee := range MinerFees` of both mint controllers: the
first fee that compares below the minimum ends validation with
ErrTooSmallMinerFee. -/
def checkMinerFees (MinimumMinerFee : Currency) : List Currency → Option Error
  | [] => none
  | fee :: rest =>
    if Currency.Cmp fee MinimumMinerFee = -1 then some .ErrTooSmallMinerFee
    else checkMinerFees MinimumMinerFee rest

/-- The loop `for _, sco := range cctx.CoinOutputs` of the Coin-Creation
controller: the first output of value zero ends validation with ErrZeroOutput,
the first output whose condition is not standard with the error of
IsStandardCondition. -/
def checkCoinOutputs (h : Host C F) (ctx : ValidationContext) :
    List (CoinOutput C) → Option Error
  | [] => none
  | sco :: rest =>
    if Currency.IsZero sco.Value then some .ErrZeroOutput
    else
      match h.IsStandardCondition sco.Condition ctx with
      | some err => some err
      | none => checkCoinOutputs h ctx rest

/-- ValidateTransaction of the Coin-Creation controller. -/
def CoinCreationTransactionController.ValidateTransaction (h : Host C F)
    (cctc : CoinCreationTransactionController C) (t : Transaction C F)
    (ctx : ValidationContext) (constants : TransactionValidationConstants) :
    Outcome Unit :=
  match h.TransactionFitsInABlock t constants.BlockSizeLimit with
  | .panic => .panic
  | .error err => .error err
  | .ok _ =>
    match CoinCreationTransactionFromTransaction t with
    | .panic => .panic
    | .error err => .error (.Errorf "failed to use tx as a coin creation tx: %v" err)
    | .ok cctx =>
      match h.Fulfill cctc.MintCondition cctx.MintFulfillment
          { InputIndex := 0
            BlockHeight := ctx.BlockHeight
            BlockTime := ctx.BlockTime
            Transaction := t } with
      | some err => .error (.Errorf "failed to fulfill mint condition: %v" err)
      | none =>
        if cctx.Nonce = TransactionNonce.zero then
          .error (.New "nil nonce is not allowed for a coin creation transaction")
        else
          match h.ArbitraryDataFits cctx.ArbitraryData constants.ArbitraryDataSizeLimit with
          | some err => .error err
          | none =>
            match checkMinerFees constants.MinimumMinerFee cctx.MinerFees with
            | some err => .error err
            | none =>
              match checkCoinOutputs h ctx cctx.CoinOutputs with
              | some err => .error err
              | none => .ok ()

/-- The `switch ct := mdtx.MintCondition.ConditionType(); ct` of the
Minter-Definition controller: `none` when the switch falls through to the
rest of the validation, the returned error otherwise. -/
def mintConditionTypeCheck (h : Host C F) (MintCondition : C) : Option Error :=
  let ct := h.ConditionType MintCondition
  if ct = h.ConditionTypeMultiSignature then
    none
  else if ct = h.ConditionTypeUnlockHash then
    if (h.UnlockHash MintCondition).Type_ ≠ h.UnlockTypePubKey then
      some (.New
        "unlockHash conditions can be used as mint conditions, if the unlock hash type is PubKey")
    else none
  else
    some (.ErrorfNum "condition type %d cannot be used as a mint condition" ct)

/-- ValidateTransaction of the Minter-Definition controller. -/
def MinterDefinitionTransactionController.ValidateTransaction (h : Host C F)
    (mdtc : MinterDefinitionTransactionController C) (t : Transaction C F)
    (ctx : ValidationContext) (constants : TransactionValidationConstants) :
    Outcome Unit :=
  match h.TransactionFitsInABlock t constants.BlockSizeLimit with
  | .panic => .panic
  | .error err => .error err
  | .ok _ =>
    match MinterDefinitionTransactionFromTransaction t with
    | .panic => .panic
    | .error err => .error (.Errorf "failed to use tx as a coin creation tx: %v" err)
    | .ok mdtx =>
      match h.IsStandardCondition mdtx.MintCondition ctx with
      | some err =>
        .error (.Errorf
          "defined mint condition is not standard within the given blockchain context: %v" err)
      | none =>
        match mintConditionTypeCheck h mdtx.MintCondition with
        | some err => .error err
        | none =>
          match h.Fulfill mdtc.MintCondition mdtx.MintFulfillment
              { InputIndex := 0
                BlockHeight := ctx.BlockHeight
                BlockTime := ctx.BlockTime
                Transaction := t } with
          | some err => .error (.Errorf "failed to fulfill mint condition: %v" err)
          | none =>
            if mdtx.Nonce = TransactionNonce.zero then
              .error (.New "nil nonce is not allowed for a mint condition transaction")
            else
              match h.ArbitraryDataFits mdtx.ArbitraryData constants.ArbitraryDataSizeLimit with
              | some err => .error err
              | none =>
                match checkMinerFees constants.MinimumMinerFee mdtx.MinerFees with
                | some err => .error err
                | none => .ok ()


/-! ## Registration of the controllers -/

/-- DefaultTransactionController wraps the default controller of the host
library and carries the height from which the nominal fee check applies. -/
structure DefaultTransactionController where
  TransactionFeeCheckBlockHeight : Nat
  deriving DecidableEq, Repr

/-- LegacyTransactionController wraps the legacy controller of the host
library and carries the height from which the nominal fee check applies. -/
structure LegacyTransactionController where
  TransactionFeeCheckBlockHeight : Nat
  deriving DecidableEq, Repr

/-- A value stored in the registry of the host library (the interface
`types.TransactionController`), by dynamic type: one of the four controllers
of the source, or a controller defined by the host library itself. -/
inductive TransactionController (C : Type)
  | Default (dtc : DefaultTransactionController)
  | Legacy (ltc : LegacyTransactionController)
  | CoinCreation (cctc : CoinCreationTransactionController C)
  | MinterDefinition (mdtc : MinterDefinitionTransactionController C)
  | hostDefined (name : String)
  deriving DecidableEq

/-- The process-wide registry of the host library: version tag to controller. -/
abbrev Registry (C : Type) := TransactionVersion → Option (TransactionController C)

/-- The host call `types.RegisterTransactionVersion(v, c)`: store `c` for tag
`v`, replacing what was stored for it. -/
def RegisterTransactionVersion (reg : Registry C) (v : TransactionVersion)
    (c : TransactionController C) : Registry C :=
  fun w => if w = v then some c else reg w

/-- TransactionVersionZero of the host library (the legacy kind). -/
def TransactionVersionZero : TransactionVersion := 0

/-- TransactionVersionOne of the host library (the default kind). -/
def TransactionVersionOne : TransactionVersion := 1

/-- The host call `types.NewCondition`, wrapping a condition into the proxy
type; conditions and proxies are not distinguished here. -/
def NewCondition (c : C) : C := c

/-- The helper unlockHashFromHex: load the string, panic on failure (`none`
is the panic; the helper returns no error). -/
def unlockHashFromHex (h : Host C F) (hstr : String) : Option UnlockHash :=
  match h.LoadString hstr with
  | .error _ => none
  | .ok uh => some uh

/-- The hex string of the unlock hash seeded as mint condition by the
development profile. -/
def devNetworkMintUnlockHashHex : String :=
  "015a080a9259b9d4aaa550e2156f49b1a79a64c7ea463d810d4493e8242e6791584fbdac553e6f"

/-- RegisterTransactionTypesForDevNetwork registers the transaction
controllers for all transaction versions supported on the dev network,
starting from the registry `reg`; `none` is a panic of unlockHashFromHex. -/
def RegisterTransactionTypesForDevNetwork (h : Host C F) (reg : Registry C) :
    Option (Registry C) :=
  let reg := RegisterTransactionVersion reg TransactionVersionZero
    (.Legacy { TransactionFeeCheckBlockHeight := 0 })
  let reg := RegisterTransactionVersion reg TransactionVersionOne
    (.Default { TransactionFeeCheckBlockHeight := 0 })
  match unlockHashFromHex h devNetworkMintUnlockHashHex with
  | none => none
  | some uh =>
    let reg := RegisterTransactionVersion reg TransactionVersionMinterDefinition
      (.MinterDefinition { MintCondition := NewCondition (h.NewUnlockHashCondition uh) })
    match unlockHashFromHex h devNetworkMintUnlockHashHex with
    | none => none
    | some uh =>
      some (RegisterTransactionVersion reg TransactionVersionCoinCreation
        (.CoinCreation { MintCondition := NewCondition (h.NewUnlockHashCondition uh) }))

/-! ## Shapes and recurring facts, in terms of the transaction itself -/

/-- The coin-creation shape of a transaction `t` carrying the extension data
`ext`: version 129, a non-nil pointer to a coin-creation extension, at least
one coin output and one miner fee, no coin inputs, no block-stake inputs and
no block-stake outputs. -/
def HasCoinCreationShape (t : Transaction C F) (ext : CoinCreationTransactionExtension F) :
    Prop :=
  t.Version = 129 ∧ t.Extension = .coinCreation (some ext) ∧
    t.CoinOutputs ≠ [] ∧ t.MinerFees ≠ [] ∧
    t.CoinInputs = [] ∧ t.BlockStakeInputs = [] ∧ t.BlockStakeOutputs = []

instance [DecidableEq C] [DecidableEq F] (t : Transaction C F)
    (ext : CoinCreationTransactionExtension F) : Decidable (HasCoinCreationShape t ext) := by
  unfold HasCoinCreationShape; infer_instance

/-- The minter-definition shape of a transaction `t` carrying the extension
data `ext`: version 128, a non-nil pointer to a minter-definition extension,
at least one miner fee, no coin inputs or outputs, no block-stake inputs or
outputs. -/
def HasMinterDefinitionShape (t : Transaction C F)
    (ext : MinterDefinitionTransactionExtension C F) : Prop :=
  t.Version = 128 ∧ t.Extension = .minterDefinition (some ext) ∧
    t.MinerFees ≠ [] ∧ t.CoinInputs = [] ∧ t.CoinOutputs = [] ∧
    t.BlockStakeInputs = [] ∧ t.BlockStakeOutputs = []

instance [DecidableEq C] [DecidableEq F] (t : Transaction C F)
    (ext : MinterDefinitionTransactionExtension C F) :
    Decidable (HasMinterDefinitionShape t ext) := by
  unfold HasMinterDefinitionShape; infer_instance

/-- The fulfill context both mint controllers build: input index 0, the height
and time of the validation context, and the transaction itself. -/
def mintFulfillContext (t : Transaction C F) (ctx : ValidationContext) : FulfillContext C F :=
  { InputIndex := 0, BlockHeight := ctx.BlockHeight, BlockTime := ctx.BlockTime, Transaction := t }


/-! ## A small host, to evaluate the controllers on concrete transactions

Conditions are nil, single-key, time-locked or multi-signature; a fulfillment
is the list of unlock hashes whose keys signed.  The host library assigns the
condition types 0 (nil), 1 (unlock hash), 3 (time lock), 4 (multi-signature)
and the unlock type 1 to public keys. -/

/-- Conditions of the small host. -/
inductive SampleCondition
  | nilCondition
  | unlockHash (uh : UnlockHash)
  | timeLock (lockTime : Nat) (uh : UnlockHash)
  | multiSignature (hashes : List UnlockHash) (minimum : Nat)
  deriving DecidableEq, Repr

/-- Fulfillments of the small host: the unlock hashes that signed validly. -/
abbrev SampleFulfillment := List UnlockHash

/-- Size of a transaction in the small host: one unit per input, output and
fee, plus the length of the arbitrary data. -/
def sampleSize (t : Transaction SampleCondition SampleFulfillment) : Nat :=
  t.CoinInputs.length + t.CoinOutputs.length + t.BlockStakeInputs.length
    + t.BlockStakeOutputs.length + t.MinerFees.length + t.ArbitraryData.length

/-- Loading of an unlock hash in the small host: the development hash and
three further keys are known, every other string is malformed. -/
def sampleLoadString (str : String) : Except Error UnlockHash :=
  if str = devNetworkMintUnlockHashHex then .ok { Type_ := 1, Hash := [0x5a, 0x08] }
  else if str = "01aa" then .ok { Type_ := 1, Hash := [0xaa] }
  else if str = "01bb" then .ok { Type_ := 1, Hash := [0xbb] }
  else if str = "01cc" then .ok { Type_ := 1, Hash := [0xcc] }
  else .error (.New "invalid unlock hash")

/-- The small host. -/
def sampleHost : Host SampleCondition SampleFulfillment where
  ConditionTypeUnlockHash := 1
  ConditionTypeMultiSignature := 4
  conditionTypes_distinct := by decide
  UnlockTypePubKey := 1
  ConditionType := fun c =>
    match c with
    | .nilCondition => 0
    | .unlockHash _ => 1
    | .timeLock _ _ => 3
    | .multiSignature _ _ => 4
  UnlockHash := fun c =>
    match c with
    | .nilCondition => { Type_ := 0, Hash := [] }
    | .unlockHash uh => uh
    | .timeLock _ uh => uh
    | .multiSignature hashes _ => { Type_ := 3, Hash := (hashes.map (fun u => u.Hash)).flatten }
  IsStandardCondition := fun c _ =>
    match c with
    | .multiSignature hashes minimum =>
      if minimum = 0 ∨ hashes.length < minimum then
        some (.New "invalid multi-signature condition")
      else none
    | _ => none
  Fulfill := fun c f fc =>
    match c with
    | .nilCondition => none
    | .unlockHash uh => if uh ∈ f then none else some (.New "invalid signature")
    | .timeLock lockTime uh =>
      if fc.BlockTime < lockTime then some (.New "time lock not reached")
      else if uh ∈ f then none
      else some (.New "invalid signature")
    | .multiSignature hashes minimum =>
      if (hashes.filter (fun u => decide (u ∈ f))).length < minimum then
        some (.New "not enough signatures")
      else none
  TransactionFitsInABlock := fun t limit =>
    if limit < sampleSize t then .error (.New "transaction is too large to fit in a block")
    else .ok ()
  ArbitraryDataFits := fun data limit =>
    if limit < data.length then some (.New "arbitrary data is too large") else none
  NewUnlockHashCondition := fun uh => .unlockHash uh
  NewMultiSignatureCondition := fun hashes minimum => .multiSignature hashes minimum
  LoadString := sampleLoadString

/-- Three keys of the small host. -/
def keyA : UnlockHash := { Type_ := 1, Hash := [0xaa] }
/-- Second key of the small host. -/
def keyB : UnlockHash := { Type_ := 1, Hash := [0xbb] }
/-- Third key of the small host. -/
def keyC : UnlockHash := { Type_ := 1, Hash := [0xcc] }
/-- The key seeded by the development profile in the small host. -/
def devKey : UnlockHash := { Type_ := 1, Hash := [0x5a, 0x08] }

/-- The nonce `{1,0,0,0,0,0,0,0}`. -/
def nonceOne : TransactionNonce := ⟨[1, 0, 0, 0, 0, 0, 0, 0], rfl⟩

/-- Constants used on concrete inputs: a minimum miner fee of 1. -/
def sampleConstants : TransactionValidationConstants :=
  { BlockSizeLimit := 2000000, ArbitraryDataSizeLimit := 83, MinimumMinerFee := 1 }

/-- A validation context used on concrete inputs. -/
def sampleContext : ValidationContext :=
  { Confirmed := true, BlockHeight := 7, BlockTime := 1000 }

/-- A Coin-Creation transaction in the envelope: the given nonce, signers,
outputs and fees, no arbitrary data. -/
def sampleCoinCreationTx (nonce : TransactionNonce) (signers : SampleFulfillment)
    (outputs : List (CoinOutput SampleCondition)) (fees : List Currency) :
    Transaction SampleCondition SampleFulfillment :=
  { Version := 129, CoinInputs := [], CoinOutputs := outputs, BlockStakeInputs := [],
    BlockStakeOutputs := [], MinerFees := fees, ArbitraryData := [],
    Extension := .coinCreation (some { Nonce := nonce, MintFulfillment := signers }) }

/-- A Minter-Definition transaction in the envelope: the given nonce,
signers, new condition and fees, no arbitrary data. -/
def sampleMinterDefinitionTx (nonce : TransactionNonce) (signers : SampleFulfillment)
    (newCondition : SampleCondition) (fees : List Currency) :
    Transaction SampleCondition SampleFulfillment :=
  { Version := 128, CoinInputs := [], CoinOutputs := [], BlockStakeInputs := [],
    BlockStakeOutputs := [], MinerFees := fees, ArbitraryData := [],
    Extension := .minterDefinition
      (some { Nonce := nonce, MintFulfillment := signers, MintCondition := newCondition }) }


/-- The development mint condition of the small host. -/
def sampleMintCondition : SampleCondition := .unlockHash devKey

/-- One output of value 100 to the single-key address of `keyA`. -/
def outputHundred : CoinOutput SampleCondition := { Value := 100, Condition := .unlockHash keyA }

/-- A Coin-Creation transaction that is valid in every field except for its
fulfillment, signed by `keyA` instead of the development key. -/
def txWrongSigner : Transaction SampleCondition SampleFulfillment :=
  sampleCoinCreationTx nonceOne [keyA] [outputHundred] [1]

/-- A Coin-Creation transaction with an all-zero nonce and a fulfillment
signed by `keyA` instead of the development key. -/
def txZeroNonceWrongSigner : Transaction SampleCondition SampleFulfillment :=
  sampleCoinCreationTx TransactionNonce.zero [keyA] [outputHundred] [1]

/-- A Coin-Creation transaction with an all-zero nonce that is valid in every
other field. -/
def txZeroNonce : Transaction SampleCondition SampleFulfillment :=
  sampleCoinCreationTx TransactionNonce.zero [devKey] [outputHundred] [1]

/-- A Coin-Creation transaction with two outputs, the second of value 0 and
with a condition that is not standard. -/
def txZeroOutput : Transaction SampleCondition SampleFulfillment :=
  sampleCoinCreationTx nonceOne [devKey]
    [outputHundred, { Value := 0, Condition := .multiSignature [] 0 }] [1]

/-- A Coin-Creation transaction with two miner fees, the second of them 0. -/
def txSmallFee : Transaction SampleCondition SampleFulfillment :=
  sampleCoinCreationTx nonceOne [devKey] [outputHundred] [1, 0]

/-- The transaction of the development scenario: nonce `{1,0,0,0,0,0,0,0}`,
exactly one coin output of value 100 to the single-key address `dest`, exactly
one miner fee of 1, no arbitrary data, and the fulfillment `signature`. -/
def devScenarioTx (h : Host C F) (dest : UnlockHash) (signature : F) : Transaction C F :=
  { Version := 129, CoinInputs := [],
    CoinOutputs := [{ Value := 100, Condition := h.NewUnlockHashCondition dest }],
    BlockStakeInputs := [], BlockStakeOutputs := [], MinerFees := [1], ArbitraryData := [],
    Extension := .coinCreation (some { Nonce := nonceOne, MintFulfillment := signature }) }

/-- Constants with a minimum miner fee above 1. -/
def constantsNominalFee : TransactionValidationConstants :=
  { BlockSizeLimit := 2000000, ArbitraryDataSizeLimit := 83, MinimumMinerFee := 100000000 }

/-- The empty registry. -/
def emptyRegistry : Registry SampleCondition := fun _ => none

/-- An installed 2-of-3 multi-signature mint condition. -/
def twoOfThree : SampleCondition := .multiSignature [keyA, keyB, keyC] 2

/-- A Minter-Definition transaction with one valid signature, of `keyA`,
proposing the single-key condition of `keyA` as new mint condition. -/
def txOneSignature : Transaction SampleCondition SampleFulfillment :=
  sampleMinterDefinitionTx nonceOne [keyA] (.unlockHash keyA) [1]

/-- A Minter-Definition transaction proposing an unlock-hash condition whose
unlock hash has type 2, not the public-key type. -/
def txNonPubKeyCondition : Transaction SampleCondition SampleFulfillment :=
  sampleMinterDefinitionTx nonceOne [devKey] (.unlockHash { Type_ := 2, Hash := [0xdd] }) [1]

/-- A Minter-Definition transaction signed by the development key, proposing
a 3-of-3 multi-signature condition. -/
def txNewMultiSig : Transaction SampleCondition SampleFulfillment :=
  sampleMinterDefinitionTx nonceOne [devKey] (.multiSignature [keyA, keyB, keyC] 3) [1]

/-! ## The two base-kind override controllers -/

/-- A Go `error` returned by a host function, as the result of the caller
that returns it unchanged. -/
def Outcome.ofError : Option Error → Outcome Unit
  | none => .ok ()
  | some err => .error err

/-- ValidateTransaction of DefaultTransactionController.  The host function
`types.DefaultTransactionValidation` is the first argument; `constants` is a
struct passed by value, so the assignment to its field stays local. -/
def DefaultTransactionController.ValidateTransaction
    (DefaultTransactionValidation :
      Transaction C F → ValidationContext → TransactionValidationConstants → Option Error)
    (dtc : DefaultTransactionController) (t : Transaction C F)
    (ctx : ValidationContext) (constants : TransactionValidationConstants) : Outcome Unit :=
  let constants :=
    if ctx.Confirmed = true ∧ ctx.BlockHeight < dtc.TransactionFeeCheckBlockHeight then
      { constants with MinimumMinerFee := NewCurrency64 1 }
    else constants
  Outcome.ofError (DefaultTransactionValidation t ctx constants)

/-- ValidateTransaction of LegacyTransactionController; it calls the same
host function `types.DefaultTransactionValidation`. -/
def LegacyTransactionController.ValidateTransaction
    (DefaultTransactionValidation :
      Transaction C F → ValidationContext → TransactionValidationConstants → Option Error)
    (ltc : LegacyTransactionController) (t : Transaction C F)
    (ctx : ValidationContext) (constants : TransactionValidationConstants) : Outcome Unit :=
  let constants :=
    if ctx.Confirmed = true ∧ ctx.BlockHeight < ltc.TransactionFeeCheckBlockHeight then
      { constants with MinimumMinerFee := NewCurrency64 1 }
    else constants
  Outcome.ofError (DefaultTransactionValidation t ctx constants)

/-! ## Registration for the standard and the test network

The block frequencies `config.StandardNetworkBlockFrequency` and
`config.TestNetworkBlockFrequency` are constants of a package outside the
source; they are arguments here.  The heights are Go constant expressions, in
integer division. -/

/-- The constant txnFeeCheckBlockHeight of
RegisterTransactionTypesForStandardNetwork, for the block frequency
`StandardNetworkBlockFrequency`. -/
def standardTxnFeeCheckBlockHeight (StandardNetworkBlockFrequency : Nat) : Nat :=
  let secondsInOneDay := 86400 + StandardNetworkBlockFrequency
  let daysFromStartOfBlockchainUntil2ndOfJuly := 74
  daysFromStartOfBlockchainUntil2ndOfJuly * (secondsInOneDay / StandardNetworkBlockFrequency)

/-- The constant txnFeeCheckBlockHeight of
RegisterTransactionTypesForTestNetwork, for the block frequency
`TestNetworkBlockFrequency`. -/
def testTxnFeeCheckBlockHeight (TestNetworkBlockFrequency : Nat) : Nat :=
  let secondsInOneDay := 86400 + TestNetworkBlockFrequency
  let daysFromStartOfBlockchainUntil2ndOfJuly := 90
  daysFromStartOfBlockchainUntil2ndOfJuly * (secondsInOneDay / TestNetworkBlockFrequency)

/-- The three unlock hashes of the mint condition of the standard network. -/
def standardNetworkMintUnlockHashHexes : List String :=
  [ "01434535fd01243c02c277cd58d71423163767a575a8ae44e15807bf545e4a8456a5c4afabad51",
    "01334cf68f312026ff9df84fc023558db8624bedd717adcc9edc6900488cf6df54ac8e3d1c89a8",
    "0149a5496fea27315b7db6251e5dfda23bc9d4bf677c5a5c2d70f1382c44357197d8453d9dfa32" ]

/-- The three unlock hashes of the mint condition of the test network. -/
def testNetworkMintUnlockHashHexes : List String :=
  [ "016148ac9b17828e0933796eaca94418a376f2aa3fefa15685cea5fa462093f0150e09067f7512",
    "01d553fab496f3fd6092e25ce60e6f72e24b57950bffc0d372d659e38e5a95e89fb117b4eb3481",
    "013a787bf6248c518aee3a040a14b0dd3a029bc8e9b19a1823faf5bcdde397f4201ad01aace4c9" ]

/-- The slice literal `types.UnlockHashSlice{unlockHashFromHex(..), ..}`: the
strings are loaded from left to right, the first failure panics (`none`). -/
def unlockHashSliceFromHex (h : Host C F) : List String → Option (List UnlockHash)
  | [] => some []
  | hstr :: rest =>
    match unlockHashFromHex h hstr with
    | none => none
    | some uh =>
      match unlockHashSliceFromHex h rest with
      | none => none
      | some uhs => some (uh :: uhs)

/-- RegisterTransactionTypesForStandardNetwork registers the transaction
controllers for all transaction versions supported on the standard network,
starting from the registry `reg`; `none` is a panic of unlockHashFromHex. -/
def RegisterTransactionTypesForStandardNetwork (h : Host C F)
    (StandardNetworkBlockFrequency : Nat) (reg : Registry C) : Option (Registry C) :=
  let txnFeeCheckBlockHeight := standardTxnFeeCheckBlockHeight StandardNetworkBlockFrequency
  let reg := RegisterTransactionVersion reg TransactionVersionZero
    (.Legacy { TransactionFeeCheckBlockHeight := txnFeeCheckBlockHeight })
  let reg := RegisterTransactionVersion reg TransactionVersionOne
    (.Default { TransactionFeeCheckBlockHeight := txnFeeCheckBlockHeight })
  match unlockHashSliceFromHex h standardNetworkMintUnlockHashHexes with
  | none => none
  | some uhs =>
    let reg := RegisterTransactionVersion reg TransactionVersionMinterDefinition
      (.MinterDefinition
        { MintCondition := NewCondition (h.NewMultiSignatureCondition uhs 2) })
    match unlockHashSliceFromHex h standardNetworkMintUnlockHashHexes with
    | none => none
    | some uhs =>
      some (RegisterTransactionVersion reg TransactionVersionCoinCreation
        (.CoinCreation
          { MintCondition := NewCondition (h.NewMultiSignatureCondition uhs 2) }))

/-- RegisterTransactionTypesForTestNetwork registers the transaction
controllers for all transaction versions supported on the test network,
starting from the registry `reg`; `none` is a panic of unlockHashFromHex. -/
def RegisterTransactionTypesForTestNetwork (h : Host C F)
    (TestNetworkBlockFrequency : Nat) (reg : Registry C) : Option (Registry C) :=
  let txnFeeCheckBlockHeight := testTxnFeeCheckBlockHeight TestNetworkBlockFrequency
  let reg := RegisterTransactionVersion reg TransactionVersionZero
    (.Legacy { TransactionFeeCheckBlockHeight := txnFeeCheckBlockHeight })
  let reg := RegisterTransactionVersion reg TransactionVersionOne
    (.Default { TransactionFeeCheckBlockHeight := txnFeeCheckBlockHeight })
  match unlockHashSliceFromHex h testNetworkMintUnlockHashHexes with
  | none => none
  | some uhs =>
    let reg := RegisterTransactionVersion reg TransactionVersionMinterDefinition
      (.MinterDefinition
        { MintCondition := NewCondition (h.NewMultiSignatureCondition uhs 2) })
    match unlockHashSliceFromHex h testNetworkMintUnlockHashHexes with
    | none => none
    | some uhs =>
      some (RegisterTransactionVersion reg TransactionVersionCoinCreation
        (.CoinCreation
          { MintCondition := NewCondition (h.NewMultiSignatureCondition uhs 2) }))

/-- A host that loads every string: the unlock hash keeps the length of the
string as its type, which is enough to run the registrations. -/
def lenientHost : Host SampleCondition SampleFulfillment :=
  { sampleHost with
    LoadString := fun str => .ok { Type_ := 1, Hash := [Fin.ofNat str.length] } }

/-- A host validation function for the base kinds, used on concrete inputs:
it checks the miner fees against the minimum and nothing else. -/
def sampleDefaultTransactionValidation
    (t : Transaction SampleCondition SampleFulfillment) (_ctx : ValidationContext)
    (constants : TransactionValidationConstants) : Option Error :=
  checkMinerFees constants.MinimumMinerFee t.MinerFees

/-- A transaction of the default base kind with one miner fee of 1. -/
def txBaseKind : Transaction SampleCondition SampleFulfillment :=
  { Version := 1, CoinInputs := [], CoinOutputs := [], BlockStakeInputs := [],
    BlockStakeOutputs := [], MinerFees := [1], ArbitraryData := [],
    Extension := .nil }

/-- A Coin-Creation transaction that is valid in every field. -/
def txValid : Transaction SampleCondition SampleFulfillment :=
  sampleCoinCreationTx nonceOne [devKey] [outputHundred] [1]

/-- Transaction data of a Coin-Creation transaction with empty arbitrary
data. -/
def dataNoArbitraryData : TransactionData SampleCondition SampleFulfillment :=
  { CoinInputs := [], CoinOutputs := [outputHundred], BlockStakeInputs := [],
    BlockStakeOutputs := [], MinerFees := [1], ArbitraryData := [],
    Extension := .coinCreation (some { Nonce := nonceOne, MintFulfillment := [devKey] }) }

/-! ## Binary encoding and signature hash

The package `encoding` of the host library writes a struct by reflection: the
fields in the order of their declaration, one after the other, each in the
encoding of its own type; a fixed-size byte array is written as its raw
bytes.  The encodings of the field types that belong to the host library are
collected in `HostEncoding`, with the hash function of the host. -/

/-- The binary encoders and decoders of the host library on the field types of
the two mint-class transactions, and its hash.  A decoder reads a value from
the front of the stream and returns it with the rest of the stream.
`ReadError r` is the error of a read of a fixed number of bytes that the stream
`r` is too short for. -/
structure HostEncoding (C F : Type) where
  EncodeVersion : TransactionVersion → List Byte
  EncodeFulfillment : F → List Byte
  DecodeFulfillment : List Byte → Except Error (F × List Byte)
  EncodeCondition : C → List Byte
  DecodeCondition : List Byte → Except Error (C × List Byte)
  EncodeCoinOutputs : List (CoinOutput C) → List Byte
  DecodeCoinOutputs : List Byte → Except Error (List (CoinOutput C) × List Byte)
  EncodeCurrencies : List Currency → List Byte
  DecodeCurrencies : List Byte → Except Error (List Currency × List Byte)
  EncodeBytes : List Byte → List Byte
  DecodeBytes : List Byte → Except Error (List Byte × List Byte)
  ReadError : List Byte → Error
  Hash : List Byte → List Byte

/-- The round-trip laws of the host encoding: every decoder reads back what
its encoder wrote and leaves the rest of the stream. -/
structure HostEncoding.Lawful (he : HostEncoding C F) : Prop where
  fulfillment : ∀ f rest, he.DecodeFulfillment (he.EncodeFulfillment f ++ rest) = .ok (f, rest)
  condition : ∀ c rest, he.DecodeCondition (he.EncodeCondition c ++ rest) = .ok (c, rest)
  coinOutputs : ∀ o rest, he.DecodeCoinOutputs (he.EncodeCoinOutputs o ++ rest) = .ok (o, rest)
  currencies : ∀ m rest, he.DecodeCurrencies (he.EncodeCurrencies m ++ rest) = .ok (m, rest)
  bytes : ∀ b rest, he.DecodeBytes (he.EncodeBytes b ++ rest) = .ok (b, rest)

/-- A specifier of the host library, `types.Specifier`: the characters of the
literal, padded with zero bytes to 16 bytes. -/
def specifierOf (text : String) : List Byte :=
  let bytes := text.toList.map (fun ch => (Fin.ofNat ch.toNat : Byte))
  bytes ++ List.replicate (16 - bytes.length) 0

/-- SpecifierMintDefinitionTransaction, used when calculating the ID and the
signature hash of a Minter-Definition transaction. -/
def SpecifierMintDefinitionTransaction : List Byte := specifierOf "minter defin tx"

/-- SpecifierCoinCreationTransaction, used when calculating the ID and the
signature hash of a Coin-Creation transaction. -/
def SpecifierCoinCreationTransaction : List Byte := specifierOf "coin mint tx"

/-- TransactionData returns this CoinCreationTransaction as regular
transaction data. -/
def CoinCreationTransaction.TransactionData (cctx : CoinCreationTransaction C F) :
    Tfchain.TransactionData C F :=
  { CoinInputs := [], CoinOutputs := cctx.CoinOutputs, BlockStakeInputs := [],
    BlockStakeOutputs := [], MinerFees := cctx.MinerFees,
    ArbitraryData := cctx.ArbitraryData,
    Extension := .coinCreation
      (some { Nonce := cctx.Nonce, MintFulfillment := cctx.MintFulfillment }) }

/-- TransactionData returns this MinterDefinitionTransaction as regular
transaction data. -/
def MinterDefinitionTransaction.TransactionData (cctx : MinterDefinitionTransaction C F) :
    Tfchain.TransactionData C F :=
  { CoinInputs := [], CoinOutputs := [], BlockStakeInputs := [],
    BlockStakeOutputs := [], MinerFees := cctx.MinerFees,
    ArbitraryData := cctx.ArbitraryData,
    Extension := .minterDefinition
      (some { Nonce := cctx.Nonce, MintFulfillment := cctx.MintFulfillment,
              MintCondition := cctx.MintCondition }) }

/-- The host encoder on a CoinCreationTransaction: Nonce, MintFulfillment,
CoinOutputs, MinerFees, ArbitraryData, the order of the struct declaration. -/
def CoinCreationTransaction.Encode (he : HostEncoding C F)
    (cctx : CoinCreationTransaction C F) : List Byte :=
  cctx.Nonce.val ++ he.EncodeFulfillment cctx.MintFulfillment
    ++ he.EncodeCoinOutputs cctx.CoinOutputs ++ he.EncodeCurrencies cctx.MinerFees
    ++ he.EncodeBytes cctx.ArbitraryData

/-- The host encoder on a MinterDefinitionTransaction: Nonce,
MintFulfillment, MintCondition, MinerFees, ArbitraryData, the order of the
struct declaration. -/
def MinterDefinitionTransaction.Encode (he : HostEncoding C F)
    (mdtx : MinterDefinitionTransaction C F) : List Byte :=
  mdtx.Nonce.val ++ he.EncodeFulfillment mdtx.MintFulfillment
    ++ he.EncodeCondition mdtx.MintCondition ++ he.EncodeCurrencies mdtx.MinerFees
    ++ he.EncodeBytes mdtx.ArbitraryData

/-- The host decoder on the array type TransactionNonce: the next
TransactionNonceLength bytes of the stream. -/
def TransactionNonce.Decode (he : HostEncoding C F) (r : List Byte) :
    Except Error (TransactionNonce × List Byte) :=
  if hlen : TransactionNonceLength ≤ r.length then
    .ok (⟨r.take TransactionNonceLength, by simp [List.length_take, hlen]⟩,
      r.drop TransactionNonceLength)
  else .error (he.ReadError r)

/-- The host decoder on a CoinCreationTransaction: the fields are read in the
order of the struct declaration, the first failure ends the decoding. -/
def CoinCreationTransaction.Decode (he : HostEncoding C F) (r : List Byte) :
    Except Error (CoinCreationTransaction C F) :=
  match TransactionNonce.Decode he r with
  | .error err => .error err
  | .ok (nonce, r) =>
    match he.DecodeFulfillment r with
    | .error err => .error err
    | .ok (fulfillment, r) =>
      match he.DecodeCoinOutputs r with
      | .error err => .error err
      | .ok (outputs, r) =>
        match he.DecodeCurrencies r with
        | .error err => .error err
        | .ok (fees, r) =>
          match he.DecodeBytes r with
          | .error err => .error err
          | .ok (data, _) =>
            .ok { Nonce := nonce, MintFulfillment := fulfillment, CoinOutputs := outputs,
                  MinerFees := fees, ArbitraryData := data }

/-- The host decoder on a MinterDefinitionTransaction: the fields are read in
the order of the struct declaration, the first failure ends the decoding. -/
def MinterDefinitionTransaction.Decode (he : HostEncoding C F) (r : List Byte) :
    Except Error (MinterDefinitionTransaction C F) :=
  match TransactionNonce.Decode he r with
  | .error err => .error err
  | .ok (nonce, r) =>
    match he.DecodeFulfillment r with
    | .error err => .error err
    | .ok (fulfillment, r) =>
      match he.DecodeCondition r with
      | .error err => .error err
      | .ok (condition, r) =>
        match he.DecodeCurrencies r with
        | .error err => .error err
        | .ok (fees, r) =>
          match he.DecodeBytes r with
          | .error err => .error err
          | .ok (data, _) =>
            .ok { Nonce := nonce, MintFulfillment := fulfillment, MintCondition := condition,
                  MinerFees := fees, ArbitraryData := data }

/-- EncodeTransactionData of the Coin-Creation controller: the bytes written
to the writer. -/
def CoinCreationTransactionController.EncodeTransactionData (he : HostEncoding C F)
    (_cctc : CoinCreationTransactionController C) (txData : TransactionData C F) :
    Outcome (List Byte) :=
  match CoinCreationTransactionFromTransactionData txData with
  | .panic => .panic
  | .error err => .error (.Errorf "failed to convert txData to a CoinCreationTx: %v" err)
  | .ok cctx => .ok (cctx.Encode he)

/-- DecodeTransactionData of the Coin-Creation controller, reading from the
stream `r`. -/
def CoinCreationTransactionController.DecodeTransactionData (he : HostEncoding C F)
    (_cctc : CoinCreationTransactionController C) (r : List Byte) :
    Outcome (TransactionData C F) :=
  match CoinCreationTransaction.Decode he r with
  | .error err => .error (.Errorf "failed to binary-decode tx as a CoinCreationTx: %v" err)
  | .ok cctx => .ok cctx.TransactionData

/-- EncodeTransactionData of the Minter-Definition controller: the bytes
written to the writer. -/
def MinterDefinitionTransactionController.EncodeTransactionData (he : HostEncoding C F)
    (_mdtc : MinterDefinitionTransactionController C) (txData : TransactionData C F) :
    Outcome (List Byte) :=
  match MinterDefinitionTransactionFromTransactionData txData with
  | .panic => .panic
  | .error err => .error (.Errorf "failed to convert txData to a MinterDefinitionTx: %v" err)
  | .ok mdtx => .ok (mdtx.Encode he)

/-- DecodeTransactionData of the Minter-Definition controller, reading from
the stream `r`. -/
def MinterDefinitionTransactionController.DecodeTransactionData (he : HostEncoding C F)
    (_mdtc : MinterDefinitionTransactionController C) (r : List Byte) :
    Outcome (TransactionData C F) :=
  match MinterDefinitionTransaction.Decode he r with
  | .error err =>
    .error (.Errorf "failed to binary-decode tx as a MinterDefinitionTx: %v" err)
  | .ok mdtx => .ok mdtx.TransactionData

/-- InputSigHash of the Coin-Creation controller.  An extra object is given
by the bytes the host encoder writes for it; the input index is ignored. -/
def CoinCreationTransactionController.InputSigHash (he : HostEncoding C F)
    (_cctc : CoinCreationTransactionController C) (t : Transaction C F) (_inputIndex : Nat)
    (extraObjects : List (List Byte)) : Outcome (List Byte) :=
  match CoinCreationTransactionFromTransaction t with
  | .panic => .panic
  | .error err => .error (.Errorf "failed to use tx as a coin creation tx: %v" err)
  | .ok cctx =>
    .ok (he.Hash
      (he.EncodeVersion t.Version ++ SpecifierCoinCreationTransaction ++ cctx.Nonce.val
        ++ (if extraObjects.length > 0 then extraObjects.flatten else [])
        ++ (he.EncodeCoinOutputs cctx.CoinOutputs ++ he.EncodeCurrencies cctx.MinerFees
          ++ he.EncodeBytes cctx.ArbitraryData)))

/-- InputSigHash of the Minter-Definition controller.  An extra object is
given by the bytes the host encoder writes for it; the input index is
ignored. -/
def MinterDefinitionTransactionController.InputSigHash (he : HostEncoding C F)
    (_mdtc : MinterDefinitionTransactionController C) (t : Transaction C F)
    (_inputIndex : Nat) (extraObjects : List (List Byte)) : Outcome (List Byte) :=
  match MinterDefinitionTransactionFromTransaction t with
  | .panic => .panic
  | .error err => .error (.Errorf "failed to use tx as a MinterDefinitionTx: %v" err)
  | .ok mdtx =>
    .ok (he.Hash
      (he.EncodeVersion t.Version ++ SpecifierMintDefinitionTransaction ++ mdtx.Nonce.val
        ++ (if extraObjects.length > 0 then extraObjects.flatten else [])
        ++ (he.EncodeCondition mdtx.MintCondition ++ he.EncodeCurrencies mdtx.MinerFees
          ++ he.EncodeBytes mdtx.ArbitraryData)))

/-! ## A small encoding, to run the encoders on concrete data

Conditions and fulfillments are single bytes; a number is written in unary
(that many bytes 1, then a byte 0), a list as its length and its elements. -/

/-- A number in unary. -/
def encodeUnary (n : Nat) : List Byte := List.replicate n 1 ++ [0]

/-- Reader of a number in unary. -/
def decodeUnary : List Byte → Except Error (Nat × List Byte)
  | [] => .error (.New "unexpected EOF")
  | b :: r =>
    if b = 0 then .ok (0, r)
    else
      match decodeUnary r with
      | .error err => .error err
      | .ok (n, r) => .ok (n + 1, r)

/-- A list: its length in unary, then its elements. -/
def encodeList {α : Type} (enc : α → List Byte) (l : List α) : List Byte :=
  encodeUnary l.length ++ (l.map enc).flatten

/-- Reader of `n` elements. -/
def decodeMany {α : Type} (dec : List Byte → Except Error (α × List Byte)) :
    Nat → List Byte → Except Error (List α × List Byte)
  | 0, r => .ok ([], r)
  | n + 1, r =>
    match dec r with
    | .error err => .error err
    | .ok (a, r) =>
      match decodeMany dec n r with
      | .error err => .error err
      | .ok (l, r) => .ok (a :: l, r)

/-- Reader of a list. -/
def decodeList {α : Type} (dec : List Byte → Except Error (α × List Byte))
    (r : List Byte) : Except Error (List α × List Byte) :=
  match decodeUnary r with
  | .error err => .error err
  | .ok (n, r) => decodeMany dec n r

/-- Reader of one byte. -/
def decodeByte : List Byte → Except Error (Byte × List Byte)
  | [] => .error (.New "unexpected EOF")
  | b :: r => .ok (b, r)

/-- A coin output: its value in unary, then the byte of its condition. -/
def encodeByteOutput (o : CoinOutput Byte) : List Byte := encodeUnary o.Value ++ [o.Condition]

/-- Reader of a coin output. -/
def decodeByteOutput (r : List Byte) : Except Error (CoinOutput Byte × List Byte) :=
  match decodeUnary r with
  | .error err => .error err
  | .ok (v, r) =>
    match decodeByte r with
    | .error err => .error err
    | .ok (c, r) => .ok ({ Value := v, Condition := c }, r)

/-- The small encoding; its hash is the identity. -/
def byteEncoding : HostEncoding Byte Byte where
  EncodeVersion := fun v => [Fin.ofNat v]
  EncodeFulfillment := fun f => [f]
  DecodeFulfillment := decodeByte
  EncodeCondition := fun c => [c]
  DecodeCondition := decodeByte
  EncodeCoinOutputs := encodeList encodeByteOutput
  DecodeCoinOutputs := decodeList decodeByteOutput
  EncodeCurrencies := encodeList encodeUnary
  DecodeCurrencies := decodeList decodeUnary
  EncodeBytes := encodeList (fun b => [b])
  DecodeBytes := decodeList decodeByte
  ReadError := fun _ => .New "unexpected EOF"
  Hash := fun b => b

/-- Valid Coin-Creation transaction data over byte conditions: two outputs,
one fee, three bytes of arbitrary data. -/
def byteCoinCreationData : TransactionData Byte Byte :=
  { CoinInputs := [], CoinOutputs := [{ Value := 3, Condition := 7 }, { Value := 1, Condition := 9 }],
    BlockStakeInputs := [], BlockStakeOutputs := [], MinerFees := [2],
    ArbitraryData := [10, 20, 30],
    Extension := .coinCreation (some { Nonce := nonceOne, MintFulfillment := 5 }) }

/-- Valid Minter-Definition transaction data over byte conditions. -/
def byteMinterDefinitionData : TransactionData Byte Byte :=
  { CoinInputs := [], CoinOutputs := [], BlockStakeInputs := [], BlockStakeOutputs := [],
    MinerFees := [2], ArbitraryData := [],
    Extension := .minterDefinition
      (some { Nonce := nonceOne, MintFulfillment := 5, MintCondition := 6 }) }

/-- A transaction of the default base kind that carries a coin-creation
extension. -/
def txWrongVersion : Transaction SampleCondition SampleFulfillment :=
  { Version := 1, CoinInputs := [], CoinOutputs := [outputHundred], BlockStakeInputs := [],
    BlockStakeOutputs := [], MinerFees := [1], ArbitraryData := [],
    Extension := .coinCreation (some { Nonce := nonceOne, MintFulfillment := [devKey] }) }

/-- A host encoding over the conditions of the small host that writes
nothing; enough to run InputSigHash on a transaction that is rejected. -/
def emptyEncoding : HostEncoding SampleCondition SampleFulfillment where
  EncodeVersion := fun _ => []
  EncodeFulfillment := fun _ => []
  DecodeFulfillment := fun _ => .error (.New "unexpected EOF")
  EncodeCondition := fun _ => []
  DecodeCondition := fun _ => .error (.New "unexpected EOF")
  EncodeCoinOutputs := fun _ => []
  DecodeCoinOutputs := fun _ => .error (.New "unexpected EOF")
  EncodeCurrencies := fun _ => []
  DecodeCurrencies := fun _ => .error (.New "unexpected EOF")
  EncodeBytes := fun _ => []
  DecodeBytes := fun _ => .error (.New "unexpected EOF")
  ReadError := fun _ => .New "unexpected EOF"
  Hash := fun b => b

/-! ## Text form

A JSON document is modelled as a tree; rendering a tree as text and parsing
text into a tree are left to the standard library.  `json.Marshal` writes a
struct as an object whose members are the fields in the order of their
declaration, under the names of their `json` tags, and leaves out a field
tagged `omitempty` when it is empty.  `json.Unmarshal` into a struct leaves the
struct at its zero value for the document `null`, and for an object goes
through the members in order: the field of a member is the one whose tag equals
the name or else the first one whose tag equals it up to case, a member without
field is skipped, and the value of a member is decoded into its field.  In the
model the first member that fails to decode ends the decoding. -/

/-- A JSON document. -/
inductive Json
  | null
  | bool (b : Bool)
  | num (n : Int)
  | str (s : String)
  | arr (items : List Json)
  | obj (members : List (String × Json))

/-- The JSON encoders and decoders of the standard library and of the host
library on the field types of the two mint-class transactions: byte slices
(base64 strings), fulfillments, conditions, slices of coin outputs and slices of
currencies; the comparison of names up to case; the error for a document that
cannot be decoded into a struct; the zero values of the host types. -/
structure HostJson (C F : Type) where
  MarshalBytes : List Byte → Json
  UnmarshalBytes : Json → Except Error (List Byte)
  MarshalFulfillment : F → Json
  UnmarshalFulfillment : Json → Except Error F
  MarshalCondition : C → Json
  UnmarshalCondition : Json → Except Error C
  MarshalCoinOutputs : List (CoinOutput C) → Json
  UnmarshalCoinOutputs : Json → Except Error (List (CoinOutput C))
  MarshalCurrencies : List Currency → Json
  UnmarshalCurrencies : Json → Except Error (List Currency)
  EqualFold : String → String → Bool
  UnmarshalTypeError : Json → Error
  ZeroFulfillment : F
  ZeroCondition : C

/-- The round-trip laws of the JSON encoders of the host: every decoder reads
back what its encoder wrote. -/
structure HostJson.Lawful (hj : HostJson C F) : Prop where
  bytes : ∀ b, hj.UnmarshalBytes (hj.MarshalBytes b) = .ok b
  fulfillment : ∀ f, hj.UnmarshalFulfillment (hj.MarshalFulfillment f) = .ok f
  condition : ∀ c, hj.UnmarshalCondition (hj.MarshalCondition c) = .ok c
  coinOutputs : ∀ o, hj.UnmarshalCoinOutputs (hj.MarshalCoinOutputs o) = .ok o
  currencies : ∀ m, hj.UnmarshalCurrencies (hj.MarshalCurrencies m) = .ok m

/-- MarshalJSON of TransactionNonce: the JSON encoding of the byte slice
`tn[:]`. -/
def TransactionNonce.MarshalJSON (hj : HostJson C F) (tn : TransactionNonce) : Json :=
  hj.MarshalBytes tn.val

/-- UnmarshalJSON of TransactionNonce: the nonce after the call and the error
returned.  The input is decoded as a byte slice; a slice of another length than
TransactionNonceLength is refused and the nonce stays as it was. -/
def TransactionNonce.UnmarshalJSON (hj : HostJson C F) (tn : TransactionNonce)
    (input : Json) : TransactionNonce × Option Error :=
  match hj.UnmarshalBytes input with
  | .error err => (tn, some err)
  | .ok out =>
    if hlen : out.length ≠ TransactionNonceLength then
      (tn, some (.New "invalid tx nonce length"))
    else (⟨out, not_not.mp hlen⟩, none)

/-- The field of a struct, given by its tag, that `json.Unmarshal` decodes a
member named `key` into. -/
def jsonField (hj : HostJson C F) (tags : List String) (key : String) : Option String :=
  match tags.find? (fun tag => tag = key) with
  | some tag => some tag
  | none => tags.find? (fun tag => hj.EqualFold tag key)

/-- The walk of `json.Unmarshal` through the members of an object. -/
def jsonUnmarshalMembers {α : Type} (setMember : α → String × Json → Except Error α) :
    α → List (String × Json) → Except Error α
  | a, [] => .ok a
  | a, member :: rest =>
    match setMember a member with
    | .error err => .error err
    | .ok a => jsonUnmarshalMembers setMember a rest

/-- The `json` tags of CoinCreationTransaction, in the order of the fields. -/
def coinCreationJsonTags : List String :=
  ["nonce", "mintfulfillment", "coinoutputs", "minerfees", "arbitrarydata"]

/-- The `json` tags of MinterDefinitionTransaction, in the order of the
fields. -/
def minterDefinitionJsonTags : List String :=
  ["nonce", "mintfulfillment", "mintcondition", "minerfees", "arbitrarydata"]

/-- The members `json.Marshal` writes for a CoinCreationTransaction;
`arbitrarydata` is tagged `omitempty`. -/
def CoinCreationTransaction.jsonMembers (hj : HostJson C F)
    (cctx : CoinCreationTransaction C F) : List (String × Json) :=
  [ ("nonce", cctx.Nonce.MarshalJSON hj),
    ("mintfulfillment", hj.MarshalFulfillment cctx.MintFulfillment),
    ("coinoutputs", hj.MarshalCoinOutputs cctx.CoinOutputs),
    ("minerfees", hj.MarshalCurrencies cctx.MinerFees) ]
  ++ (if cctx.ArbitraryData.length = 0 then []
      else [("arbitrarydata", hj.MarshalBytes cctx.ArbitraryData)])

/-- The document `json.Marshal` writes for a CoinCreationTransaction. -/
def CoinCreationTransaction.jsonMarshal (hj : HostJson C F)
    (cctx : CoinCreationTransaction C F) : Json :=
  .obj (cctx.jsonMembers hj)

/-- The members `json.Marshal` writes for a MinterDefinitionTransaction;
`arbitrarydata` is tagged `omitempty`. -/
def MinterDefinitionTransaction.jsonMembers (hj : HostJson C F)
    (mdtx : MinterDefinitionTransaction C F) : List (String × Json) :=
  [ ("nonce", mdtx.Nonce.MarshalJSON hj),
    ("mintfulfillment", hj.MarshalFulfillment mdtx.MintFulfillment),
    ("mintcondition", hj.MarshalCondition mdtx.MintCondition),
    ("minerfees", hj.MarshalCurrencies mdtx.MinerFees) ]
  ++ (if mdtx.ArbitraryData.length = 0 then []
      else [("arbitrarydata", hj.MarshalBytes mdtx.ArbitraryData)])

/-- The document `json.Marshal` writes for a MinterDefinitionTransaction. -/
def MinterDefinitionTransaction.jsonMarshal (hj : HostJson C F)
    (mdtx : MinterDefinitionTransaction C F) : Json :=
  .obj (mdtx.jsonMembers hj)

/-- One member of an object decoded into a CoinCreationTransaction. -/
def CoinCreationTransaction.jsonSetMember (hj : HostJson C F)
    (cctx : CoinCreationTransaction C F) (member : String × Json) :
    Except Error (CoinCreationTransaction C F) :=
  match jsonField hj coinCreationJsonTags member.1 with
  | none => .ok cctx
  | some tag =>
    if tag = "nonce" then
      match cctx.Nonce.UnmarshalJSON hj member.2 with
      | (_, some err) => .error err
      | (nonce, none) => .ok { cctx with Nonce := nonce }
    else if tag = "mintfulfillment" then
      match hj.UnmarshalFulfillment member.2 with
      | .error err => .error err
      | .ok fulfillment => .ok { cctx with MintFulfillment := fulfillment }
    else if tag = "coinoutputs" then
      match hj.UnmarshalCoinOutputs member.2 with
      | .error err => .error err
      | .ok outputs => .ok { cctx with CoinOutputs := outputs }
    else if tag = "minerfees" then
      match hj.UnmarshalCurrencies member.2 with
      | .error err => .error err
      | .ok fees => .ok { cctx with MinerFees := fees }
    else
      match hj.UnmarshalBytes member.2 with
      | .error err => .error err
      | .ok data => .ok { cctx with ArbitraryData := data }

/-- One member of an object decoded into a MinterDefinitionTransaction. -/
def MinterDefinitionTransaction.jsonSetMember (hj : HostJson C F)
    (mdtx : MinterDefinitionTransaction C F) (member : String × Json) :
    Except Error (MinterDefinitionTransaction C F) :=
  match jsonField hj minterDefinitionJsonTags member.1 with
  | none => .ok mdtx
  | some tag =>
    if tag = "nonce" then
      match mdtx.Nonce.UnmarshalJSON hj member.2 with
      | (_, some err) => .error err
      | (nonce, none) => .ok { mdtx with Nonce := nonce }
    else if tag = "mintfulfillment" then
      match hj.UnmarshalFulfillment member.2 with
      | .error err => .error err
      | .ok fulfillment => .ok { mdtx with MintFulfillment := fulfillment }
    else if tag = "mintcondition" then
      match hj.UnmarshalCondition member.2 with
      | .error err => .error err
      | .ok condition => .ok { mdtx with MintCondition := condition }
    else if tag = "minerfees" then
      match hj.UnmarshalCurrencies member.2 with
      | .error err => .error err
      | .ok fees => .ok { mdtx with MinerFees := fees }
    else
      match hj.UnmarshalBytes member.2 with
      | .error err => .error err
      | .ok data => .ok { mdtx with ArbitraryData := data }

/-- `json.Unmarshal` of a document into a zero CoinCreationTransaction. -/
def CoinCreationTransaction.jsonUnmarshal (hj : HostJson C F) (data : Json) :
    Except Error (CoinCreationTransaction C F) :=
  let zero : CoinCreationTransaction C F :=
    { Nonce := TransactionNonce.zero, MintFulfillment := hj.ZeroFulfillment,
      CoinOutputs := [], MinerFees := [], ArbitraryData := [] }
  match data with
  | .null => .ok zero
  | .obj members => jsonUnmarshalMembers (CoinCreationTransaction.jsonSetMember hj) zero members
  | other => .error (hj.UnmarshalTypeError other)

/-- `json.Unmarshal` of a document into a zero MinterDefinitionTransaction. -/
def MinterDefinitionTransaction.jsonUnmarshal (hj : HostJson C F) (data : Json) :
    Except Error (MinterDefinitionTransaction C F) :=
  let zero : MinterDefinitionTransaction C F :=
    { Nonce := TransactionNonce.zero, MintFulfillment := hj.ZeroFulfillment,
      MintCondition := hj.ZeroCondition, MinerFees := [], ArbitraryData := [] }
  match data with
  | .null => .ok zero
  | .obj members =>
    jsonUnmarshalMembers (MinterDefinitionTransaction.jsonSetMember hj) zero members
  | other => .error (hj.UnmarshalTypeError other)

/-- JSONEncodeTransactionData of the Coin-Creation controller. -/
def CoinCreationTransactionController.JSONEncodeTransactionData (hj : HostJson C F)
    (_cctc : CoinCreationTransactionController C) (txData : TransactionData C F) :
    Outcome Json :=
  match CoinCreationTransactionFromTransactionData txData with
  | .panic => .panic
  | .error err => .error (.Errorf "failed to convert txData to a CoinCreationTx: %v" err)
  | .ok cctx => .ok (cctx.jsonMarshal hj)

/-- JSONDecodeTransactionData of the Coin-Creation controller. -/
def CoinCreationTransactionController.JSONDecodeTransactionData (hj : HostJson C F)
    (_cctc : CoinCreationTransactionController C) (data : Json) :
    Outcome (TransactionData C F) :=
  match CoinCreationTransaction.jsonUnmarshal hj data with
  | .error err => .error (.Errorf "failed to json-decode tx as a CoinCreationTx: %v" err)
  | .ok cctx => .ok cctx.TransactionData

/-- JSONEncodeTransactionData of the Minter-Definition controller. -/
def MinterDefinitionTransactionController.JSONEncodeTransactionData (hj : HostJson C F)
    (_mdtc : MinterDefinitionTransactionController C) (txData : TransactionData C F) :
    Outcome Json :=
  match MinterDefinitionTransactionFromTransactionData txData with
  | .panic => .panic
  | .error err => .error (.Errorf "failed to convert txData to a MinterDefinitionTx: %v" err)
  | .ok mdtx => .ok (mdtx.jsonMarshal hj)

/-- JSONDecodeTransactionData of the Minter-Definition controller. -/
def MinterDefinitionTransactionController.JSONDecodeTransactionData (hj : HostJson C F)
    (_mdtc : MinterDefinitionTransactionController C) (data : Json) :
    Outcome (TransactionData C F) :=
  match MinterDefinitionTransaction.jsonUnmarshal hj data with
  | .error err => .error (.Errorf "failed to json-decode tx as a MinterDefinitionTx: %v" err)
  | .ok mdtx => .ok mdtx.TransactionData

/-! ## A small JSON encoding, to run the text form on concrete data

Over byte conditions and fulfillments: a byte and a currency are numbers, a
list is an array, a coin output an object with its value and condition. -/

/-- A byte as a number. -/
def jsonOfByte (b : Byte) : Json := .num (Int.ofNat b.val)

/-- Reader of a byte. -/
def byteOfJson : Json → Except Error Byte
  | .num n => if hlt : n.toNat < 256 then .ok ⟨n.toNat, hlt⟩ else .error (.New "out of range")
  | _ => .error (.New "cannot unmarshal into a byte")

/-- A currency as a number. -/
def jsonOfCurrency (c : Currency) : Json := .num (Int.ofNat c)

/-- Reader of a currency. -/
def currencyOfJson : Json → Except Error Currency
  | .num n => .ok n.toNat
  | _ => .error (.New "cannot unmarshal into a currency")

/-- A coin output as an object. -/
def jsonOfByteOutput (o : CoinOutput Byte) : Json :=
  .obj [("value", jsonOfCurrency o.Value), ("condition", jsonOfByte o.Condition)]

/-- Reader of a coin output. -/
def byteOutputOfJson : Json → Except Error (CoinOutput Byte)
  | .obj [("value", v), ("condition", c)] =>
    match currencyOfJson v with
    | .error err => .error err
    | .ok value =>
      match byteOfJson c with
      | .error err => .error err
      | .ok condition => .ok { Value := value, Condition := condition }
  | _ => .error (.New "cannot unmarshal into a coin output")

/-- Reader of the items of an array. -/
def itemsOfJson {α : Type} (dec : Json → Except Error α) : List Json → Except Error (List α)
  | [] => .ok []
  | item :: rest =>
    match dec item with
    | .error err => .error err
    | .ok a =>
      match itemsOfJson dec rest with
      | .error err => .error err
      | .ok l => .ok (a :: l)

/-- A list as an array. -/
def jsonOfList {α : Type} (enc : α → Json) (l : List α) : Json := .arr (l.map enc)

/-- Reader of a list; `null` is the empty list. -/
def listOfJson {α : Type} (dec : Json → Except Error α) : Json → Except Error (List α)
  | .arr items => itemsOfJson dec items
  | .null => .ok []
  | _ => .error (.New "cannot unmarshal into a slice")

/-- The small JSON encoding. -/
def byteJson : HostJson Byte Byte where
  MarshalBytes := jsonOfList jsonOfByte
  UnmarshalBytes := listOfJson byteOfJson
  MarshalFulfillment := jsonOfByte
  UnmarshalFulfillment := byteOfJson
  MarshalCondition := jsonOfByte
  UnmarshalCondition := byteOfJson
  MarshalCoinOutputs := jsonOfList jsonOfByteOutput
  UnmarshalCoinOutputs := listOfJson byteOutputOfJson
  MarshalCurrencies := jsonOfList jsonOfCurrency
  UnmarshalCurrencies := listOfJson currencyOfJson
  EqualFold := fun a b => a.toLower == b.toLower
  UnmarshalTypeError := fun _ => .New "cannot unmarshal into a struct"
  ZeroFulfillment := 0
  ZeroCondition := 0

/-- Valid Coin-Creation transaction data over byte conditions with empty
arbitrary data. -/
def byteDataNoArbitraryData : TransactionData Byte Byte :=
  { CoinInputs := [], CoinOutputs := [{ Value := 3, Condition := 7 }],
    BlockStakeInputs := [], BlockStakeOutputs := [], MinerFees := [2],
    ArbitraryData := [],
    Extension := .coinCreation (some { Nonce := nonceOne, MintFulfillment := 5 }) }

/-! ## Transaction ID input, signature-hash pre-image, signing, output validators -/

/-- EncodeTransactionIDInput of the Coin-Creation controller: the bytes
written to the writer, the specifier and then the struct. -/
def CoinCreationTransactionController.EncodeTransactionIDInput (he : HostEncoding C F)
    (_cctc : CoinCreationTransactionController C) (txData : TransactionData C F) :
    Outcome (List Byte) :=
  match CoinCreationTransactionFromTransactionData txData with
  | .panic => .panic
  | .error err => .error (.Errorf "failed to convert txData to a CoinCreationTx: %v" err)
  | .ok cctx => .ok (SpecifierCoinCreationTransaction ++ cctx.Encode he)

/-- EncodeTransactionIDInput of the Minter-Definition controller: the bytes
written to the writer, the specifier and then the struct. -/
def MinterDefinitionTransactionController.EncodeTransactionIDInput (he : HostEncoding C F)
    (_mdtc : MinterDefinitionTransactionController C) (txData : TransactionData C F) :
    Outcome (List Byte) :=
  match MinterDefinitionTransactionFromTransactionData txData with
  | .panic => .panic
  | .error err => .error (.Errorf "failed to convert txData to a MinterDefinitionTx: %v" err)
  | .ok mdtx => .ok (SpecifierMintDefinitionTransaction ++ mdtx.Encode he)

/-- The bytes InputSigHash of the Coin-Creation controller writes to the
hasher, in the order of its three groups of writes. -/
def CoinCreationTransactionController.inputSigHashPreimage (he : HostEncoding C F)
    (t : Transaction C F) (extraObjects : List (List Byte)) : Outcome (List Byte) :=
  match CoinCreationTransactionFromTransaction t with
  | .panic => .panic
  | .error err => .error (.Errorf "failed to use tx as a coin creation tx: %v" err)
  | .ok cctx =>
    .ok (he.EncodeVersion t.Version ++ SpecifierCoinCreationTransaction ++ cctx.Nonce.val
      ++ (if extraObjects.length > 0 then extraObjects.flatten else [])
      ++ (he.EncodeCoinOutputs cctx.CoinOutputs ++ he.EncodeCurrencies cctx.MinerFees
        ++ he.EncodeBytes cctx.ArbitraryData))

/-- The bytes InputSigHash of the Minter-Definition controller writes to the
hasher, in the order of its three groups of writes. -/
def MinterDefinitionTransactionController.inputSigHashPreimage (he : HostEncoding C F)
    (t : Transaction C F) (extraObjects : List (List Byte)) : Outcome (List Byte) :=
  match MinterDefinitionTransactionFromTransaction t with
  | .panic => .panic
  | .error err => .error (.Errorf "failed to use tx as a MinterDefinitionTx: %v" err)
  | .ok mdtx =>
    .ok (he.EncodeVersion t.Version ++ SpecifierMintDefinitionTransaction ++ mdtx.Nonce.val
      ++ (if extraObjects.length > 0 then extraObjects.flatten else [])
      ++ (he.EncodeCondition mdtx.MintCondition ++ he.EncodeCurrencies mdtx.MinerFees
        ++ he.EncodeBytes mdtx.ArbitraryData))

/-- The result of a Go function on the value it returns. -/
def Outcome.map {α β : Type} (f : α → β) : Outcome α → Outcome β
  | .ok a => .ok (f a)
  | .error e => .error e
  | .panic => .panic

/-- The signing callback `func(*UnlockFulfillmentProxy, UnlockConditionProxy)
error` handed to SignExtension: from the state `S` of its caller, the
fulfillment behind the pointer and the condition, to the state after the call,
the fulfillment it leaves behind the pointer and the error it returns. -/
abbrev SignCallback (S C F : Type) := S → F → C → S × F × Option Error

/-- SignExtension of the Coin-Creation controller, from the state `s` of the
caller of the callback: the state after the call and the result.  The returned
extension is the pointer received, whose MintFulfillment the callback has
written.  A nil pointer of the extension type passes the type assertion and
panics when the address of its field is taken. -/
def CoinCreationTransactionController.SignExtension {S : Type}
    (cctc : CoinCreationTransactionController C) (extension : Extension C F)
    (sign : SignCallback S C F) (s : S) : S × Outcome (Extension C F) :=
  match extension with
  | .coinCreation (some ccTxExtension) =>
    match sign s ccTxExtension.MintFulfillment cctc.MintCondition with
    | (s, _, some err) =>
      (s, .error (.Errorf "failed to sign mint fulfillment of coin creation tx: %v" err))
    | (s, fulfillment, none) =>
      (s, .ok (.coinCreation (some { ccTxExtension with MintFulfillment := fulfillment })))
  | .coinCreation none => (s, .panic)
  | _ => (s, .error (.New "invalid extension data for a CoinCreationTransaction"))

/-- SignExtension of the Minter-Definition controller, from the state `s` of
the caller of the callback: the state after the call and the result. -/
def MinterDefinitionTransactionController.SignExtension {S : Type}
    (mdtc : MinterDefinitionTransactionController C) (extension : Extension C F)
    (sign : SignCallback S C F) (s : S) : S × Outcome (Extension C F) :=
  match extension with
  | .minterDefinition (some mdTxExtension) =>
    match sign s mdTxExtension.MintFulfillment mdtc.MintCondition with
    | (s, _, some err) =>
      (s, .error (.Errorf "failed to sign mint fulfillment of MinterDefinitionTx: %v" err))
    | (s, fulfillment, none) =>
      (s, .ok (.minterDefinition (some { mdTxExtension with MintFulfillment := fulfillment })))
  | .minterDefinition none => (s, .panic)
  | _ => (s, .error (.New "invalid extension data for a MinterDefinitionTx"))

/-- The context `types.FundValidationContext` of the output validators. -/
structure FundValidationContext where
  BlockHeight : Nat
  BlockTime : Nat
  deriving DecidableEq, Repr

/-- A Go map from output IDs to outputs, `map[types.CoinOutputID]types.CoinOutput`
and `map[types.BlockStakeOutputID]types.BlockStakeOutput`, as the list of its
entries. -/
abbrev OutputMap (C : Type) := List (List Byte × CoinOutput C)

/-- ValidateCoinOutputs of the Coin-Creation controller. -/
def CoinCreationTransactionController.ValidateCoinOutputs
    (_cctc : CoinCreationTransactionController C) (_t : Transaction C F)
    (_ctx : FundValidationContext) (_coinInputs : OutputMap C) : Outcome Unit :=
  .ok ()

/-- ValidateBlockStakeOutputs of the Coin-Creation controller. -/
def CoinCreationTransactionController.ValidateBlockStakeOutputs
    (_cctc : CoinCreationTransactionController C) (_t : Transaction C F)
    (_ctx : FundValidationContext) (_blockStakeInputs : OutputMap C) : Outcome Unit :=
  .ok ()

/-- ValidateCoinOutputs of the Minter-Definition controller. -/
def MinterDefinitionTransactionController.ValidateCoinOutputs
    (_mdtc : MinterDefinitionTransactionController C) (_t : Transaction C F)
    (_ctx : FundValidationContext) (_coinInputs : OutputMap C) : Outcome Unit :=
  .ok ()

/-- ValidateBlockStakeOutputs of the Minter-Definition controller. -/
def MinterDefinitionTransactionController.ValidateBlockStakeOutputs
    (_mdtc : MinterDefinitionTransactionController C) (_t : Transaction C F)
    (_ctx : FundValidationContext) (_blockStakeInputs : OutputMap C) : Outcome Unit :=
  .ok ()

/-- A valid Coin-Creation transaction over byte conditions. -/
def byteCoinCreationTx : Transaction Byte Byte :=
  { Version := 129, CoinInputs := [],
    CoinOutputs := [{ Value := 3, Condition := 7 }, { Value := 1, Condition := 9 }],
    BlockStakeInputs := [], BlockStakeOutputs := [], MinerFees := [2],
    ArbitraryData := [10, 20, 30],
    Extension := .coinCreation (some { Nonce := nonceOne, MintFulfillment := 5 }) }

/-- A valid Minter-Definition transaction over byte conditions, proposing the
condition `newCondition`. -/
def byteMinterDefinitionTx (newCondition : Byte) : Transaction Byte Byte :=
  { Version := 128, CoinInputs := [], CoinOutputs := [], BlockStakeInputs := [],
    BlockStakeOutputs := [], MinerFees := [2], ArbitraryData := [],
    Extension := .minterDefinition
      (some { Nonce := nonceOne, MintFulfillment := 5, MintCondition := newCondition }) }

/-- The transaction `t` with another extension and every other field as it
is. -/
def Transaction.withExtension (t : Tfchain.Transaction C F)
    (extension : Tfchain.Extension C F) : Tfchain.Transaction C F :=
  { t with Extension := extension }

/-- Transaction data without extension. -/
def byteDataNoExtension : TransactionData Byte Byte :=
  { CoinInputs := [], CoinOutputs := [{ Value := 3, Condition := 7 }],
    BlockStakeInputs := [], BlockStakeOutputs := [], MinerFees := [2],
    ArbitraryData := [], Extension := .nil }

/-- A signing callback that leaves the fulfillment as it is and reports no
error. -/
def idleSign : SignCallback Unit SampleCondition SampleFulfillment :=
  fun s fulfillment _ => (s, fulfillment, none)

/-- A signing callback that signs a single-key condition with the key of the
condition and refuses every other condition. -/
def honestSign : SignCallback Unit SampleCondition SampleFulfillment :=
  fun s fulfillment condition =>
    match condition with
    | .unlockHash uh => (s, uh :: fulfillment, none)
    | _ => (s, fulfillment, some (.New "cannot sign"))

/-- An unsigned coin-creation extension. -/
def unsignedExtension : Extension SampleCondition SampleFulfillment :=
  .coinCreation (some { Nonce := nonceOne, MintFulfillment := [] })

/-- A Fulfill of the small host that behaves as the one of `sampleHost` up to
block height 7 and refuses every fulfillment above it, as a host would whose
conditions were replaced after height 7. -/
def laterUpdateFulfill (c : SampleCondition) (f : SampleFulfillment)
    (fc : FulfillContext SampleCondition SampleFulfillment) : Option Error :=
  if fc.BlockHeight ≤ 7 then sampleHost.Fulfill c f fc
  else some (.New "mint condition replaced")

/-- Constants with a minimum miner fee of zero. -/
def constantsZeroFee : TransactionValidationConstants :=
  { BlockSizeLimit := 2000000, ArbitraryDataSizeLimit := 83, MinimumMinerFee := 0 }

/-- A transaction of the default base kind with one miner fee of zero. -/
def txBaseKindZeroFee : Transaction SampleCondition SampleFulfillment :=
  { Version := 1, CoinInputs := [], CoinOutputs := [], BlockStakeInputs := [],
    BlockStakeOutputs := [], MinerFees := [0], ArbitraryData := [],
    Extension := .nil }

/-- A transaction of the default base kind with one miner fee of 100000000. -/
def txBaseKindNominalFee : Transaction SampleCondition SampleFulfillment :=
  { Version := 1, CoinInputs := [], CoinOutputs := [], BlockStakeInputs := [],
    BlockStakeOutputs := [], MinerFees := [100000000], ArbitraryData := [],
    Extension := .nil }

/-- Transaction returns this CoinCreationTransaction as regular transaction,
using TransactionVersionCoinCreation as the type.  The fields the source does
not set are the empty slices. -/
def CoinCreationTransaction.Transaction (cctx : CoinCreationTransaction C F) :
    Tfchain.Transaction C F :=
  { Version := TransactionVersionCoinCreation,
    CoinInputs := [], CoinOutputs := cctx.CoinOutputs, BlockStakeInputs := [],
    BlockStakeOutputs := [], MinerFees := cctx.MinerFees,
    ArbitraryData := cctx.ArbitraryData,
    Extension := .coinCreation
      (some { Nonce := cctx.Nonce, MintFulfillment := cctx.MintFulfillment }) }

/-- Transaction returns this MinterDefinitionTransaction as regular
transaction, using TransactionVersionMinterDefinition as the type. -/
def MinterDefinitionTransaction.Transaction (cctx : MinterDefinitionTransaction C F) :
    Tfchain.Transaction C F :=
  { Version := TransactionVersionMinterDefinition,
    CoinInputs := [], CoinOutputs := [], BlockStakeInputs := [],
    BlockStakeOutputs := [], MinerFees := cctx.MinerFees,
    ArbitraryData := cctx.ArbitraryData,
    Extension := .minterDefinition
      (some { Nonce := cctx.Nonce, MintFulfillment := cctx.MintFulfillment,
              MintCondition := cctx.MintCondition }) }

/-- A CoinCreationTransaction over byte conditions: two outputs, one fee,
three bytes of arbitrary data. -/
def byteCoinCreation : CoinCreationTransaction Byte Byte :=
  { Nonce := nonceOne, MintFulfillment := 5,
    CoinOutputs := [{ Value := 3, Condition := 7 }, { Value := 1, Condition := 9 }],
    MinerFees := [2], ArbitraryData := [10, 20, 30] }

/-- A MinterDefinitionTransaction over byte conditions. -/
def byteMinterDefinition : MinterDefinitionTransaction Byte Byte :=
  { Nonce := nonceOne, MintFulfillment := 5, MintCondition := 6,
    MinerFees := [2], ArbitraryData := [] }

/-- A registry as the host library leaves it before the registration: its own
controllers stored for the tags 0 and 1, and one for the tag 7. -/
def populatedRegistry : Registry SampleCondition := fun v =>
  if v = 0 then some (.hostDefined "legacy")
  else if v = 1 then some (.hostDefined "default")
  else if v = 7 then some (.hostDefined "other")
  else none

/-- Coin-Creation transaction data over byte conditions whose extension is a
nil pointer of the coin-creation extension type; the other fields have the
valid shape. -/
def byteDataNilCoinCreation : TransactionData Byte Byte :=
  { CoinInputs := [], CoinOutputs := [{ Value := 3, Condition := 7 }],
    BlockStakeInputs := [], BlockStakeOutputs := [], MinerFees := [2],
    ArbitraryData := [], Extension := .coinCreation none }

/-- Minter-Definition transaction data over byte conditions whose extension is
a nil pointer of the minter-definition extension type; the other fields have
the valid shape. -/
def byteDataNilMinterDefinition : TransactionData Byte Byte :=
  { CoinInputs := [], CoinOutputs := [], BlockStakeInputs := [], BlockStakeOutputs := [],
    MinerFees := [2], ArbitraryData := [], Extension := .minterDefinition none }

/-- The encoding of a transaction that the size check of the host library
performs before it compares sizes, for the small host: the transaction data of
a version 128 or 129 transaction goes through EncodeTransactionData of the mint
controller registered for that version; the data of the other versions is
encoded by the host library itself. -/
def sampleEncodeTransaction (t : Transaction SampleCondition SampleFulfillment) :
    Outcome (List Byte) :=
  let txData : TransactionData SampleCondition SampleFulfillment :=
    { CoinInputs := t.CoinInputs, CoinOutputs := t.CoinOutputs,
      BlockStakeInputs := t.BlockStakeInputs, BlockStakeOutputs := t.BlockStakeOutputs,
      MinerFees := t.MinerFees, ArbitraryData := t.ArbitraryData,
      Extension := t.Extension }
  if t.Version = TransactionVersionMinterDefinition then
    MinterDefinitionTransactionController.EncodeTransactionData emptyEncoding
      { MintCondition := sampleMintCondition } txData
  else if t.Version = TransactionVersionCoinCreation then
    CoinCreationTransactionController.EncodeTransactionData emptyEncoding
      { MintCondition := sampleMintCondition } txData
  else .ok []

/-- The small host with a size check that encodes the transaction first: a
run-time panic of the encoding is a panic of the size check, and otherwise the
sizes are compared as in `sampleHost`. -/
def encodingHost : Host SampleCondition SampleFulfillment :=
  { sampleHost with
    TransactionFitsInABlock := fun t limit =>
      match sampleEncodeTransaction t with
      | .panic => .panic
      | _ => sampleHost.TransactionFitsInABlock t limit }

/-- A transaction of version 128 with one miner fee whose extension is a nil
pointer of the minter-definition extension type. -/
def txNilMinterExtension : Transaction SampleCondition SampleFulfillment :=
  { Version := 128, CoinInputs := [], CoinOutputs := [], BlockStakeInputs := [],
    BlockStakeOutputs := [], MinerFees := [1], ArbitraryData := [],
    Extension := .minterDefinition none }

/-- A transaction of version 129 with one coin output and one miner fee whose
extension is a nil pointer of the coin-creation extension type. -/
def txNilCoinCreationExtension : Transaction SampleCondition SampleFulfillment :=
  { Version := 129, CoinInputs := [], CoinOutputs := [outputHundred],
    BlockStakeInputs := [], BlockStakeOutputs := [], MinerFees := [1], ArbitraryData := [],
    Extension := .coinCreation none }

/-! ## Lemmas on the conversions and the loops -/

theorem coinCreationFromTransaction_of_shape {t : Transaction C F}
    {ext : CoinCreationTransactionExtension F} (hs : HasCoinCreationShape t ext) :
    CoinCreationTransactionFromTransaction t =
      .ok { Nonce := ext.Nonce, MintFulfillment := ext.MintFulfillment,
            CoinOutputs := t.CoinOutputs, MinerFees := t.MinerFees,
            ArbitraryData := t.ArbitraryData } := by
  obtain ⟨hv, he, ho, hf, hci, hbi, hbo⟩ := hs
  simp [CoinCreationTransactionFromTransaction, CoinCreationTransactionFromTransactionData,
    TransactionVersionCoinCreation, hv, he, ho, hf, hci, hbi, hbo]

theorem coinCreationFromTransaction_ok {t : Transaction C F}
    {cctx : CoinCreationTransaction C F}
    (hc : CoinCreationTransactionFromTransaction t = .ok cctx) :
    ∃ ext, HasCoinCreationShape t ext := by
  unfold CoinCreationTransactionFromTransaction at hc
  split at hc
  · simp at hc
  · rename_i hv
    unfold CoinCreationTransactionFromTransactionData at hc
    simp only at hc
    split at hc
    · rename_i p hp
      split at hc
      · simp at hc
      · split at hc
        · simp at hc
        · rename_i h1 h2
          cases p with
          | none => simp at hc
          | some ext =>
            refine ⟨ext, ?_⟩
            simp only [not_or, List.length_eq_zero, ne_eq, not_not] at h1 h2
            simp only [ne_eq, not_not, TransactionVersionCoinCreation] at hv
            exact ⟨hv, hp, h1.1, h1.2, h2.1, h2.2.1, h2.2.2⟩
    · simp at hc

theorem minterDefinitionFromTransaction_of_shape {t : Transaction C F}
    {ext : MinterDefinitionTransactionExtension C F} (hs : HasMinterDefinitionShape t ext) :
    MinterDefinitionTransactionFromTransaction t =
      .ok { Nonce := ext.Nonce, MintFulfillment := ext.MintFulfillment,
            MintCondition := ext.MintCondition, MinerFees := t.MinerFees,
            ArbitraryData := t.ArbitraryData } := by
  obtain ⟨hv, he, hf, hci, hco, hbi, hbo⟩ := hs
  simp [MinterDefinitionTransactionFromTransaction,
    MinterDefinitionTransactionFromTransactionData,
    TransactionVersionMinterDefinition, hv, he, hf, hci, hco, hbi, hbo]

theorem minterDefinitionFromTransaction_ok {t : Transaction C F}
    {mdtx : MinterDefinitionTransaction C F}
    (hc : MinterDefinitionTransactionFromTransaction t = .ok mdtx) :
    ∃ ext, HasMinterDefinitionShape t ext := by
  unfold MinterDefinitionTransactionFromTransaction at hc
  split at hc
  · simp at hc
  · rename_i hv
    unfold MinterDefinitionTransactionFromTransactionData at hc
    simp only at hc
    split at hc
    · rename_i p hp
      split at hc
      · simp at hc
      · split at hc
        · simp at hc
        · rename_i h1 h2
          cases p with
          | none => simp at hc
          | some ext =>
            refine ⟨ext, ?_⟩
            simp only [not_or, List.length_eq_zero, ne_eq, not_not] at h1 h2
            simp only [ne_eq, not_not, TransactionVersionMinterDefinition] at hv
            exact ⟨hv, hp, h1, h2.1, h2.2.1, h2.2.2.1, h2.2.2.2⟩
    · simp at hc

theorem currency_cmp_eq_neg_one_iff (a b : Currency) : Currency.Cmp a b = -1 ↔ a < b := by
  unfold Currency.Cmp
  split
  · simp [*]
  · split <;> simp [*]

theorem checkMinerFees_eq_none_iff (m : Currency) (fees : List Currency) :
    checkMinerFees m fees = none ↔ ∀ fee ∈ fees, m ≤ fee := by
  induction fees with
  | nil => simp [checkMinerFees]
  | cons fee rest ih =>
    simp only [checkMinerFees, currency_cmp_eq_neg_one_iff, List.mem_cons, forall_eq_or_imp]
    split
    · rename_i hlt
      simp only [reduceCtorEq, false_iff, not_and]
      intro hle
      exact absurd hle (Nat.not_le.mpr hlt)
    · rename_i hge
      rw [ih]
      constructor
      · intro hr
        exact ⟨Nat.le_of_not_lt hge, hr⟩
      · intro hr
        exact hr.2

theorem checkMinerFees_eq_some_iff (m : Currency) (fees : List Currency) (e : Error) :
    checkMinerFees m fees = some e ↔ e = .ErrTooSmallMinerFee ∧ ∃ fee ∈ fees, fee < m := by
  induction fees with
  | nil => simp [checkMinerFees]
  | cons fee rest ih =>
    simp only [checkMinerFees, currency_cmp_eq_neg_one_iff, List.mem_cons, exists_eq_or_imp]
    split
    · rename_i hlt
      simp only [Option.some.injEq, hlt, true_or, and_true]
      exact eq_comm
    · rename_i hge
      rw [ih]
      simp [hge]

theorem checkCoinOutputs_eq_none_iff (h : Host C F) (ctx : ValidationContext)
    (outs : List (CoinOutput C)) :
    checkCoinOutputs h ctx outs = none ↔
      ∀ sco ∈ outs, sco.Value ≠ 0 ∧ h.IsStandardCondition sco.Condition ctx = none := by
  induction outs with
  | nil => simp [checkCoinOutputs]
  | cons sco rest ih =>
    simp only [checkCoinOutputs, Currency.IsZero, beq_iff_eq, List.mem_cons, forall_eq_or_imp]
    split
    · rename_i hz
      simp [hz]
    · rename_i hnz
      cases hstd : h.IsStandardCondition sco.Condition ctx with
      | some err => simp
      | none => simp [ih, hnz]

/-- Outputs that pass the loop are skipped: the loop over `pre ++ rest`
continues with `rest`. -/
theorem checkCoinOutputs_append (h : Host C F) (ctx : ValidationContext)
    (pre rest : List (CoinOutput C))
    (hpre : ∀ sco ∈ pre, sco.Value ≠ 0 ∧ h.IsStandardCondition sco.Condition ctx = none) :
    checkCoinOutputs h ctx (pre ++ rest) = checkCoinOutputs h ctx rest := by
  induction pre with
  | nil => rfl
  | cons sco pre ih =>
    have h1 := hpre sco (List.mem_cons_self _ _)
    have h2 : ∀ s ∈ pre, s.Value ≠ 0 ∧ h.IsStandardCondition s.Condition ctx = none :=
      fun s hs => hpre s (List.mem_cons_of_mem _ hs)
    simp [checkCoinOutputs, Currency.IsZero, h1.1, h1.2, ih h2]

theorem mintConditionTypeCheck_eq_none_iff (h : Host C F) (c : C) :
    mintConditionTypeCheck h c = none ↔
      h.ConditionType c = h.ConditionTypeMultiSignature ∨
        (h.ConditionType c = h.ConditionTypeUnlockHash ∧
          (h.UnlockHash c).Type_ = h.UnlockTypePubKey) := by
  unfold mintConditionTypeCheck
  simp only
  split
  · rename_i hms
    simp [hms]
  · rename_i hms
    split
    · rename_i huh
      split
      · rename_i hpk
        have hd := h.conditionTypes_distinct.symm
        simp [huh, hpk, hd]
      · rename_i hpk
        simp only [ne_eq, not_not] at hpk
        simp [huh, hpk]
    · rename_i huh
      simp [hms, huh]

/-- The registry after the development registration, when the development
unlock hash loads as `uh`. -/
theorem registerDevNetwork_eq (h : Host C F) (reg : Registry C) (uh : UnlockHash)
    (hload : h.LoadString devNetworkMintUnlockHashHex = .ok uh) :
    RegisterTransactionTypesForDevNetwork h reg =
      some (RegisterTransactionVersion
        (RegisterTransactionVersion
          (RegisterTransactionVersion
            (RegisterTransactionVersion reg TransactionVersionZero
              (.Legacy { TransactionFeeCheckBlockHeight := 0 }))
            TransactionVersionOne (.Default { TransactionFeeCheckBlockHeight := 0 }))
          TransactionVersionMinterDefinition
          (.MinterDefinition { MintCondition := h.NewUnlockHashCondition uh }))
        TransactionVersionCoinCreation
        (.CoinCreation { MintCondition := h.NewUnlockHashCondition uh })) := by
  simp only [RegisterTransactionTypesForDevNetwork, unlockHashFromHex, hload, NewCondition]

/-- ValidateTransaction of the Coin-Creation controller on a transaction that
fits in a block and has the coin-creation shape, in terms of the transaction
and its extension data. -/
theorem coinCreation_validate_of_shape (h : Host C F)
    (cctc : CoinCreationTransactionController C) (t : Transaction C F)
    (ctx : ValidationContext) (constants : TransactionValidationConstants)
    (ext : CoinCreationTransactionExtension F)
    (hfit : h.TransactionFitsInABlock t constants.BlockSizeLimit = .ok ())
    (hs : HasCoinCreationShape t ext) :
    CoinCreationTransactionController.ValidateTransaction h cctc t ctx constants =
      match h.Fulfill cctc.MintCondition ext.MintFulfillment (mintFulfillContext t ctx) with
      | some err => .error (.Errorf "failed to fulfill mint condition: %v" err)
      | none =>
        if ext.Nonce = TransactionNonce.zero then
          .error (.New "nil nonce is not allowed for a coin creation transaction")
        else
          match h.ArbitraryDataFits t.ArbitraryData constants.ArbitraryDataSizeLimit with
          | some err => .error err
          | none =>
            match checkMinerFees constants.MinimumMinerFee t.MinerFees with
            | some err => .error err
            | none =>
              match checkCoinOutputs h ctx t.CoinOutputs with
              | some err => .error err
              | none => .ok () := by
  unfold CoinCreationTransactionController.ValidateTransaction
  rw [hfit, coinCreationFromTransaction_of_shape hs]
  rfl

/-- ValidateTransaction of the Minter-Definition controller on a transaction
that fits in a block and has the minter-definition shape, in terms of the
transaction and its extension data. -/
theorem minterDefinition_validate_of_shape (h : Host C F)
    (mdtc : MinterDefinitionTransactionController C) (t : Transaction C F)
    (ctx : ValidationContext) (constants : TransactionValidationConstants)
    (ext : MinterDefinitionTransactionExtension C F)
    (hfit : h.TransactionFitsInABlock t constants.BlockSizeLimit = .ok ())
    (hs : HasMinterDefinitionShape t ext) :
    MinterDefinitionTransactionController.ValidateTransaction h mdtc t ctx constants =
      match h.IsStandardCondition ext.MintCondition ctx with
      | some err =>
        .error (.Errorf
          "defined mint condition is not standard within the given blockchain context: %v" err)
      | none =>
        match mintConditionTypeCheck h ext.MintCondition with
        | some err => .error err
        | none =>
          match h.Fulfill mdtc.MintCondition ext.MintFulfillment (mintFulfillContext t ctx) with
          | some err => .error (.Errorf "failed to fulfill mint condition: %v" err)
          | none =>
            if ext.Nonce = TransactionNonce.zero then
              .error (.New "nil nonce is not allowed for a mint condition transaction")
            else
              match h.ArbitraryDataFits t.ArbitraryData constants.ArbitraryDataSizeLimit with
              | some err => .error err
              | none =>
                match checkMinerFees constants.MinimumMinerFee t.MinerFees with
                | some err => .error err
                | none => .ok () := by
  unfold MinterDefinitionTransactionController.ValidateTransaction
  rw [hfit, minterDefinitionFromTransaction_of_shape hs]
  rfl


/-! ## The Coin-Creation controller -/

/-- C1: a Coin-Creation transaction that fits in a block and has the
coin-creation shape, and whose MintFulfillment the mint condition of the
controller does not accept (Fulfill with input index 0, the height and time of
the context and the transaction itself returns `err`), is rejected with the
authorization error "failed to fulfill mint condition" wrapping `err`,
whatever its nonce, outputs, miner fees and arbitrary data; the result is never
success. -/
theorem coinCreation_unfulfilled_rejected (h : Host C F)
    (cctc : CoinCreationTransactionController C) (t : Transaction C F)
    (ctx : ValidationContext) (constants : TransactionValidationConstants)
    (ext : CoinCreationTransactionExtension F) (err : Error)
    (hfit : h.TransactionFitsInABlock t constants.BlockSizeLimit = .ok ())
    (hs : HasCoinCreationShape t ext)
    (hful : h.Fulfill cctc.MintCondition ext.MintFulfillment
      { InputIndex := 0, BlockHeight := ctx.BlockHeight, BlockTime := ctx.BlockTime,
        Transaction := t } = some err) :
    CoinCreationTransactionController.ValidateTransaction h cctc t ctx constants =
        .error (.Errorf "failed to fulfill mint condition: %v" err) ∧
      CoinCreationTransactionController.ValidateTransaction h cctc t ctx constants ≠ .ok () := by
  have hv := coinCreation_validate_of_shape h cctc t ctx constants ext hfit hs
  simp only [mintFulfillContext, hful] at hv
  rw [hv]
  exact ⟨rfl, by simp⟩

theorem coinCreation_unfulfilled_rejected_witness :
    HasCoinCreationShape txWrongSigner { Nonce := nonceOne, MintFulfillment := [keyA] } ∧
      CoinCreationTransactionController.ValidateTransaction sampleHost
          { MintCondition := sampleMintCondition } txWrongSigner sampleContext sampleConstants =
        .error (.Errorf "failed to fulfill mint condition: %v" (.New "invalid signature")) :=
  ⟨by decide,
    (coinCreation_unfulfilled_rejected sampleHost { MintCondition := sampleMintCondition }
      txWrongSigner sampleContext sampleConstants
      { Nonce := nonceOne, MintFulfillment := [keyA] } (.New "invalid signature")
      (by decide) (by decide) (by decide)).1⟩

/-- C2: ValidateTransaction of the Coin-Creation controller returns success
if and only if the transaction fits in the block size limit, has version 129
and the coin-creation shape, its MintFulfillment fulfills the mint condition of
the controller, its nonce is not all-zero, its arbitrary data fits the size
limit, every miner fee is at least the minimum miner fee of the constants, and
every coin output has a non-zero value and a standard condition. -/
theorem coinCreation_validate_ok_iff (h : Host C F)
    (cctc : CoinCreationTransactionController C) (t : Transaction C F)
    (ctx : ValidationContext) (constants : TransactionValidationConstants) :
    CoinCreationTransactionController.ValidateTransaction h cctc t ctx constants = .ok () ↔
      h.TransactionFitsInABlock t constants.BlockSizeLimit = .ok () ∧
      ∃ ext : CoinCreationTransactionExtension F,
        (t.Version = 129 ∧ t.Extension = .coinCreation (some ext) ∧
          t.CoinOutputs ≠ [] ∧ t.MinerFees ≠ [] ∧
          t.CoinInputs = [] ∧ t.BlockStakeInputs = [] ∧ t.BlockStakeOutputs = []) ∧
        h.Fulfill cctc.MintCondition ext.MintFulfillment
          { InputIndex := 0, BlockHeight := ctx.BlockHeight, BlockTime := ctx.BlockTime,
            Transaction := t } = none ∧
        ext.Nonce ≠ TransactionNonce.zero ∧
        h.ArbitraryDataFits t.ArbitraryData constants.ArbitraryDataSizeLimit = none ∧
        (∀ fee ∈ t.MinerFees, constants.MinimumMinerFee ≤ fee) ∧
        (∀ sco ∈ t.CoinOutputs,
          sco.Value ≠ 0 ∧ h.IsStandardCondition sco.Condition ctx = none) := by
  constructor
  · intro hv
    cases hfit : h.TransactionFitsInABlock t constants.BlockSizeLimit with
    | panic =>
      simp [CoinCreationTransactionController.ValidateTransaction, hfit] at hv
    | error e =>
      simp [CoinCreationTransactionController.ValidateTransaction, hfit] at hv
    | ok u =>
      refine ⟨rfl, ?_⟩
      cases hc : CoinCreationTransactionFromTransaction t with
      | error e => simp [CoinCreationTransactionController.ValidateTransaction, hfit, hc] at hv
      | panic => simp [CoinCreationTransactionController.ValidateTransaction, hfit, hc] at hv
      | ok cctx =>
        obtain ⟨ext, hs⟩ := coinCreationFromTransaction_ok hc
        rw [coinCreation_validate_of_shape h cctc t ctx constants ext hfit hs] at hv
        refine ⟨ext, hs, ?_⟩
        simp only [mintFulfillContext] at hv
        split at hv
        · simp at hv
        · rename_i hful
          refine ⟨hful, ?_⟩
          split at hv
          · simp at hv
          · rename_i hn
            refine ⟨hn, ?_⟩
            split at hv
            · simp at hv
            · rename_i harb
              refine ⟨harb, ?_⟩
              split at hv
              · simp at hv
              · rename_i hfees
                refine ⟨(checkMinerFees_eq_none_iff _ _).1 hfees, ?_⟩
                split at hv
                · simp at hv
                · rename_i houts
                  exact (checkCoinOutputs_eq_none_iff _ _ _).1 houts
  · rintro ⟨hfit, ext, hs, hful, hn, harb, hfees, houts⟩
    rw [coinCreation_validate_of_shape h cctc t ctx constants ext hfit hs]
    simp [mintFulfillContext, hful, hn, harb, (checkMinerFees_eq_none_iff _ _).2 hfees,
      (checkCoinOutputs_eq_none_iff _ _ _).2 houts]

/-- C3, the claim as stated fails: a Coin-Creation transaction that fits in a
block, has the coin-creation shape, an all-zero nonce and a fulfillment the
mint condition does not accept is rejected with the authorization error, not
with the nil-nonce error. -/
theorem coinCreation_nonce_before_fulfillment_counterexample :
    sampleHost.TransactionFitsInABlock txZeroNonceWrongSigner sampleConstants.BlockSizeLimit
        = .ok () ∧
      HasCoinCreationShape txZeroNonceWrongSigner
        { Nonce := TransactionNonce.zero, MintFulfillment := [keyA] } ∧
      sampleHost.Fulfill sampleMintCondition [keyA]
        (mintFulfillContext txZeroNonceWrongSigner sampleContext) ≠ none ∧
      CoinCreationTransactionController.ValidateTransaction sampleHost
          { MintCondition := sampleMintCondition } txZeroNonceWrongSigner sampleContext
          sampleConstants =
        .error (.Errorf "failed to fulfill mint condition: %v" (.New "invalid signature")) ∧
      CoinCreationTransactionController.ValidateTransaction sampleHost
          { MintCondition := sampleMintCondition } txZeroNonceWrongSigner sampleContext
          sampleConstants ≠
        .error (.New "nil nonce is not allowed for a coin creation transaction") := by
  decide


/-- C3, amended: ValidateTransaction of the Coin-Creation controller applies
its checks in this order and returns the error of the first check that fails:
(1) block size limit, (2) structural shape (version, extension, at least one
output and one fee, no inputs and no block-stake outputs), (3) fulfillment of
the mint condition, (4) non-zero nonce, (5) arbitrary-data size limit,
(6) miner fees, (7) coin outputs, in their order, the zero value of an output
before its condition.  A transaction that fails both the fulfillment check and
the non-zero-nonce check gets the authorization error. -/
theorem coinCreation_validate_check_order (h : Host C F)
    (cctc : CoinCreationTransactionController C) (t : Transaction C F)
    (ctx : ValidationContext) (constants : TransactionValidationConstants) :
    (∀ e, h.TransactionFitsInABlock t constants.BlockSizeLimit = .error e →
      CoinCreationTransactionController.ValidateTransaction h cctc t ctx constants = .error e) ∧
    (h.TransactionFitsInABlock t constants.BlockSizeLimit = .ok () →
      (∀ e, CoinCreationTransactionFromTransaction t = .error e →
        CoinCreationTransactionController.ValidateTransaction h cctc t ctx constants =
          .error (.Errorf "failed to use tx as a coin creation tx: %v" e)) ∧
      ∀ ext, HasCoinCreationShape t ext →
        (∀ e, h.Fulfill cctc.MintCondition ext.MintFulfillment (mintFulfillContext t ctx)
            = some e →
          CoinCreationTransactionController.ValidateTransaction h cctc t ctx constants =
            .error (.Errorf "failed to fulfill mint condition: %v" e)) ∧
        (h.Fulfill cctc.MintCondition ext.MintFulfillment (mintFulfillContext t ctx) = none →
          (ext.Nonce = TransactionNonce.zero →
            CoinCreationTransactionController.ValidateTransaction h cctc t ctx constants =
              .error (.New "nil nonce is not allowed for a coin creation transaction")) ∧
          (ext.Nonce ≠ TransactionNonce.zero →
            (∀ e, h.ArbitraryDataFits t.ArbitraryData constants.ArbitraryDataSizeLimit = some e →
              CoinCreationTransactionController.ValidateTransaction h cctc t ctx constants =
                .error e) ∧
            (h.ArbitraryDataFits t.ArbitraryData constants.ArbitraryDataSizeLimit = none →
              ((∃ fee ∈ t.MinerFees, fee < constants.MinimumMinerFee) →
                CoinCreationTransactionController.ValidateTransaction h cctc t ctx constants =
                  .error .ErrTooSmallMinerFee) ∧
              ((∀ fee ∈ t.MinerFees, constants.MinimumMinerFee ≤ fee) →
                (∀ pre sco post, t.CoinOutputs = pre ++ sco :: post →
                  (∀ s ∈ pre, s.Value ≠ 0 ∧ h.IsStandardCondition s.Condition ctx = none) →
                  (sco.Value = 0 →
                    CoinCreationTransactionController.ValidateTransaction h cctc t ctx
                      constants = .error .ErrZeroOutput) ∧
                  (sco.Value ≠ 0 → ∀ e, h.IsStandardCondition sco.Condition ctx = some e →
                    CoinCreationTransactionController.ValidateTransaction h cctc t ctx
                      constants = .error e)) ∧
                ((∀ s ∈ t.CoinOutputs,
                    s.Value ≠ 0 ∧ h.IsStandardCondition s.Condition ctx = none) →
                  CoinCreationTransactionController.ValidateTransaction h cctc t ctx
                    constants = .ok ())))))) := by
  refine ⟨?_, ?_⟩
  · intro e hfit
    simp [CoinCreationTransactionController.ValidateTransaction, hfit]
  · intro hfit
    refine ⟨?_, ?_⟩
    · intro e hc
      simp [CoinCreationTransactionController.ValidateTransaction, hfit, hc]
    · intro ext hs
      rw [coinCreation_validate_of_shape h cctc t ctx constants ext hfit hs]
      refine ⟨?_, ?_⟩
      · intro e hful
        simp [hful]
      · intro hful
        refine ⟨?_, ?_⟩
        · intro hn
          simp [hful, hn]
        · intro hn
          refine ⟨?_, ?_⟩
          · intro e harb
            simp [hful, hn, harb]
          · intro harb
            refine ⟨?_, ?_⟩
            · intro hfee
              have hc := (checkMinerFees_eq_some_iff constants.MinimumMinerFee t.MinerFees
                .ErrTooSmallMinerFee).2 ⟨rfl, hfee⟩
              simp [hful, hn, harb, hc]
            · intro hfees
              have hc := (checkMinerFees_eq_none_iff _ _).2 hfees
              refine ⟨?_, ?_⟩
              · intro pre sco post hdec hpre
                rw [hdec, checkCoinOutputs_append h ctx pre (sco :: post) hpre]
                refine ⟨?_, ?_⟩
                · intro hz
                  simp [hful, hn, harb, hc, checkCoinOutputs, Currency.IsZero, hz]
                · intro hnz e hstd
                  simp [hful, hn, harb, hc, checkCoinOutputs, Currency.IsZero, hnz, hstd]
              · intro houts
                simp [hful, hn, harb, hc, (checkCoinOutputs_eq_none_iff _ _ _).2 houts]

theorem coinCreation_validate_check_order_witness :
    HasCoinCreationShape txZeroNonceWrongSigner
        { Nonce := TransactionNonce.zero, MintFulfillment := [keyA] } ∧
      CoinCreationTransactionController.ValidateTransaction sampleHost
          { MintCondition := sampleMintCondition } txZeroNonceWrongSigner sampleContext
          sampleConstants =
        .error (.Errorf "failed to fulfill mint condition: %v" (.New "invalid signature")) :=
  ⟨by decide,
    (((coinCreation_validate_check_order sampleHost { MintCondition := sampleMintCondition }
      txZeroNonceWrongSigner sampleContext sampleConstants).2 (by decide)).2
        { Nonce := TransactionNonce.zero, MintFulfillment := [keyA] } (by decide)).1
      (.New "invalid signature") (by decide)⟩

/-- C4: a Coin-Creation transaction with an all-zero nonce that fits in a
block, has the coin-creation shape and whose MintFulfillment fulfills the mint
condition is rejected with the error "nil nonce is not allowed for a coin
creation transaction", whatever its coin outputs, miner fees and arbitrary
data. -/
theorem coinCreation_nil_nonce_rejected (h : Host C F)
    (cctc : CoinCreationTransactionController C) (t : Transaction C F)
    (ctx : ValidationContext) (constants : TransactionValidationConstants)
    (ext : CoinCreationTransactionExtension F)
    (hfit : h.TransactionFitsInABlock t constants.BlockSizeLimit = .ok ())
    (hs : HasCoinCreationShape t ext)
    (hful : h.Fulfill cctc.MintCondition ext.MintFulfillment
      { InputIndex := 0, BlockHeight := ctx.BlockHeight, BlockTime := ctx.BlockTime,
        Transaction := t } = none)
    (hn : ext.Nonce = TransactionNonce.zero) :
    CoinCreationTransactionController.ValidateTransaction h cctc t ctx constants =
      .error (.New "nil nonce is not allowed for a coin creation transaction") := by
  have hv := coinCreation_validate_of_shape h cctc t ctx constants ext hfit hs
  simp only [mintFulfillContext, hful] at hv
  rw [hv]
  simp [hn]

theorem coinCreation_nil_nonce_rejected_witness :
    HasCoinCreationShape txZeroNonce
        { Nonce := TransactionNonce.zero, MintFulfillment := [devKey] } ∧
      CoinCreationTransactionController.ValidateTransaction sampleHost
          { MintCondition := sampleMintCondition } txZeroNonce sampleContext sampleConstants =
        .error (.New "nil nonce is not allowed for a coin creation transaction") :=
  ⟨by decide,
    coinCreation_nil_nonce_rejected sampleHost { MintCondition := sampleMintCondition }
      txZeroNonce sampleContext sampleConstants
      { Nonce := TransactionNonce.zero, MintFulfillment := [devKey] }
      (by decide) (by decide) (by decide) rfl⟩

/-- C5: a Coin-Creation transaction that passes the size, shape,
fulfillment, nonce, arbitrary-data and miner-fee checks and has a coin output
`z` of value zero, at any position and with any condition, while all its other
outputs have a non-zero value and a standard condition, is rejected with
ErrZeroOutput. -/
theorem coinCreation_zero_output_rejected (h : Host C F)
    (cctc : CoinCreationTransactionController C) (t : Transaction C F)
    (ctx : ValidationContext) (constants : TransactionValidationConstants)
    (ext : CoinCreationTransactionExtension F)
    (pre post : List (CoinOutput C)) (z : CoinOutput C)
    (hfit : h.TransactionFitsInABlock t constants.BlockSizeLimit = .ok ())
    (hs : HasCoinCreationShape t ext)
    (hful : h.Fulfill cctc.MintCondition ext.MintFulfillment
      { InputIndex := 0, BlockHeight := ctx.BlockHeight, BlockTime := ctx.BlockTime,
        Transaction := t } = none)
    (hn : ext.Nonce ≠ TransactionNonce.zero)
    (harb : h.ArbitraryDataFits t.ArbitraryData constants.ArbitraryDataSizeLimit = none)
    (hfees : ∀ fee ∈ t.MinerFees, constants.MinimumMinerFee ≤ fee)
    (hdec : t.CoinOutputs = pre ++ z :: post)
    (hz : z.Value = 0)
    (hothers : ∀ s ∈ pre ++ post,
      s.Value ≠ 0 ∧ h.IsStandardCondition s.Condition ctx = none) :
    CoinCreationTransactionController.ValidateTransaction h cctc t ctx constants =
      .error .ErrZeroOutput := by
  have hv := coinCreation_validate_of_shape h cctc t ctx constants ext hfit hs
  have hpre : ∀ s ∈ pre, s.Value ≠ 0 ∧ h.IsStandardCondition s.Condition ctx = none :=
    fun s hs => hothers s (List.mem_append_left _ hs)
  simp only [mintFulfillContext, hful] at hv
  rw [hv, hdec, checkCoinOutputs_append h ctx pre (z :: post) hpre]
  simp [hn, harb, (checkMinerFees_eq_none_iff _ _).2 hfees, checkCoinOutputs, Currency.IsZero, hz]

theorem coinCreation_zero_output_rejected_witness :
    txZeroOutput.CoinOutputs.length = 2 ∧
      CoinCreationTransactionController.ValidateTransaction sampleHost
          { MintCondition := sampleMintCondition } txZeroOutput sampleContext sampleConstants =
        .error .ErrZeroOutput :=
  ⟨by decide,
    coinCreation_zero_output_rejected sampleHost { MintCondition := sampleMintCondition }
      txZeroOutput sampleContext sampleConstants
      { Nonce := nonceOne, MintFulfillment := [devKey] }
      [outputHundred] [] { Value := 0, Condition := .multiSignature [] 0 }
      (by decide) (by decide) (by decide) (by decide) (by decide) (by decide) rfl rfl
      (by decide)⟩


/-! ## The miner-fee check of both mint controllers -/

/-- C6: for both mint controllers, a transaction that passes every check
before the fee check is rejected with ErrTooSmallMinerFee if and only if one of
its miner fees is strictly smaller than the minimum miner fee of the given
constants, so a fee equal to the minimum passes; the context, with its
Confirmed flag and block height, is arbitrary.  For the Coin-Creation
controller the direction from the error to the fee uses that IsStandardCondition
of the host does not itself return ErrTooSmallMinerFee on the outputs checked
after the fees. -/
theorem mint_miner_fee_check (h : Host C F) (t : Transaction C F)
    (ctx : ValidationContext) (constants : TransactionValidationConstants)
    (hfit : h.TransactionFitsInABlock t constants.BlockSizeLimit = .ok ())
    (harb : h.ArbitraryDataFits t.ArbitraryData constants.ArbitraryDataSizeLimit = none) :
    (∀ (cctc : CoinCreationTransactionController C) (ext : CoinCreationTransactionExtension F),
      HasCoinCreationShape t ext →
      h.Fulfill cctc.MintCondition ext.MintFulfillment (mintFulfillContext t ctx) = none →
      ext.Nonce ≠ TransactionNonce.zero →
      (∀ sco ∈ t.CoinOutputs,
        h.IsStandardCondition sco.Condition ctx ≠ some .ErrTooSmallMinerFee) →
      (CoinCreationTransactionController.ValidateTransaction h cctc t ctx constants =
          .error .ErrTooSmallMinerFee ↔
        ∃ fee ∈ t.MinerFees, fee < constants.MinimumMinerFee)) ∧
    (∀ (mdtc : MinterDefinitionTransactionController C)
      (ext : MinterDefinitionTransactionExtension C F),
      HasMinterDefinitionShape t ext →
      h.IsStandardCondition ext.MintCondition ctx = none →
      (h.ConditionType ext.MintCondition = h.ConditionTypeMultiSignature ∨
        (h.ConditionType ext.MintCondition = h.ConditionTypeUnlockHash ∧
          (h.UnlockHash ext.MintCondition).Type_ = h.UnlockTypePubKey)) →
      h.Fulfill mdtc.MintCondition ext.MintFulfillment (mintFulfillContext t ctx) = none →
      ext.Nonce ≠ TransactionNonce.zero →
      (MinterDefinitionTransactionController.ValidateTransaction h mdtc t ctx constants =
          .error .ErrTooSmallMinerFee ↔
        ∃ fee ∈ t.MinerFees, fee < constants.MinimumMinerFee)) := by
  refine ⟨?_, ?_⟩
  · intro cctc ext hs hful hn hnostd
    rw [coinCreation_validate_of_shape h cctc t ctx constants ext hfit hs]
    simp only [hful, hn, harb, if_false]
    cases hc : checkMinerFees constants.MinimumMinerFee t.MinerFees with
    | some e =>
      obtain ⟨he, hex⟩ := (checkMinerFees_eq_some_iff _ _ _).1 hc
      subst he
      simp only [true_iff]
      exact hex
    | none =>
      have hall := (checkMinerFees_eq_none_iff _ _).1 hc
      have hno : ¬ ∃ fee ∈ t.MinerFees, fee < constants.MinimumMinerFee := by
        rintro ⟨fee, hmem, hlt⟩
        exact absurd (hall fee hmem) (Nat.not_le.mpr hlt)
      simp only [hno, iff_false]
      cases ho : checkCoinOutputs h ctx t.CoinOutputs with
      | none => simp
      | some e =>
        simp only [Outcome.error.injEq]
        intro he
        subst he
        -- the error of the output loop is ErrZeroOutput or comes from IsStandardCondition
        have key : ∀ outs : List (CoinOutput C),
            (∀ sco ∈ outs,
              h.IsStandardCondition sco.Condition ctx ≠ some .ErrTooSmallMinerFee) →
            checkCoinOutputs h ctx outs ≠ some .ErrTooSmallMinerFee := by
          intro outs
          induction outs with
          | nil => intro _; simp [checkCoinOutputs]
          | cons sco rest ih =>
            intro hno2
            have h1 := hno2 sco (List.mem_cons_self _ _)
            have h2 := ih (fun s hs => hno2 s (List.mem_cons_of_mem _ hs))
            simp only [checkCoinOutputs]
            split
            · simp
            · cases hstd : h.IsStandardCondition sco.Condition ctx with
              | none => simpa using h2
              | some e2 =>
                rw [hstd] at h1
                simpa using h1
        exact key t.CoinOutputs hnostd ho
  · intro mdtc ext hs hstd htype hful hn
    rw [minterDefinition_validate_of_shape h mdtc t ctx constants ext hfit hs]
    have htc := (mintConditionTypeCheck_eq_none_iff h ext.MintCondition).2 htype
    simp only [hstd, htc, hful, hn, harb, if_false]
    cases hc : checkMinerFees constants.MinimumMinerFee t.MinerFees with
    | some e =>
      obtain ⟨he, hex⟩ := (checkMinerFees_eq_some_iff _ _ _).1 hc
      subst he
      simp only [true_iff]
      exact hex
    | none =>
      have hall := (checkMinerFees_eq_none_iff _ _).1 hc
      have hno : ¬ ∃ fee ∈ t.MinerFees, fee < constants.MinimumMinerFee := by
        rintro ⟨fee, hmem, hlt⟩
        exact absurd (hall fee hmem) (Nat.not_le.mpr hlt)
      simp [hno]

theorem mint_miner_fee_check_witness :
    (∃ fee ∈ txSmallFee.MinerFees, fee < sampleConstants.MinimumMinerFee) ∧
      CoinCreationTransactionController.ValidateTransaction sampleHost
          { MintCondition := sampleMintCondition } txSmallFee sampleContext sampleConstants =
        .error .ErrTooSmallMinerFee :=
  ⟨by decide,
    ((mint_miner_fee_check sampleHost txSmallFee sampleContext sampleConstants
      (by decide) (by decide)).1 { MintCondition := sampleMintCondition }
      { Nonce := nonceOne, MintFulfillment := [devKey] }
      (by decide) (by decide) (by decide) (by decide)).2 (by decide)⟩


/-! ## The development profile -/

/-- C7, the claim as stated fails: with the Coin-Creation controller that the
development profile registers, the transaction of the scenario (nonce
`{1,0,0,0,0,0,0,0}`, one output of 100 to a standard single-key address, one
miner fee of 1, no arbitrary data, a fulfillment the seeded mint condition
accepts) is rejected with ErrTooSmallMinerFee under constants whose minimum
miner fee is above 1. -/
theorem devNetwork_scenario_counterexample :
    (RegisterTransactionTypesForDevNetwork sampleHost emptyRegistry).map
        (fun reg => reg TransactionVersionCoinCreation) =
      some (some (.CoinCreation { MintCondition := sampleMintCondition })) ∧
    sampleHost.Fulfill sampleMintCondition [devKey]
        (mintFulfillContext (devScenarioTx sampleHost keyA [devKey]) sampleContext) = none ∧
    sampleHost.IsStandardCondition (sampleHost.NewUnlockHashCondition keyA) sampleContext
      = none ∧
    CoinCreationTransactionController.ValidateTransaction sampleHost
        { MintCondition := sampleMintCondition } (devScenarioTx sampleHost keyA [devKey])
        sampleContext constantsNominalFee =
      .error .ErrTooSmallMinerFee := by
  decide

/-- C7, amended: the development profile registers for version 129 the
Coin-Creation controller seeded with the single-key condition of the
development unlock hash, and with that controller the transaction of the
scenario (nonce `{1,0,0,0,0,0,0,0}`, one output of 100 to a standard single-key
address, one miner fee of 1, no arbitrary data, a fulfillment the seeded
condition accepts) is accepted, at every block height, if and only if it fits
in the block size limit, the empty arbitrary data fits and the minimum miner
fee of the constants is at most 1. -/
theorem devNetwork_scenario_accepted_iff (h : Host C F) (reg : Registry C)
    (uh dest : UnlockHash) (signature : F)
    (ctx : ValidationContext) (constants : TransactionValidationConstants)
    (hload : h.LoadString devNetworkMintUnlockHashHex = .ok uh)
    (hstd : h.IsStandardCondition (h.NewUnlockHashCondition dest) ctx = none)
    (hful : h.Fulfill (h.NewUnlockHashCondition uh) signature
      { InputIndex := 0, BlockHeight := ctx.BlockHeight, BlockTime := ctx.BlockTime,
        Transaction := devScenarioTx h dest signature } = none) :
    ∃ reg2 cctc, RegisterTransactionTypesForDevNetwork h reg = some reg2 ∧
      reg2 TransactionVersionCoinCreation = some (.CoinCreation cctc) ∧
      cctc.MintCondition = h.NewUnlockHashCondition uh ∧
      (CoinCreationTransactionController.ValidateTransaction h cctc
          (devScenarioTx h dest signature) ctx constants = .ok () ↔
        h.TransactionFitsInABlock (devScenarioTx h dest signature) constants.BlockSizeLimit
            = .ok () ∧
          h.ArbitraryDataFits [] constants.ArbitraryDataSizeLimit = none ∧
          constants.MinimumMinerFee ≤ 1) := by
  refine ⟨_, { MintCondition := h.NewUnlockHashCondition uh },
    registerDevNetwork_eq h reg uh hload, ?_, rfl, ?_⟩
  · simp [RegisterTransactionVersion]
  · have hs : HasCoinCreationShape (devScenarioTx h dest signature)
        { Nonce := nonceOne, MintFulfillment := signature } := by
      simp [HasCoinCreationShape, devScenarioTx]
    have hn : nonceOne ≠ TransactionNonce.zero := by decide
    constructor
    · intro hv
      cases hfit : h.TransactionFitsInABlock (devScenarioTx h dest signature)
          constants.BlockSizeLimit with
      | panic =>
        simp [CoinCreationTransactionController.ValidateTransaction, hfit] at hv
      | error e =>
        simp [CoinCreationTransactionController.ValidateTransaction, hfit] at hv
      | ok u =>
        rw [coinCreation_validate_of_shape h _ _ ctx constants _ hfit hs] at hv
        simp only [mintFulfillContext, hful, hn, if_false] at hv
        have harb2 : h.ArbitraryDataFits [] constants.ArbitraryDataSizeLimit = none := by
          cases harb : h.ArbitraryDataFits [] constants.ArbitraryDataSizeLimit with
          | none => rfl
          | some e =>
            have : (devScenarioTx h dest signature).ArbitraryData = [] := rfl
            simp [this, harb] at hv
        refine ⟨rfl, harb2, ?_⟩
        by_contra hlt
        have hlt2 : (1 : Nat) < constants.MinimumMinerFee := Nat.lt_of_not_le hlt
        have hfee : checkMinerFees constants.MinimumMinerFee
            (devScenarioTx h dest signature).MinerFees = some .ErrTooSmallMinerFee := by
          simp [devScenarioTx, checkMinerFees, currency_cmp_eq_neg_one_iff, hlt2]
        have : (devScenarioTx h dest signature).ArbitraryData = [] := rfl
        simp [this, harb2, hfee] at hv
    · rintro ⟨hfit, harb, hmin⟩
      rw [coinCreation_validate_of_shape h _ _ ctx constants _ hfit hs]
      have hfee : checkMinerFees constants.MinimumMinerFee
          (devScenarioTx h dest signature).MinerFees = none := by
        rw [checkMinerFees_eq_none_iff]
        intro fee hmem
        have : fee = 1 := by simpa [devScenarioTx] using hmem
        rw [this]
        exact hmin
      have hout : checkCoinOutputs h ctx (devScenarioTx h dest signature).CoinOutputs
          = none := by
        simp [devScenarioTx, checkCoinOutputs, Currency.IsZero, hstd]
      have ha : (devScenarioTx h dest signature).ArbitraryData = [] := rfl
      simp [mintFulfillContext, hful, hn, ha, harb, hfee, hout]

theorem devNetwork_scenario_accepted_iff_witness :
    ∃ reg2 cctc, RegisterTransactionTypesForDevNetwork sampleHost emptyRegistry = some reg2 ∧
      reg2 TransactionVersionCoinCreation = some (.CoinCreation cctc) ∧
      cctc.MintCondition = sampleHost.NewUnlockHashCondition devKey ∧
      (CoinCreationTransactionController.ValidateTransaction sampleHost cctc
          (devScenarioTx sampleHost keyA [devKey]) sampleContext sampleConstants = .ok () ↔
        sampleHost.TransactionFitsInABlock (devScenarioTx sampleHost keyA [devKey])
            sampleConstants.BlockSizeLimit = .ok () ∧
          sampleHost.ArbitraryDataFits [] sampleConstants.ArbitraryDataSizeLimit = none ∧
          sampleConstants.MinimumMinerFee ≤ 1) :=
  devNetwork_scenario_accepted_iff sampleHost emptyRegistry devKey keyA [devKey]
    sampleContext sampleConstants rfl (by decide) (by decide)


/-! ## The Minter-Definition controller -/

/-- C8: ValidateTransaction of the Minter-Definition controller checks the
MintFulfillment against the MintCondition installed in the controller, never
against the new MintCondition of the transaction.  For a transaction that
passes the earlier checks (size, shape, standard new condition of an allowed
type): if Fulfill of the installed condition returns `e`, the result is the
authorization error "failed to fulfill mint condition" wrapping `e`; if it
returns nil, validation goes on with the nonce, the arbitrary data and the fees.
Nothing is assumed on what the new condition would accept, and the result does
not change when Fulfill of the host is changed on every condition other than the
installed one. -/
theorem minterDefinition_fulfills_installed_condition (h : Host C F)
    (mdtc : MinterDefinitionTransactionController C) (t : Transaction C F)
    (ctx : ValidationContext) (constants : TransactionValidationConstants)
    (ext : MinterDefinitionTransactionExtension C F)
    (hfit : h.TransactionFitsInABlock t constants.BlockSizeLimit = .ok ())
    (hs : HasMinterDefinitionShape t ext)
    (hstd : h.IsStandardCondition ext.MintCondition ctx = none)
    (htype : h.ConditionType ext.MintCondition = h.ConditionTypeMultiSignature ∨
      (h.ConditionType ext.MintCondition = h.ConditionTypeUnlockHash ∧
        (h.UnlockHash ext.MintCondition).Type_ = h.UnlockTypePubKey)) :
    (∀ e, h.Fulfill mdtc.MintCondition ext.MintFulfillment
        { InputIndex := 0, BlockHeight := ctx.BlockHeight, BlockTime := ctx.BlockTime,
          Transaction := t } = some e →
      MinterDefinitionTransactionController.ValidateTransaction h mdtc t ctx constants =
        .error (.Errorf "failed to fulfill mint condition: %v" e)) ∧
    (h.Fulfill mdtc.MintCondition ext.MintFulfillment
        { InputIndex := 0, BlockHeight := ctx.BlockHeight, BlockTime := ctx.BlockTime,
          Transaction := t } = none →
      MinterDefinitionTransactionController.ValidateTransaction h mdtc t ctx constants =
        if ext.Nonce = TransactionNonce.zero then
          .error (.New "nil nonce is not allowed for a mint condition transaction")
        else
          match h.ArbitraryDataFits t.ArbitraryData constants.ArbitraryDataSizeLimit with
          | some err => .error err
          | none =>
            if ∀ fee ∈ t.MinerFees, constants.MinimumMinerFee ≤ fee then .ok ()
            else .error .ErrTooSmallMinerFee) ∧
    (∀ fulfill2 : C → F → FulfillContext C F → Option Error,
      (∀ f fc, fulfill2 mdtc.MintCondition f fc = h.Fulfill mdtc.MintCondition f fc) →
      MinterDefinitionTransactionController.ValidateTransaction
          { h with Fulfill := fulfill2 } mdtc t ctx constants =
        MinterDefinitionTransactionController.ValidateTransaction h mdtc t ctx constants) := by
  have hv := minterDefinition_validate_of_shape h mdtc t ctx constants ext hfit hs
  have htc := (mintConditionTypeCheck_eq_none_iff h ext.MintCondition).2 htype
  simp only [hstd, htc, mintFulfillContext] at hv
  refine ⟨?_, ?_, ?_⟩
  · intro e hful
    rw [hv, hful]
  · intro hful
    rw [hv, hful]
    simp only
    split
    · rfl
    · cases harb : h.ArbitraryDataFits t.ArbitraryData constants.ArbitraryDataSizeLimit with
      | some err => rfl
      | none =>
        simp only
        cases hc : checkMinerFees constants.MinimumMinerFee t.MinerFees with
        | none =>
          have hall := (checkMinerFees_eq_none_iff _ _).1 hc
          rw [if_pos hall]
        | some e2 =>
          obtain ⟨he, fee, hmem, hlt⟩ := (checkMinerFees_eq_some_iff _ _ _).1 hc
          subst he
          have hno : ¬ ∀ fee ∈ t.MinerFees, constants.MinimumMinerFee ≤ fee :=
            fun hall => absurd (hall fee hmem) (Nat.not_le.mpr hlt)
          rw [if_neg hno]
  · intro fulfill2 hagree
    unfold MinterDefinitionTransactionController.ValidateTransaction
    simp only [hagree]
    rfl

theorem minterDefinition_fulfills_installed_condition_witness :
    sampleHost.Fulfill (.unlockHash keyA) [keyA]
        (mintFulfillContext txOneSignature sampleContext) = none ∧
      MinterDefinitionTransactionController.ValidateTransaction sampleHost
          { MintCondition := twoOfThree } txOneSignature sampleContext sampleConstants =
        .error (.Errorf "failed to fulfill mint condition: %v" (.New "not enough signatures")) :=
  ⟨by decide,
    (minterDefinition_fulfills_installed_condition sampleHost { MintCondition := twoOfThree }
      txOneSignature sampleContext sampleConstants
      { Nonce := nonceOne, MintFulfillment := [keyA], MintCondition := .unlockHash keyA }
      (by decide) (by decide) (by decide) (by decide)).1 (.New "not enough signatures")
      (by decide)⟩

/-- C9: for a Minter-Definition transaction that fits in a block, has the
minter-definition shape and whose new MintCondition is standard: if the new
condition is an unlock-hash condition whose unlock hash type is not PubKey,
ValidateTransaction returns the policy error on unlock hash types; if the type
of the new condition is neither multi-signature nor unlock-hash, it returns the
error that carries the number of that condition type.  Fulfillment, nonce,
fees and arbitrary data play no part. -/
theorem minterDefinition_condition_type_rejected (h : Host C F)
    (mdtc : MinterDefinitionTransactionController C) (t : Transaction C F)
    (ctx : ValidationContext) (constants : TransactionValidationConstants)
    (ext : MinterDefinitionTransactionExtension C F)
    (hfit : h.TransactionFitsInABlock t constants.BlockSizeLimit = .ok ())
    (hs : HasMinterDefinitionShape t ext)
    (hstd : h.IsStandardCondition ext.MintCondition ctx = none) :
    (h.ConditionType ext.MintCondition = h.ConditionTypeUnlockHash →
      (h.UnlockHash ext.MintCondition).Type_ ≠ h.UnlockTypePubKey →
      MinterDefinitionTransactionController.ValidateTransaction h mdtc t ctx constants =
        .error (.New
          "unlockHash conditions can be used as mint conditions, if the unlock hash type is PubKey")) ∧
    (h.ConditionType ext.MintCondition ≠ h.ConditionTypeMultiSignature →
      h.ConditionType ext.MintCondition ≠ h.ConditionTypeUnlockHash →
      MinterDefinitionTransactionController.ValidateTransaction h mdtc t ctx constants =
        .error (.ErrorfNum "condition type %d cannot be used as a mint condition"
          (h.ConditionType ext.MintCondition))) := by
  have hv := minterDefinition_validate_of_shape h mdtc t ctx constants ext hfit hs
  simp only [hstd] at hv
  refine ⟨?_, ?_⟩
  · intro huh hpk
    have hd := h.conditionTypes_distinct.symm
    rw [hv]
    simp [mintConditionTypeCheck, huh, hpk, hd]
  · intro hms huh
    rw [hv]
    simp [mintConditionTypeCheck, hms, huh]

theorem minterDefinition_condition_type_rejected_witness :
    sampleHost.Fulfill sampleMintCondition [devKey]
        (mintFulfillContext txNonPubKeyCondition sampleContext) = none ∧
      MinterDefinitionTransactionController.ValidateTransaction sampleHost
          { MintCondition := sampleMintCondition } txNonPubKeyCondition sampleContext
          sampleConstants =
        .error (.New
          "unlockHash conditions can be used as mint conditions, if the unlock hash type is PubKey") :=
  ⟨by decide,
    (minterDefinition_condition_type_rejected sampleHost { MintCondition := sampleMintCondition }
      txNonPubKeyCondition sampleContext sampleConstants
      { Nonce := nonceOne, MintFulfillment := [devKey],
        MintCondition := .unlockHash { Type_ := 2, Hash := [0xdd] } }
      (by decide) (by decide) (by decide)).1 (by decide) (by decide)⟩


/-- C10: ValidateTransaction of the Minter-Definition controller returns
success if and only if the transaction fits in the block size limit, has
version 128 and the minter-definition shape, the new MintCondition is standard
and is a multi-signature condition or an unlock-hash condition of PubKey type,
the MintFulfillment fulfills the MintCondition installed in the controller, the
nonce is not all-zero, the arbitrary data fits and every miner fee is at least
the minimum miner fee of the constants.  In particular a proposed
multi-signature condition, built from any keys with any threshold, is accepted
when it is standard, the fulfillment is valid and the other checks pass. -/
theorem minterDefinition_validate_ok_iff (h : Host C F)
    (mdtc : MinterDefinitionTransactionController C) (t : Transaction C F)
    (ctx : ValidationContext) (constants : TransactionValidationConstants) :
    (MinterDefinitionTransactionController.ValidateTransaction h mdtc t ctx constants = .ok () ↔
      h.TransactionFitsInABlock t constants.BlockSizeLimit = .ok () ∧
      ∃ ext : MinterDefinitionTransactionExtension C F,
        (t.Version = 128 ∧ t.Extension = .minterDefinition (some ext) ∧
          t.MinerFees ≠ [] ∧ t.CoinInputs = [] ∧ t.CoinOutputs = [] ∧
          t.BlockStakeInputs = [] ∧ t.BlockStakeOutputs = []) ∧
        h.IsStandardCondition ext.MintCondition ctx = none ∧
        (h.ConditionType ext.MintCondition = h.ConditionTypeMultiSignature ∨
          (h.ConditionType ext.MintCondition = h.ConditionTypeUnlockHash ∧
            (h.UnlockHash ext.MintCondition).Type_ = h.UnlockTypePubKey)) ∧
        h.Fulfill mdtc.MintCondition ext.MintFulfillment
          { InputIndex := 0, BlockHeight := ctx.BlockHeight, BlockTime := ctx.BlockTime,
            Transaction := t } = none ∧
        ext.Nonce ≠ TransactionNonce.zero ∧
        h.ArbitraryDataFits t.ArbitraryData constants.ArbitraryDataSizeLimit = none ∧
        (∀ fee ∈ t.MinerFees, constants.MinimumMinerFee ≤ fee)) ∧
    (∀ (ext : MinterDefinitionTransactionExtension C F) (hashes : List UnlockHash)
        (minimum : Nat),
      h.TransactionFitsInABlock t constants.BlockSizeLimit = .ok () →
      HasMinterDefinitionShape t ext →
      ext.MintCondition = h.NewMultiSignatureCondition hashes minimum →
      h.ConditionType (h.NewMultiSignatureCondition hashes minimum)
        = h.ConditionTypeMultiSignature →
      h.IsStandardCondition (h.NewMultiSignatureCondition hashes minimum) ctx = none →
      h.Fulfill mdtc.MintCondition ext.MintFulfillment (mintFulfillContext t ctx) = none →
      ext.Nonce ≠ TransactionNonce.zero →
      h.ArbitraryDataFits t.ArbitraryData constants.ArbitraryDataSizeLimit = none →
      (∀ fee ∈ t.MinerFees, constants.MinimumMinerFee ≤ fee) →
      MinterDefinitionTransactionController.ValidateTransaction h mdtc t ctx constants
        = .ok ()) := by
  have hback : ∀ ext : MinterDefinitionTransactionExtension C F,
      h.TransactionFitsInABlock t constants.BlockSizeLimit = .ok () →
      HasMinterDefinitionShape t ext →
      h.IsStandardCondition ext.MintCondition ctx = none →
      (h.ConditionType ext.MintCondition = h.ConditionTypeMultiSignature ∨
        (h.ConditionType ext.MintCondition = h.ConditionTypeUnlockHash ∧
          (h.UnlockHash ext.MintCondition).Type_ = h.UnlockTypePubKey)) →
      h.Fulfill mdtc.MintCondition ext.MintFulfillment (mintFulfillContext t ctx) = none →
      ext.Nonce ≠ TransactionNonce.zero →
      h.ArbitraryDataFits t.ArbitraryData constants.ArbitraryDataSizeLimit = none →
      (∀ fee ∈ t.MinerFees, constants.MinimumMinerFee ≤ fee) →
      MinterDefinitionTransactionController.ValidateTransaction h mdtc t ctx constants
        = .ok () := by
    intro ext hfit hs hstd htype hful hn harb hfees
    rw [minterDefinition_validate_of_shape h mdtc t ctx constants ext hfit hs]
    simp [hstd, (mintConditionTypeCheck_eq_none_iff h ext.MintCondition).2 htype, hful, hn,
      harb, (checkMinerFees_eq_none_iff _ _).2 hfees]
  refine ⟨⟨?_, ?_⟩, ?_⟩
  · intro hv
    cases hfit : h.TransactionFitsInABlock t constants.BlockSizeLimit with
    | panic =>
      simp [MinterDefinitionTransactionController.ValidateTransaction, hfit] at hv
    | error e =>
      simp [MinterDefinitionTransactionController.ValidateTransaction, hfit] at hv
    | ok u =>
      refine ⟨rfl, ?_⟩
      cases hc : MinterDefinitionTransactionFromTransaction t with
      | error e =>
        simp [MinterDefinitionTransactionController.ValidateTransaction, hfit, hc] at hv
      | panic =>
        simp [MinterDefinitionTransactionController.ValidateTransaction, hfit, hc] at hv
      | ok mdtx =>
        obtain ⟨ext, hs⟩ := minterDefinitionFromTransaction_ok hc
        rw [minterDefinition_validate_of_shape h mdtc t ctx constants ext hfit hs] at hv
        refine ⟨ext, hs, ?_⟩
        simp only [mintFulfillContext] at hv
        split at hv
        · simp at hv
        · rename_i hstd
          refine ⟨hstd, ?_⟩
          split at hv
          · simp at hv
          · rename_i htc
            refine ⟨(mintConditionTypeCheck_eq_none_iff h ext.MintCondition).1 htc, ?_⟩
            split at hv
            · simp at hv
            · rename_i hful
              refine ⟨hful, ?_⟩
              split at hv
              · simp at hv
              · rename_i hn
                refine ⟨hn, ?_⟩
                split at hv
                · simp at hv
                · rename_i harb
                  refine ⟨harb, ?_⟩
                  split at hv
                  · simp at hv
                  · rename_i hfees
                    exact (checkMinerFees_eq_none_iff _ _).1 hfees
  · rintro ⟨hfit, ext, hs, hstd, htype, hful, hn, harb, hfees⟩
    exact hback ext hfit hs hstd htype hful hn harb hfees
  · intro ext hashes minimum hfit hs hcond hct hstd hful hn harb hfees
    refine hback ext hfit hs ?_ ?_ hful hn harb hfees
    · rw [hcond]; exact hstd
    · rw [hcond]; exact Or.inl hct

theorem minterDefinition_validate_ok_iff_witness :
    ([keyA, keyB, keyC].length = 3 ∧ 3 ≤ 3) ∧
      MinterDefinitionTransactionController.ValidateTransaction sampleHost
          { MintCondition := sampleMintCondition } txNewMultiSig sampleContext sampleConstants
        = .ok () :=
  ⟨by decide,
    (minterDefinition_validate_ok_iff sampleHost { MintCondition := sampleMintCondition }
      txNewMultiSig sampleContext sampleConstants).2
      { Nonce := nonceOne, MintFulfillment := [devKey],
        MintCondition := .multiSignature [keyA, keyB, keyC] 3 }
      [keyA, keyB, keyC] 3
      (by decide) (by decide) rfl (by decide) (by decide) (by decide) (by decide) (by decide)
      (by decide)⟩


/-! ## Invariants of accepted mint-class transactions -/

/-- C11: no accepted mint-class transaction has an all-zero nonce.  When
ValidateTransaction of the Coin-Creation controller, or of the
Minter-Definition controller, returns success, the transaction carries the
extension of its kind and the nonce in it differs from the eight zero bytes. -/
theorem accepted_nonce_not_zero (h : Host C F) (t : Transaction C F)
    (ctx : ValidationContext) (constants : TransactionValidationConstants) :
    (∀ cctc : CoinCreationTransactionController C,
      CoinCreationTransactionController.ValidateTransaction h cctc t ctx constants = .ok () →
      ∃ ext : CoinCreationTransactionExtension F,
        t.Extension = .coinCreation (some ext) ∧
          ext.Nonce.val ≠ [0, 0, 0, 0, 0, 0, 0, 0]) ∧
    (∀ mdtc : MinterDefinitionTransactionController C,
      MinterDefinitionTransactionController.ValidateTransaction h mdtc t ctx constants
        = .ok () →
      ∃ ext : MinterDefinitionTransactionExtension C F,
        t.Extension = .minterDefinition (some ext) ∧
          ext.Nonce.val ≠ [0, 0, 0, 0, 0, 0, 0, 0]) := by
  have hz : ∀ n : TransactionNonce, n ≠ TransactionNonce.zero →
      n.val ≠ [0, 0, 0, 0, 0, 0, 0, 0] := by
    intro n hn hval
    exact hn (Subtype.ext hval)
  refine ⟨?_, ?_⟩
  · intro cctc hv
    cases hfit : h.TransactionFitsInABlock t constants.BlockSizeLimit with
    | panic => simp [CoinCreationTransactionController.ValidateTransaction, hfit] at hv
    | error e => simp [CoinCreationTransactionController.ValidateTransaction, hfit] at hv
    | ok u =>
      cases hc : CoinCreationTransactionFromTransaction t with
      | error e => simp [CoinCreationTransactionController.ValidateTransaction, hfit, hc] at hv
      | panic => simp [CoinCreationTransactionController.ValidateTransaction, hfit, hc] at hv
      | ok cctx =>
        obtain ⟨ext, hs⟩ := coinCreationFromTransaction_ok hc
        rw [coinCreation_validate_of_shape h cctc t ctx constants ext hfit hs] at hv
        refine ⟨ext, hs.2.1, hz _ ?_⟩
        intro hn
        split at hv
        · simp at hv
        · simp [hn] at hv
  · intro mdtc hv
    cases hfit : h.TransactionFitsInABlock t constants.BlockSizeLimit with
    | panic => simp [MinterDefinitionTransactionController.ValidateTransaction, hfit] at hv
    | error e => simp [MinterDefinitionTransactionController.ValidateTransaction, hfit] at hv
    | ok u =>
      cases hc : MinterDefinitionTransactionFromTransaction t with
      | error e =>
        simp [MinterDefinitionTransactionController.ValidateTransaction, hfit, hc] at hv
      | panic =>
        simp [MinterDefinitionTransactionController.ValidateTransaction, hfit, hc] at hv
      | ok mdtx =>
        obtain ⟨ext, hs⟩ := minterDefinitionFromTransaction_ok hc
        rw [minterDefinition_validate_of_shape h mdtc t ctx constants ext hfit hs] at hv
        refine ⟨ext, hs.2.1, hz _ ?_⟩
        intro hn
        split at hv
        · simp at hv
        · split at hv
          · simp at hv
          · split at hv
            · simp at hv
            · simp [hn] at hv

theorem accepted_nonce_not_zero_witness :
    CoinCreationTransactionController.ValidateTransaction sampleHost
        { MintCondition := sampleMintCondition } txValid sampleContext sampleConstants
        = .ok () ∧
      ∃ ext : CoinCreationTransactionExtension SampleFulfillment,
        txValid.Extension = .coinCreation (some ext) ∧
          ext.Nonce.val ≠ [0, 0, 0, 0, 0, 0, 0, 0] :=
  ⟨by decide,
    (accepted_nonce_not_zero sampleHost txValid sampleContext sampleConstants).1
      { MintCondition := sampleMintCondition } (by decide)⟩


/-! ## The structural conversions -/

/-- C12: CoinCreationTransactionFromTransactionData succeeds if and only if
the extension is a coin-creation extension (a non-nil pointer to one), there is
at least one coin output and at least one miner fee, and there are no coin
inputs, no block-stake inputs and no block-stake outputs; the result then has
the Nonce and MintFulfillment of the extension and the CoinOutputs, MinerFees
and ArbitraryData of the transaction data, as the same lists.  Nothing is asked
of the arbitrary data, so empty arbitrary data is allowed. -/
theorem coinCreationFromTransactionData_ok_iff (txData : TransactionData C F)
    (cctx : CoinCreationTransaction C F) :
    (CoinCreationTransactionFromTransactionData txData = .ok cctx ↔
      ∃ ext : CoinCreationTransactionExtension F,
        txData.Extension = .coinCreation (some ext) ∧
        1 ≤ txData.CoinOutputs.length ∧ 1 ≤ txData.MinerFees.length ∧
        txData.CoinInputs.length = 0 ∧ txData.BlockStakeInputs.length = 0 ∧
        txData.BlockStakeOutputs.length = 0 ∧
        cctx.Nonce = ext.Nonce ∧ cctx.MintFulfillment = ext.MintFulfillment ∧
        cctx.CoinOutputs = txData.CoinOutputs ∧ cctx.MinerFees = txData.MinerFees ∧
        cctx.ArbitraryData = txData.ArbitraryData) ∧
    (txData.ArbitraryData = [] →
      ∀ ext : CoinCreationTransactionExtension F,
        txData.Extension = .coinCreation (some ext) →
        1 ≤ txData.CoinOutputs.length → 1 ≤ txData.MinerFees.length →
        txData.CoinInputs.length = 0 → txData.BlockStakeInputs.length = 0 →
        txData.BlockStakeOutputs.length = 0 →
        CoinCreationTransactionFromTransactionData txData =
          .ok { Nonce := ext.Nonce, MintFulfillment := ext.MintFulfillment,
                CoinOutputs := txData.CoinOutputs, MinerFees := txData.MinerFees,
                ArbitraryData := [] }) := by
  have hback : ∀ ext : CoinCreationTransactionExtension F,
      txData.Extension = .coinCreation (some ext) →
      1 ≤ txData.CoinOutputs.length → 1 ≤ txData.MinerFees.length →
      txData.CoinInputs.length = 0 → txData.BlockStakeInputs.length = 0 →
      txData.BlockStakeOutputs.length = 0 →
      CoinCreationTransactionFromTransactionData txData =
        .ok { Nonce := ext.Nonce, MintFulfillment := ext.MintFulfillment,
              CoinOutputs := txData.CoinOutputs, MinerFees := txData.MinerFees,
              ArbitraryData := txData.ArbitraryData } := by
    intro ext he ho hf hci hbi hbo
    have ho2 : txData.CoinOutputs.length ≠ 0 := by omega
    have hf2 : txData.MinerFees.length ≠ 0 := by omega
    simp [CoinCreationTransactionFromTransactionData, he, ho2, hf2, hci, hbi, hbo]
  refine ⟨⟨?_, ?_⟩, ?_⟩
  · intro hc
    unfold CoinCreationTransactionFromTransactionData at hc
    split at hc
    · rename_i p hp
      split at hc
      · simp at hc
      · split at hc
        · simp at hc
        · rename_i h1 h2
          cases p with
          | none => simp at hc
          | some ext =>
            simp only [Outcome.ok.injEq] at hc
            subst hc
            simp only [not_or, ne_eq, not_not] at h1 h2
            exact ⟨ext, hp, by omega, by omega, h2.1, h2.2.1, h2.2.2, rfl, rfl, rfl, rfl, rfl⟩
    · simp at hc
  · rintro ⟨ext, he, ho, hf, hci, hbi, hbo, e1, e2, e3, e4, e5⟩
    rw [hback ext he ho hf hci hbi hbo]
    cases cctx
    simp only at e1 e2 e3 e4 e5
    simp [e1, e2, e3, e4, e5]
  · intro harb ext he ho hf hci hbi hbo
    rw [hback ext he ho hf hci hbi hbo, harb]

theorem coinCreationFromTransactionData_ok_iff_witness :
    dataNoArbitraryData.ArbitraryData = [] ∧
      CoinCreationTransactionFromTransactionData dataNoArbitraryData =
        .ok { Nonce := nonceOne, MintFulfillment := [devKey], CoinOutputs := [outputHundred],
              MinerFees := [1], ArbitraryData := [] } :=
  ⟨rfl,
    (coinCreationFromTransactionData_ok_iff dataNoArbitraryData
      { Nonce := nonceOne, MintFulfillment := [devKey], CoinOutputs := [outputHundred],
        MinerFees := [1], ArbitraryData := [] }).2 rfl
      { Nonce := nonceOne, MintFulfillment := [devKey] } rfl (by decide) (by decide)
      (by decide) (by decide) (by decide)⟩

/-- C13: MinterDefinitionTransactionFromTransactionData succeeds if and only
if the extension is a minter-definition extension (a non-nil pointer to one),
there is at least one miner fee, and there are no coin inputs, no coin outputs,
no block-stake inputs and no block-stake outputs; the result then has the
Nonce, MintFulfillment and MintCondition of the extension and the MinerFees and
ArbitraryData of the transaction data. -/
theorem minterDefinitionFromTransactionData_ok_iff (txData : TransactionData C F)
    (mdtx : MinterDefinitionTransaction C F) :
    MinterDefinitionTransactionFromTransactionData txData = .ok mdtx ↔
      ∃ ext : MinterDefinitionTransactionExtension C F,
        txData.Extension = .minterDefinition (some ext) ∧
        1 ≤ txData.MinerFees.length ∧
        txData.CoinInputs.length = 0 ∧ txData.CoinOutputs.length = 0 ∧
        txData.BlockStakeInputs.length = 0 ∧ txData.BlockStakeOutputs.length = 0 ∧
        mdtx.Nonce = ext.Nonce ∧ mdtx.MintFulfillment = ext.MintFulfillment ∧
        mdtx.MintCondition = ext.MintCondition ∧ mdtx.MinerFees = txData.MinerFees ∧
        mdtx.ArbitraryData = txData.ArbitraryData := by
  constructor
  · intro hc
    unfold MinterDefinitionTransactionFromTransactionData at hc
    split at hc
    · rename_i p hp
      split at hc
      · simp at hc
      · split at hc
        · simp at hc
        · rename_i h1 h2
          cases p with
          | none => simp at hc
          | some ext =>
            simp only [Outcome.ok.injEq] at hc
            subst hc
            simp only [not_or, ne_eq, not_not] at h2
            exact ⟨ext, hp, by omega, h2.1, h2.2.1, h2.2.2.1, h2.2.2.2, rfl, rfl, rfl, rfl, rfl⟩
    · simp at hc
  · rintro ⟨ext, he, hf, hci, hco, hbi, hbo, e1, e2, e3, e4, e5⟩
    have hf2 : txData.MinerFees.length ≠ 0 := by omega
    cases mdtx
    simp only at e1 e2 e3 e4 e5
    simp [MinterDefinitionTransactionFromTransactionData, he, hf2, hci, hco, hbi, hbo,
      e1, e2, e3, e4, e5]


/-! ## The fee-threshold override of the two base kinds -/

/-- C15: for the two base-kind override controllers with fee-check height
`N`, on a confirmed context whose block height is below `N`, ValidateTransaction
returns exactly what the host function DefaultTransactionValidation returns for
the same transaction and context with the minimum miner fee replaced by 1 and
the other constants unchanged. -/
theorem baseKind_validate_in_grace_period
    (DefaultTransactionValidation :
      Transaction C F → ValidationContext → TransactionValidationConstants → Option Error)
    (N : Nat) (t : Transaction C F) (ctx : ValidationContext)
    (constants : TransactionValidationConstants)
    (hconf : ctx.Confirmed = true) (hlt : ctx.BlockHeight < N) :
    DefaultTransactionController.ValidateTransaction DefaultTransactionValidation
        { TransactionFeeCheckBlockHeight := N } t ctx constants =
      Outcome.ofError (DefaultTransactionValidation t ctx
        { BlockSizeLimit := constants.BlockSizeLimit,
          ArbitraryDataSizeLimit := constants.ArbitraryDataSizeLimit,
          MinimumMinerFee := 1 }) ∧
    LegacyTransactionController.ValidateTransaction DefaultTransactionValidation
        { TransactionFeeCheckBlockHeight := N } t ctx constants =
      Outcome.ofError (DefaultTransactionValidation t ctx
        { BlockSizeLimit := constants.BlockSizeLimit,
          ArbitraryDataSizeLimit := constants.ArbitraryDataSizeLimit,
          MinimumMinerFee := 1 }) := by
  constructor
  · simp [DefaultTransactionController.ValidateTransaction, hconf, hlt, NewCurrency64]
  · simp [LegacyTransactionController.ValidateTransaction, hconf, hlt, NewCurrency64]

theorem baseKind_validate_in_grace_period_witness :
    sampleContext.BlockHeight < 10 ∧
      DefaultTransactionController.ValidateTransaction sampleDefaultTransactionValidation
          { TransactionFeeCheckBlockHeight := 10 } txBaseKind sampleContext
          constantsNominalFee = .ok () :=
  ⟨by decide,
    (baseKind_validate_in_grace_period sampleDefaultTransactionValidation 10 txBaseKind
      sampleContext constantsNominalFee rfl (by decide)).1⟩

/-- The development registration, when it returns, has stored the two
base-kind controllers with fee-check height 0. -/
theorem registerDevNetwork_base_kinds (h : Host C F) (reg reg2 : Registry C)
    (hr : RegisterTransactionTypesForDevNetwork h reg = some reg2) :
    reg2 TransactionVersionZero = some (.Legacy { TransactionFeeCheckBlockHeight := 0 }) ∧
      reg2 TransactionVersionOne = some (.Default { TransactionFeeCheckBlockHeight := 0 }) := by
  unfold RegisterTransactionTypesForDevNetwork at hr
  simp only at hr
  split at hr
  · simp at hr
  · split at hr
    · simp at hr
    · simp only [Option.some.injEq] at hr
      subst hr
      simp [RegisterTransactionVersion, TransactionVersionZero, TransactionVersionOne,
        TransactionVersionCoinCreation, TransactionVersionMinterDefinition]

/-- C16: for the two base-kind override controllers with fee-check height
`N`, on a context that is unconfirmed (at any height) or whose block height is
at least `N` (`N` itself included), ValidateTransaction returns exactly what
DefaultTransactionValidation returns with the unchanged constants.  With
`N = 0`, as the development profile registers it for both base kinds, this is
so on every context. -/
theorem baseKind_validate_nominal
    (DefaultTransactionValidation :
      Transaction C F → ValidationContext → TransactionValidationConstants → Option Error)
    (t : Transaction C F) (constants : TransactionValidationConstants) :
    (∀ (N : Nat) (ctx : ValidationContext),
      ctx.Confirmed = false ∨ N ≤ ctx.BlockHeight →
      DefaultTransactionController.ValidateTransaction DefaultTransactionValidation
          { TransactionFeeCheckBlockHeight := N } t ctx constants =
        Outcome.ofError (DefaultTransactionValidation t ctx constants) ∧
      LegacyTransactionController.ValidateTransaction DefaultTransactionValidation
          { TransactionFeeCheckBlockHeight := N } t ctx constants =
        Outcome.ofError (DefaultTransactionValidation t ctx constants)) ∧
    (∀ (h : Host C F) (reg reg2 : Registry C),
      RegisterTransactionTypesForDevNetwork h reg = some reg2 →
      ∃ ltc dtc, reg2 0 = some (.Legacy ltc) ∧ reg2 1 = some (.Default dtc) ∧
        ∀ ctx : ValidationContext,
          LegacyTransactionController.ValidateTransaction DefaultTransactionValidation
              ltc t ctx constants =
            Outcome.ofError (DefaultTransactionValidation t ctx constants) ∧
          DefaultTransactionController.ValidateTransaction DefaultTransactionValidation
              dtc t ctx constants =
            Outcome.ofError (DefaultTransactionValidation t ctx constants)) := by
  have hgen : ∀ (N : Nat) (ctx : ValidationContext),
      ctx.Confirmed = false ∨ N ≤ ctx.BlockHeight →
      DefaultTransactionController.ValidateTransaction DefaultTransactionValidation
          { TransactionFeeCheckBlockHeight := N } t ctx constants =
        Outcome.ofError (DefaultTransactionValidation t ctx constants) ∧
      LegacyTransactionController.ValidateTransaction DefaultTransactionValidation
          { TransactionFeeCheckBlockHeight := N } t ctx constants =
        Outcome.ofError (DefaultTransactionValidation t ctx constants) := by
    intro N ctx hc
    have hno : ¬ (ctx.Confirmed = true ∧ ctx.BlockHeight < N) := by
      rintro ⟨h1, h2⟩
      rcases hc with hc | hc
      · rw [hc] at h1
        exact Bool.false_ne_true h1
      · omega
    constructor
    · simp only [DefaultTransactionController.ValidateTransaction, hno, if_false]
    · simp only [LegacyTransactionController.ValidateTransaction, hno, if_false]
  refine ⟨hgen, ?_⟩
  intro h reg reg2 hr
  obtain ⟨h0, h1⟩ := registerDevNetwork_base_kinds h reg reg2 hr
  refine ⟨_, _, h0, h1, ?_⟩
  intro ctx
  have := hgen 0 ctx (Or.inr (Nat.zero_le _))
  exact ⟨this.2, this.1⟩

theorem baseKind_validate_nominal_witness :
    sampleContext.Confirmed = true ∧
      DefaultTransactionController.ValidateTransaction sampleDefaultTransactionValidation
          { TransactionFeeCheckBlockHeight := 7 } txBaseKind sampleContext
          constantsNominalFee = .error .ErrTooSmallMinerFee :=
  ⟨rfl,
    ((baseKind_validate_nominal sampleDefaultTransactionValidation txBaseKind
      constantsNominalFee).1 7 sampleContext (Or.inr (by decide))).1⟩


/-! ## The fee-check height per network profile -/

/-- The standard registration, when it returns, has stored the two base-kind
controllers with the fee-check height of the standard network. -/
theorem registerStandardNetwork_base_kinds (h : Host C F) (f : Nat) (reg reg2 : Registry C)
    (hr : RegisterTransactionTypesForStandardNetwork h f reg = some reg2) :
    reg2 TransactionVersionZero = some (.Legacy
        { TransactionFeeCheckBlockHeight := standardTxnFeeCheckBlockHeight f }) ∧
      reg2 TransactionVersionOne = some (.Default
        { TransactionFeeCheckBlockHeight := standardTxnFeeCheckBlockHeight f }) := by
  unfold RegisterTransactionTypesForStandardNetwork at hr
  simp only at hr
  split at hr
  · simp at hr
  · split at hr
    · simp at hr
    · simp only [Option.some.injEq] at hr
      subst hr
      simp [RegisterTransactionVersion, TransactionVersionZero, TransactionVersionOne,
        TransactionVersionCoinCreation, TransactionVersionMinterDefinition]

/-- The test registration, when it returns, has stored the two base-kind
controllers with the fee-check height of the test network. -/
theorem registerTestNetwork_base_kinds (h : Host C F) (f : Nat) (reg reg2 : Registry C)
    (hr : RegisterTransactionTypesForTestNetwork h f reg = some reg2) :
    reg2 TransactionVersionZero = some (.Legacy
        { TransactionFeeCheckBlockHeight := testTxnFeeCheckBlockHeight f }) ∧
      reg2 TransactionVersionOne = some (.Default
        { TransactionFeeCheckBlockHeight := testTxnFeeCheckBlockHeight f }) := by
  unfold RegisterTransactionTypesForTestNetwork at hr
  simp only at hr
  split at hr
  · simp at hr
  · split at hr
    · simp at hr
    · simp only [Option.some.injEq] at hr
      subst hr
      simp [RegisterTransactionVersion, TransactionVersionZero, TransactionVersionOne,
        TransactionVersionCoinCreation, TransactionVersionMinterDefinition]

/-- C17, the claim as stated fails for the test network: with a block
interval of 120 seconds its registration stores, for the default base kind, the
fee-check height 64890, which is 90 days of 721 blocks and not 74 times any
number of blocks. -/
theorem testNetwork_fee_check_height_counterexample :
    (RegisterTransactionTypesForTestNetwork lenientHost 120 emptyRegistry).map
        (fun reg => reg TransactionVersionOne) =
      some (some (.Default { TransactionFeeCheckBlockHeight := 64890 })) ∧
    (64890 : Nat) = 90 * ((86400 + 120) / 120) ∧
    ¬ ∃ blocksPerDay : Nat, (64890 : Nat) = 74 * blocksPerDay := by
  refine ⟨by decide, by decide, ?_⟩
  rintro ⟨x, hx⟩
  omega

/-- C17, amended: the fee-check height registered for the two base-kind
controllers is, for every block interval `f > 0`, 74 times `(86400 + f) / f`
(integer division) on the production network and 90 times `(86400 + f) / f` on
the test network; on the development network it is 0.  Each registration
returns when the unlock hashes of its mint condition load. -/
theorem fee_check_height_per_profile (h : Host C F) (reg : Registry C) (f : Nat)
    (hf : 0 < f) :
    (∀ uhs, unlockHashSliceFromHex h standardNetworkMintUnlockHashHexes = some uhs →
      ∃ reg2, RegisterTransactionTypesForStandardNetwork h f reg = some reg2 ∧
        reg2 0 = some (.Legacy { TransactionFeeCheckBlockHeight := 74 * ((86400 + f) / f) }) ∧
        reg2 1 = some (.Default { TransactionFeeCheckBlockHeight := 74 * ((86400 + f) / f) })) ∧
    (∀ uhs, unlockHashSliceFromHex h testNetworkMintUnlockHashHexes = some uhs →
      ∃ reg2, RegisterTransactionTypesForTestNetwork h f reg = some reg2 ∧
        reg2 0 = some (.Legacy { TransactionFeeCheckBlockHeight := 90 * ((86400 + f) / f) }) ∧
        reg2 1 = some (.Default { TransactionFeeCheckBlockHeight := 90 * ((86400 + f) / f) })) ∧
    (∀ uh, h.LoadString devNetworkMintUnlockHashHex = .ok uh →
      ∃ reg2, RegisterTransactionTypesForDevNetwork h reg = some reg2 ∧
        reg2 0 = some (.Legacy { TransactionFeeCheckBlockHeight := 0 }) ∧
        reg2 1 = some (.Default { TransactionFeeCheckBlockHeight := 0 })) := by
  have _ := hf
  refine ⟨?_, ?_, ?_⟩
  · intro uhs hload
    cases hr : RegisterTransactionTypesForStandardNetwork h f reg with
    | none => simp [RegisterTransactionTypesForStandardNetwork, hload] at hr
    | some reg2 =>
      obtain ⟨h0, h1⟩ := registerStandardNetwork_base_kinds h f reg reg2 hr
      exact ⟨reg2, rfl, h0, h1⟩
  · intro uhs hload
    cases hr : RegisterTransactionTypesForTestNetwork h f reg with
    | none => simp [RegisterTransactionTypesForTestNetwork, hload] at hr
    | some reg2 =>
      obtain ⟨h0, h1⟩ := registerTestNetwork_base_kinds h f reg reg2 hr
      exact ⟨reg2, rfl, h0, h1⟩
  · intro uh hload
    obtain ⟨h0, h1⟩ := registerDevNetwork_base_kinds h reg _
      (registerDevNetwork_eq h reg uh hload)
    exact ⟨_, registerDevNetwork_eq h reg uh hload, h0, h1⟩

theorem fee_check_height_per_profile_witness :
    ∃ reg2, RegisterTransactionTypesForStandardNetwork lenientHost 120 emptyRegistry
        = some reg2 ∧
      reg2 0 = some (.Legacy { TransactionFeeCheckBlockHeight := 74 * ((86400 + 120) / 120) })
      ∧ reg2 1 =
        some (.Default { TransactionFeeCheckBlockHeight := 74 * ((86400 + 120) / 120) }) :=
  (fee_check_height_per_profile lenientHost emptyRegistry 120 (by decide)).1 _ rfl


/-! ## Version tags -/

/-- C14, the claim as stated fails for ValidateTransaction: the size check of
the host comes first and encodes the transaction through the controller
registered for its version.  On a transaction of version 128 whose extension is
a nil pointer, ValidateTransaction of the Coin-Creation controller ends in the
run-time panic of that encoding and returns no error; likewise
ValidateTransaction of the Minter-Definition controller on a transaction of
version 129 whose extension is a nil pointer. -/
theorem mint_kinds_reject_counterexample :
    (txNilMinterExtension.Version ≠ 129 ∧
      CoinCreationTransactionController.ValidateTransaction encodingHost
          { MintCondition := sampleMintCondition } txNilMinterExtension sampleContext
          sampleConstants = .panic ∧
      ¬ ∃ e, CoinCreationTransactionController.ValidateTransaction encodingHost
          { MintCondition := sampleMintCondition } txNilMinterExtension sampleContext
          sampleConstants = .error e) ∧
    (txNilCoinCreationExtension.Version ≠ 128 ∧
      MinterDefinitionTransactionController.ValidateTransaction encodingHost
          { MintCondition := sampleMintCondition } txNilCoinCreationExtension sampleContext
          sampleConstants = .panic ∧
      ¬ ∃ e, MinterDefinitionTransactionController.ValidateTransaction encodingHost
          { MintCondition := sampleMintCondition } txNilCoinCreationExtension sampleContext
          sampleConstants = .error e) := by
  have h1 : CoinCreationTransactionController.ValidateTransaction encodingHost
      { MintCondition := sampleMintCondition } txNilMinterExtension sampleContext
      sampleConstants = .panic := by decide
  have h2 : MinterDefinitionTransactionController.ValidateTransaction encodingHost
      { MintCondition := sampleMintCondition } txNilCoinCreationExtension sampleContext
      sampleConstants = .panic := by decide
  refine ⟨⟨by decide, h1, ?_⟩, ⟨by decide, h2, ?_⟩⟩
  · rintro ⟨e, he⟩
    rw [h1] at he
    cases he
  · rintro ⟨e, he⟩
    rw [h2] at he
    cases he

/-- C14, amended: the version tags of the two mint kinds are 128
(Minter-Definition) and 129 (Coin-Creation), distinct from the base kinds 0 and
1.  For every transaction whose version is not 129,
CoinCreationTransactionFromTransaction returns an error, whatever the rest of
the transaction is, and so does InputSigHash of the Coin-Creation controller;
ValidateTransaction of that controller never accepts the transaction, and
whenever the size check of the host returns it returns an error: the error of
the size check, or the version error wrapped when the size check passes.  The
same holds for the Minter-Definition functions and every transaction whose
version is not 128. -/
theorem mint_kinds_reject_other_versions (h : Host C F) (he : HostEncoding C F)
    (t : Transaction C F) (ctx : ValidationContext)
    (constants : TransactionValidationConstants) (inputIndex : Nat)
    (extraObjects : List (List Byte)) :
    (TransactionVersionMinterDefinition = 128 ∧ TransactionVersionCoinCreation = 129 ∧
      TransactionVersionMinterDefinition ≠ TransactionVersionCoinCreation ∧
      TransactionVersionMinterDefinition ≠ TransactionVersionZero ∧
      TransactionVersionMinterDefinition ≠ TransactionVersionOne ∧
      TransactionVersionCoinCreation ≠ TransactionVersionZero ∧
      TransactionVersionCoinCreation ≠ TransactionVersionOne) ∧
    (t.Version ≠ 129 →
      (∃ e, CoinCreationTransactionFromTransaction t = .error e) ∧
      ∀ cctc : CoinCreationTransactionController C,
        CoinCreationTransactionController.ValidateTransaction h cctc t ctx constants
          ≠ .ok () ∧
        (h.TransactionFitsInABlock t constants.BlockSizeLimit ≠ .panic →
          ∃ e, CoinCreationTransactionController.ValidateTransaction h cctc t ctx constants
            = .error e) ∧
        (∀ e, h.TransactionFitsInABlock t constants.BlockSizeLimit = .error e →
          CoinCreationTransactionController.ValidateTransaction h cctc t ctx constants
            = .error e) ∧
        (h.TransactionFitsInABlock t constants.BlockSizeLimit = .ok () →
          CoinCreationTransactionController.ValidateTransaction h cctc t ctx constants =
            .error (.Errorf "failed to use tx as a coin creation tx: %v"
              (.ErrorfNum "a coin creation transaction requires tx version %d" 129))) ∧
        (∃ e, CoinCreationTransactionController.InputSigHash he cctc t inputIndex
          extraObjects = .error e)) ∧
    (t.Version ≠ 128 →
      (∃ e, MinterDefinitionTransactionFromTransaction t = .error e) ∧
      ∀ mdtc : MinterDefinitionTransactionController C,
        MinterDefinitionTransactionController.ValidateTransaction h mdtc t ctx constants
          ≠ .ok () ∧
        (h.TransactionFitsInABlock t constants.BlockSizeLimit ≠ .panic →
          ∃ e, MinterDefinitionTransactionController.ValidateTransaction h mdtc t ctx
            constants = .error e) ∧
        (∀ e, h.TransactionFitsInABlock t constants.BlockSizeLimit = .error e →
          MinterDefinitionTransactionController.ValidateTransaction h mdtc t ctx constants
            = .error e) ∧
        (h.TransactionFitsInABlock t constants.BlockSizeLimit = .ok () →
          ∃ e, MinterDefinitionTransactionController.ValidateTransaction h mdtc t ctx
            constants = .error (.Errorf "failed to use tx as a coin creation tx: %v" e)) ∧
        (∃ e, MinterDefinitionTransactionController.InputSigHash he mdtc t inputIndex
          extraObjects = .error e)) := by
  refine ⟨by decide, ?_, ?_⟩
  · intro hv
    have hc : CoinCreationTransactionFromTransaction t =
        .error (.ErrorfNum "a coin creation transaction requires tx version %d"
          TransactionVersionCoinCreation) := by
      simp [CoinCreationTransactionFromTransaction, TransactionVersionCoinCreation, hv]
    refine ⟨⟨_, hc⟩, ?_⟩
    intro cctc
    have hpanic : h.TransactionFitsInABlock t constants.BlockSizeLimit = .panic →
        CoinCreationTransactionController.ValidateTransaction h cctc t ctx constants
          = .panic := by
      intro hfit
      simp [CoinCreationTransactionController.ValidateTransaction, hfit]
    have herr : ∀ e, h.TransactionFitsInABlock t constants.BlockSizeLimit = .error e →
        CoinCreationTransactionController.ValidateTransaction h cctc t ctx constants
          = .error e := by
      intro e hfit
      simp [CoinCreationTransactionController.ValidateTransaction, hfit]
    have hok : h.TransactionFitsInABlock t constants.BlockSizeLimit = .ok () →
        CoinCreationTransactionController.ValidateTransaction h cctc t ctx constants =
          .error (.Errorf "failed to use tx as a coin creation tx: %v"
            (.ErrorfNum "a coin creation transaction requires tx version %d" 129)) := by
      intro hfit
      simp [CoinCreationTransactionController.ValidateTransaction, hfit, hc,
        TransactionVersionCoinCreation]
    refine ⟨?_, ?_, herr, hok, ?_⟩
    · cases hfit : h.TransactionFitsInABlock t constants.BlockSizeLimit with
      | panic => rw [hpanic hfit]; exact fun hx => Outcome.noConfusion hx
      | error e => rw [herr e hfit]; exact fun hx => Outcome.noConfusion hx
      | ok u => rw [hok hfit]; exact fun hx => Outcome.noConfusion hx
    · intro hnp
      cases hfit : h.TransactionFitsInABlock t constants.BlockSizeLimit with
      | panic => exact absurd hfit hnp
      | error e => exact ⟨e, herr e hfit⟩
      | ok u => exact ⟨_, hok hfit⟩
    · simp [CoinCreationTransactionController.InputSigHash, hc]
  · intro hv
    have hc : MinterDefinitionTransactionFromTransaction t =
        .error (.ErrorfNum "a minter definition transaction requires tx version %d"
          TransactionVersionCoinCreation) := by
      simp [MinterDefinitionTransactionFromTransaction, TransactionVersionMinterDefinition, hv]
    refine ⟨⟨_, hc⟩, ?_⟩
    intro mdtc
    have hpanic : h.TransactionFitsInABlock t constants.BlockSizeLimit = .panic →
        MinterDefinitionTransactionController.ValidateTransaction h mdtc t ctx constants
          = .panic := by
      intro hfit
      simp [MinterDefinitionTransactionController.ValidateTransaction, hfit]
    have herr : ∀ e, h.TransactionFitsInABlock t constants.BlockSizeLimit = .error e →
        MinterDefinitionTransactionController.ValidateTransaction h mdtc t ctx constants
          = .error e := by
      intro e hfit
      simp [MinterDefinitionTransactionController.ValidateTransaction, hfit]
    have hok : h.TransactionFitsInABlock t constants.BlockSizeLimit = .ok () →
        ∃ e, MinterDefinitionTransactionController.ValidateTransaction h mdtc t ctx
          constants = .error (.Errorf "failed to use tx as a coin creation tx: %v" e) := by
      intro hfit
      refine ⟨.ErrorfNum "a minter definition transaction requires tx version %d"
        TransactionVersionCoinCreation, ?_⟩
      simp [MinterDefinitionTransactionController.ValidateTransaction, hfit, hc]
    refine ⟨?_, ?_, herr, hok, ?_⟩
    · cases hfit : h.TransactionFitsInABlock t constants.BlockSizeLimit with
      | panic => rw [hpanic hfit]; exact fun hx => Outcome.noConfusion hx
      | error e => rw [herr e hfit]; exact fun hx => Outcome.noConfusion hx
      | ok u =>
        obtain ⟨e, he2⟩ := hok hfit
        rw [he2]; exact fun hx => Outcome.noConfusion hx
    · intro hnp
      cases hfit : h.TransactionFitsInABlock t constants.BlockSizeLimit with
      | panic => exact absurd hfit hnp
      | error e => exact ⟨e, herr e hfit⟩
      | ok u =>
        obtain ⟨e, he2⟩ := hok hfit
        exact ⟨_, he2⟩
    · simp [MinterDefinitionTransactionController.InputSigHash, hc]

theorem mint_kinds_reject_other_versions_witness :
    txWrongVersion.Version ≠ 129 ∧
      sampleHost.TransactionFitsInABlock txWrongVersion sampleConstants.BlockSizeLimit
        ≠ .panic ∧
      ∃ e, CoinCreationTransactionController.ValidateTransaction sampleHost
        { MintCondition := sampleMintCondition } txWrongVersion sampleContext
        sampleConstants = .error e :=
  ⟨by decide, by decide,
    (((mint_kinds_reject_other_versions sampleHost emptyEncoding txWrongVersion sampleContext
      sampleConstants 0 []).2.1 (by decide)).2 { MintCondition := sampleMintCondition }).2.1
      (by decide)⟩


/-! ## Binary form -/

theorem decodeUnary_encodeUnary (n : Nat) (rest : List Byte) :
    decodeUnary (encodeUnary n ++ rest) = .ok (n, rest) := by
  induction n with
  | zero => simp [encodeUnary, decodeUnary]
  | succ n ih =>
    have h1 : encodeUnary (n + 1) ++ rest = 1 :: (encodeUnary n ++ rest) := by
      simp [encodeUnary, List.replicate_succ]
    have h2 : ¬ ((1 : Byte) = 0) := by decide
    rw [h1, decodeUnary, if_neg h2, ih]

theorem decodeMany_flatten {α : Type} (enc : α → List Byte)
    (dec : List Byte → Except Error (α × List Byte))
    (hd : ∀ a rest, dec (enc a ++ rest) = .ok (a, rest)) (l : List α) (rest : List Byte) :
    decodeMany dec l.length ((l.map enc).flatten ++ rest) = .ok (l, rest) := by
  induction l with
  | nil => simp [decodeMany]
  | cons a l ih =>
    simp only [List.map_cons, List.flatten_cons, List.length_cons, List.append_assoc,
      decodeMany, hd, ih]

theorem decodeList_encodeList {α : Type} (enc : α → List Byte)
    (dec : List Byte → Except Error (α × List Byte))
    (hd : ∀ a rest, dec (enc a ++ rest) = .ok (a, rest)) (l : List α) (rest : List Byte) :
    decodeList dec (encodeList enc l ++ rest) = .ok (l, rest) := by
  simp only [decodeList, encodeList, List.append_assoc, decodeUnary_encodeUnary,
    decodeMany_flatten enc dec hd]

theorem decodeByteOutput_encodeByteOutput (o : CoinOutput Byte) (rest : List Byte) :
    decodeByteOutput (encodeByteOutput o ++ rest) = .ok (o, rest) := by
  simp [decodeByteOutput, encodeByteOutput, decodeUnary_encodeUnary, decodeByte]

/-- The small encoding satisfies the round-trip laws. -/
theorem byteEncoding_lawful : byteEncoding.Lawful where
  fulfillment := by intro f rest; simp [byteEncoding, decodeByte]
  condition := by intro c rest; simp [byteEncoding, decodeByte]
  coinOutputs := by
    intro o rest
    exact decodeList_encodeList encodeByteOutput decodeByteOutput
      decodeByteOutput_encodeByteOutput o rest
  currencies := by
    intro m rest
    exact decodeList_encodeList encodeUnary decodeUnary decodeUnary_encodeUnary m rest
  bytes := by
    intro b rest
    exact decodeList_encodeList (fun b => [b]) decodeByte
      (by intro a r; simp [decodeByte]) b rest

/-- The nonce is read back from its raw bytes. -/
theorem nonce_decode_raw (he : HostEncoding C F) (nonce : TransactionNonce)
    (rest : List Byte) :
    TransactionNonce.Decode he (nonce.val ++ rest) = .ok (nonce, rest) := by
  have hl : nonce.val.length = TransactionNonceLength := nonce.property
  have hle : TransactionNonceLength ≤ (nonce.val ++ rest).length := by
    rw [List.length_append, hl]; exact Nat.le_add_right _ _
  unfold TransactionNonce.Decode
  rw [dif_pos hle]
  have ht : (nonce.val ++ rest).take TransactionNonceLength = nonce.val :=
    List.take_left' hl
  have hd : (nonce.val ++ rest).drop TransactionNonceLength = rest :=
    List.drop_left' hl
  simp only [hd]
  congr 2
  exact Subtype.ext ht

/-- The host decoder reads back a CoinCreationTransaction from what the host
encoder wrote for it, whatever follows in the stream. -/
theorem coinCreation_decode_encode (he : HostEncoding C F) (hlaw : he.Lawful)
    (cctx : CoinCreationTransaction C F) (rest : List Byte) :
    CoinCreationTransaction.Decode he (cctx.Encode he ++ rest) = .ok cctx := by
  simp only [CoinCreationTransaction.Decode, CoinCreationTransaction.Encode,
    List.append_assoc, nonce_decode_raw, hlaw.fulfillment, hlaw.coinOutputs,
    hlaw.currencies, hlaw.bytes]

/-- The host decoder reads back a MinterDefinitionTransaction from what the
host encoder wrote for it, whatever follows in the stream. -/
theorem minterDefinition_decode_encode (he : HostEncoding C F) (hlaw : he.Lawful)
    (mdtx : MinterDefinitionTransaction C F) (rest : List Byte) :
    MinterDefinitionTransaction.Decode he (mdtx.Encode he ++ rest) = .ok mdtx := by
  simp only [MinterDefinitionTransaction.Decode, MinterDefinitionTransaction.Encode,
    List.append_assoc, nonce_decode_raw, hlaw.fulfillment, hlaw.condition,
    hlaw.currencies, hlaw.bytes]

/-- The conversion of valid Coin-Creation transaction data, and the way back. -/
theorem coinCreationFromTransactionData_valid (txData : TransactionData C F)
    (ext : CoinCreationTransactionExtension F)
    (he : txData.Extension = .coinCreation (some ext))
    (ho : txData.CoinOutputs ≠ []) (hf : txData.MinerFees ≠ [])
    (hci : txData.CoinInputs = []) (hbi : txData.BlockStakeInputs = [])
    (hbo : txData.BlockStakeOutputs = []) :
    ∃ cctx, CoinCreationTransactionFromTransactionData txData = .ok cctx ∧
      cctx = { Nonce := ext.Nonce, MintFulfillment := ext.MintFulfillment,
               CoinOutputs := txData.CoinOutputs, MinerFees := txData.MinerFees,
               ArbitraryData := txData.ArbitraryData } ∧
      cctx.TransactionData = txData := by
  refine ⟨_, ?_, rfl, ?_⟩
  · simp [CoinCreationTransactionFromTransactionData, he, ho, hf, hci, hbi, hbo]
  · cases txData
    simp only at he hci hbi hbo
    simp [CoinCreationTransaction.TransactionData, he, hci, hbi, hbo]

/-- The conversion of valid Minter-Definition transaction data, and the way
back. -/
theorem minterDefinitionFromTransactionData_valid (txData : TransactionData C F)
    (ext : MinterDefinitionTransactionExtension C F)
    (he : txData.Extension = .minterDefinition (some ext))
    (hf : txData.MinerFees ≠ [])
    (hci : txData.CoinInputs = []) (hco : txData.CoinOutputs = [])
    (hbi : txData.BlockStakeInputs = []) (hbo : txData.BlockStakeOutputs = []) :
    ∃ mdtx, MinterDefinitionTransactionFromTransactionData txData = .ok mdtx ∧
      mdtx = { Nonce := ext.Nonce, MintFulfillment := ext.MintFulfillment,
               MintCondition := ext.MintCondition, MinerFees := txData.MinerFees,
               ArbitraryData := txData.ArbitraryData } ∧
      mdtx.TransactionData = txData := by
  refine ⟨_, ?_, rfl, ?_⟩
  · simp [MinterDefinitionTransactionFromTransactionData, he, hf, hci, hco, hbi, hbo]
  · cases txData
    simp only at he hci hco hbi hbo
    simp [MinterDefinitionTransaction.TransactionData, he, hci, hco, hbi, hbo]


/-- C18: binary round trip.  For every valid Coin-Creation transaction data
(coin-creation extension, at least one output and one fee, no inputs and no
block-stake outputs) EncodeTransactionData of the Coin-Creation controller
succeeds, and DecodeTransactionData of the same controller applied to the bytes
it wrote, whatever follows them in the stream, succeeds and returns the original
transaction data; likewise for every valid Minter-Definition transaction data
and the Minter-Definition controller.  The encoders and decoders of the host
library on the field types are assumed to satisfy their round-trip laws. -/
theorem binary_round_trip (he : HostEncoding C F) (hlaw : he.Lawful)
    (txData : TransactionData C F) (rest : List Byte) :
    (∀ (cctc : CoinCreationTransactionController C) (ext : CoinCreationTransactionExtension F),
      txData.Extension = .coinCreation (some ext) →
      txData.CoinOutputs ≠ [] → txData.MinerFees ≠ [] →
      txData.CoinInputs = [] → txData.BlockStakeInputs = [] →
      txData.BlockStakeOutputs = [] →
      ∃ bytes, CoinCreationTransactionController.EncodeTransactionData he cctc txData
          = .ok bytes ∧
        CoinCreationTransactionController.DecodeTransactionData he cctc (bytes ++ rest)
          = .ok txData) ∧
    (∀ (mdtc : MinterDefinitionTransactionController C)
      (ext : MinterDefinitionTransactionExtension C F),
      txData.Extension = .minterDefinition (some ext) →
      txData.MinerFees ≠ [] →
      txData.CoinInputs = [] → txData.CoinOutputs = [] →
      txData.BlockStakeInputs = [] → txData.BlockStakeOutputs = [] →
      ∃ bytes, MinterDefinitionTransactionController.EncodeTransactionData he mdtc txData
          = .ok bytes ∧
        MinterDefinitionTransactionController.DecodeTransactionData he mdtc (bytes ++ rest)
          = .ok txData) := by
  refine ⟨?_, ?_⟩
  · intro cctc ext hext ho hf hci hbi hbo
    obtain ⟨cctx, hc, _, hback⟩ :=
      coinCreationFromTransactionData_valid txData ext hext ho hf hci hbi hbo
    refine ⟨cctx.Encode he, ?_, ?_⟩
    · simp [CoinCreationTransactionController.EncodeTransactionData, hc]
    · simp [CoinCreationTransactionController.DecodeTransactionData,
        coinCreation_decode_encode he hlaw cctx rest, hback]
  · intro mdtc ext hext hf hci hco hbi hbo
    obtain ⟨mdtx, hc, _, hback⟩ :=
      minterDefinitionFromTransactionData_valid txData ext hext hf hci hco hbi hbo
    refine ⟨mdtx.Encode he, ?_, ?_⟩
    · simp [MinterDefinitionTransactionController.EncodeTransactionData, hc]
    · simp [MinterDefinitionTransactionController.DecodeTransactionData,
        minterDefinition_decode_encode he hlaw mdtx rest, hback]

theorem binary_round_trip_witness :
    ∃ bytes, CoinCreationTransactionController.EncodeTransactionData byteEncoding
        { MintCondition := 0 } byteCoinCreationData = .ok bytes ∧
      CoinCreationTransactionController.DecodeTransactionData byteEncoding
        { MintCondition := 0 } (bytes ++ []) = .ok byteCoinCreationData :=
  (binary_round_trip byteEncoding byteEncoding_lawful byteCoinCreationData []).1
    { MintCondition := 0 } { Nonce := nonceOne, MintFulfillment := 5 }
    rfl (by decide) (by decide) rfl rfl rfl

/-- C20: for valid transaction data, the bytes written by EncodeTransactionData
of the Coin-Creation controller are exactly the concatenation of the eight raw
bytes of the Nonce and the host encodings of MintFulfillment, CoinOutputs,
MinerFees and ArbitraryData, in this order and with nothing in between; for the
Minter-Definition controller they are the eight raw bytes of the Nonce and the
host encodings of MintFulfillment, MintCondition, MinerFees and ArbitraryData,
in this order. -/
theorem binary_form_field_order (he : HostEncoding C F) (txData : TransactionData C F) :
    (∀ (cctc : CoinCreationTransactionController C) (ext : CoinCreationTransactionExtension F),
      txData.Extension = .coinCreation (some ext) →
      txData.CoinOutputs ≠ [] → txData.MinerFees ≠ [] →
      txData.CoinInputs = [] → txData.BlockStakeInputs = [] →
      txData.BlockStakeOutputs = [] →
      CoinCreationTransactionController.EncodeTransactionData he cctc txData =
        .ok (ext.Nonce.val ++ he.EncodeFulfillment ext.MintFulfillment
          ++ he.EncodeCoinOutputs txData.CoinOutputs ++ he.EncodeCurrencies txData.MinerFees
          ++ he.EncodeBytes txData.ArbitraryData) ∧
      ext.Nonce.val.length = 8) ∧
    (∀ (mdtc : MinterDefinitionTransactionController C)
      (ext : MinterDefinitionTransactionExtension C F),
      txData.Extension = .minterDefinition (some ext) →
      txData.MinerFees ≠ [] →
      txData.CoinInputs = [] → txData.CoinOutputs = [] →
      txData.BlockStakeInputs = [] → txData.BlockStakeOutputs = [] →
      MinterDefinitionTransactionController.EncodeTransactionData he mdtc txData =
        .ok (ext.Nonce.val ++ he.EncodeFulfillment ext.MintFulfillment
          ++ he.EncodeCondition ext.MintCondition ++ he.EncodeCurrencies txData.MinerFees
          ++ he.EncodeBytes txData.ArbitraryData) ∧
      ext.Nonce.val.length = 8) := by
  refine ⟨?_, ?_⟩
  · intro cctc ext hext ho hf hci hbi hbo
    obtain ⟨cctx, hc, hval, _⟩ :=
      coinCreationFromTransactionData_valid txData ext hext ho hf hci hbi hbo
    refine ⟨?_, ext.Nonce.property⟩
    simp [CoinCreationTransactionController.EncodeTransactionData, hc, hval,
      CoinCreationTransaction.Encode]
  · intro mdtc ext hext hf hci hco hbi hbo
    obtain ⟨mdtx, hc, hval, _⟩ :=
      minterDefinitionFromTransactionData_valid txData ext hext hf hci hco hbi hbo
    refine ⟨?_, ext.Nonce.property⟩
    simp [MinterDefinitionTransactionController.EncodeTransactionData, hc, hval,
      MinterDefinitionTransaction.Encode]

theorem binary_form_field_order_witness :
    CoinCreationTransactionController.EncodeTransactionData byteEncoding
        { MintCondition := 0 } byteCoinCreationData =
      .ok ([1, 0, 0, 0, 0, 0, 0, 0] ++ [5] ++ [1, 1, 0, 1, 1, 1, 0, 7, 1, 0, 9]
        ++ [1, 0, 1, 1, 0] ++ [1, 1, 1, 0, 10, 20, 30]) :=
  ((binary_form_field_order byteEncoding byteCoinCreationData).1
    { MintCondition := 0 } { Nonce := nonceOne, MintFulfillment := 5 }
    rfl (by decide) (by decide) rfl rfl rfl).1


/-! ## Text form: round trip -/

theorem byteOfJson_jsonOfByte (b : Byte) : byteOfJson (jsonOfByte b) = .ok b := by
  have hb : (Int.ofNat b.val).toNat < 256 := b.isLt
  simp only [jsonOfByte, byteOfJson, dif_pos hb]
  rfl

theorem currencyOfJson_jsonOfCurrency (c : Currency) :
    currencyOfJson (jsonOfCurrency c) = .ok c := by
  simp [jsonOfCurrency, currencyOfJson]

theorem byteOutputOfJson_jsonOfByteOutput (o : CoinOutput Byte) :
    byteOutputOfJson (jsonOfByteOutput o) = .ok o := by
  simp [jsonOfByteOutput, byteOutputOfJson, currencyOfJson_jsonOfCurrency,
    byteOfJson_jsonOfByte]

theorem listOfJson_jsonOfList {α : Type} (enc : α → Json) (dec : Json → Except Error α)
    (hd : ∀ a, dec (enc a) = .ok a) (l : List α) :
    listOfJson dec (jsonOfList enc l) = .ok l := by
  simp only [jsonOfList, listOfJson]
  induction l with
  | nil => rfl
  | cons a l ih => simp only [List.map_cons, itemsOfJson, hd, ih]

/-- The small JSON encoding satisfies the round-trip laws. -/
theorem byteJson_lawful : byteJson.Lawful where
  bytes := listOfJson_jsonOfList jsonOfByte byteOfJson byteOfJson_jsonOfByte
  fulfillment := byteOfJson_jsonOfByte
  condition := byteOfJson_jsonOfByte
  coinOutputs :=
    listOfJson_jsonOfList jsonOfByteOutput byteOutputOfJson byteOutputOfJson_jsonOfByteOutput
  currencies := listOfJson_jsonOfList jsonOfCurrency currencyOfJson currencyOfJson_jsonOfCurrency

/-- UnmarshalJSON reads back what MarshalJSON wrote for a nonce, into any
target. -/
theorem nonce_unmarshal_marshal (hj : HostJson C F) (hlaw : hj.Lawful)
    (target nonce : TransactionNonce) :
    target.UnmarshalJSON hj (nonce.MarshalJSON hj) = (nonce, none) := by
  have hl : ¬ nonce.val.length ≠ TransactionNonceLength := not_not.mpr nonce.property
  simp only [TransactionNonce.UnmarshalJSON, TransactionNonce.MarshalJSON, hlaw.bytes,
    dif_neg hl]
  rfl


/-- `json.Unmarshal` reads back a CoinCreationTransaction from the document
`json.Marshal` wrote for it. -/
theorem coinCreation_jsonUnmarshal_jsonMarshal (hj : HostJson C F) (hlaw : hj.Lawful)
    (cctx : CoinCreationTransaction C F) :
    CoinCreationTransaction.jsonUnmarshal hj (cctx.jsonMarshal hj) = .ok cctx := by
  obtain ⟨nonce, fulfillment, outputs, fees, data⟩ := cctx
  by_cases hd : data.length = 0
  · have hnil : data = [] := List.length_eq_zero.mp hd
    subst hnil
    simp [CoinCreationTransaction.jsonUnmarshal, CoinCreationTransaction.jsonMarshal,
      CoinCreationTransaction.jsonMembers, jsonUnmarshalMembers, CoinCreationTransaction.jsonSetMember, jsonField,
      coinCreationJsonTags, nonce_unmarshal_marshal hj hlaw, hlaw.fulfillment,
      hlaw.coinOutputs, hlaw.currencies]
  · simp [CoinCreationTransaction.jsonUnmarshal, CoinCreationTransaction.jsonMarshal,
      CoinCreationTransaction.jsonMembers, jsonUnmarshalMembers, CoinCreationTransaction.jsonSetMember, jsonField,
      coinCreationJsonTags, nonce_unmarshal_marshal hj hlaw, hlaw.fulfillment,
      hlaw.coinOutputs, hlaw.currencies, hlaw.bytes, hd]

/-- `json.Unmarshal` reads back a MinterDefinitionTransaction from the
document `json.Marshal` wrote for it. -/
theorem minterDefinition_jsonUnmarshal_jsonMarshal (hj : HostJson C F) (hlaw : hj.Lawful)
    (mdtx : MinterDefinitionTransaction C F) :
    MinterDefinitionTransaction.jsonUnmarshal hj (mdtx.jsonMarshal hj) = .ok mdtx := by
  obtain ⟨nonce, fulfillment, condition, fees, data⟩ := mdtx
  by_cases hd : data.length = 0
  · have hnil : data = [] := List.length_eq_zero.mp hd
    subst hnil
    simp [MinterDefinitionTransaction.jsonUnmarshal, MinterDefinitionTransaction.jsonMarshal,
      MinterDefinitionTransaction.jsonMembers, jsonUnmarshalMembers, MinterDefinitionTransaction.jsonSetMember, jsonField,
      minterDefinitionJsonTags, nonce_unmarshal_marshal hj hlaw, hlaw.fulfillment,
      hlaw.condition, hlaw.currencies]
  · simp [MinterDefinitionTransaction.jsonUnmarshal, MinterDefinitionTransaction.jsonMarshal,
      MinterDefinitionTransaction.jsonMembers, jsonUnmarshalMembers, MinterDefinitionTransaction.jsonSetMember, jsonField,
      minterDefinitionJsonTags, nonce_unmarshal_marshal hj hlaw, hlaw.fulfillment,
      hlaw.condition, hlaw.currencies, hlaw.bytes, hd]


/-- C19: text round trip.  For every valid Coin-Creation transaction data
JSONEncodeTransactionData of the Coin-Creation controller succeeds with an
object whose first member is the nonce, written as the byte slice of its eight
bytes, and which has no member `arbitrarydata` when the arbitrary data is
empty; JSONDecodeTransactionData of the same controller applied to that document
succeeds and returns the original transaction data, empty arbitrary data
included.  Likewise for every valid Minter-Definition transaction data and the
Minter-Definition controller.  The JSON encoders and decoders of the host on the
field types are assumed to satisfy their round-trip laws. -/
theorem text_round_trip (hj : HostJson C F) (hlaw : hj.Lawful)
    (txData : TransactionData C F) :
    (∀ (cctc : CoinCreationTransactionController C) (ext : CoinCreationTransactionExtension F),
      txData.Extension = .coinCreation (some ext) →
      txData.CoinOutputs ≠ [] → txData.MinerFees ≠ [] →
      txData.CoinInputs = [] → txData.BlockStakeInputs = [] →
      txData.BlockStakeOutputs = [] →
      ∃ members,
        CoinCreationTransactionController.JSONEncodeTransactionData hj cctc txData
          = .ok (.obj members) ∧
        members.head? = some ("nonce", hj.MarshalBytes ext.Nonce.val) ∧
        ext.Nonce.val.length = 8 ∧
        (txData.ArbitraryData = [] →
          members.map Prod.fst = ["nonce", "mintfulfillment", "coinoutputs", "minerfees"]) ∧
        CoinCreationTransactionController.JSONDecodeTransactionData hj cctc (.obj members)
          = .ok txData) ∧
    (∀ (mdtc : MinterDefinitionTransactionController C)
      (ext : MinterDefinitionTransactionExtension C F),
      txData.Extension = .minterDefinition (some ext) →
      txData.MinerFees ≠ [] →
      txData.CoinInputs = [] → txData.CoinOutputs = [] →
      txData.BlockStakeInputs = [] → txData.BlockStakeOutputs = [] →
      ∃ members,
        MinterDefinitionTransactionController.JSONEncodeTransactionData hj mdtc txData
          = .ok (.obj members) ∧
        members.head? = some ("nonce", hj.MarshalBytes ext.Nonce.val) ∧
        ext.Nonce.val.length = 8 ∧
        (txData.ArbitraryData = [] →
          members.map Prod.fst = ["nonce", "mintfulfillment", "mintcondition", "minerfees"]) ∧
        MinterDefinitionTransactionController.JSONDecodeTransactionData hj mdtc (.obj members)
          = .ok txData) := by
  refine ⟨?_, ?_⟩
  · intro cctc ext hext ho hf hci hbi hbo
    obtain ⟨cctx, hc, hval, hback⟩ :=
      coinCreationFromTransactionData_valid txData ext hext ho hf hci hbi hbo
    have hrt := coinCreation_jsonUnmarshal_jsonMarshal hj hlaw cctx
    refine ⟨cctx.jsonMembers hj, ?_, ?_, ext.Nonce.property, ?_, ?_⟩
    · simp only [CoinCreationTransactionController.JSONEncodeTransactionData, hc,
        CoinCreationTransaction.jsonMarshal]
    · simp [hval, CoinCreationTransaction.jsonMembers, TransactionNonce.MarshalJSON]
    · intro harb
      simp [hval, CoinCreationTransaction.jsonMembers, harb]
    · simp only [CoinCreationTransaction.jsonMarshal] at hrt
      simp only [CoinCreationTransactionController.JSONDecodeTransactionData, hrt, hback]
  · intro mdtc ext hext hf hci hco hbi hbo
    obtain ⟨mdtx, hc, hval, hback⟩ :=
      minterDefinitionFromTransactionData_valid txData ext hext hf hci hco hbi hbo
    have hrt := minterDefinition_jsonUnmarshal_jsonMarshal hj hlaw mdtx
    refine ⟨mdtx.jsonMembers hj, ?_, ?_, ext.Nonce.property, ?_, ?_⟩
    · simp only [MinterDefinitionTransactionController.JSONEncodeTransactionData, hc,
        MinterDefinitionTransaction.jsonMarshal]
    · simp [hval, MinterDefinitionTransaction.jsonMembers, TransactionNonce.MarshalJSON]
    · intro harb
      simp [hval, MinterDefinitionTransaction.jsonMembers, harb]
    · simp only [MinterDefinitionTransaction.jsonMarshal] at hrt
      simp only [MinterDefinitionTransactionController.JSONDecodeTransactionData, hrt, hback]

theorem text_round_trip_witness :
    byteDataNoArbitraryData.ArbitraryData = [] ∧
      ∃ members,
        CoinCreationTransactionController.JSONEncodeTransactionData byteJson
          { MintCondition := 0 } byteDataNoArbitraryData = .ok (.obj members) ∧
        members.map Prod.fst = ["nonce", "mintfulfillment", "coinoutputs", "minerfees"] ∧
        CoinCreationTransactionController.JSONDecodeTransactionData byteJson
          { MintCondition := 0 } (.obj members) = .ok byteDataNoArbitraryData :=
  ⟨rfl,
    match (text_round_trip byteJson byteJson_lawful byteDataNoArbitraryData).1
      { MintCondition := 0 } { Nonce := nonceOne, MintFulfillment := 5 }
      rfl (by decide) (by decide) rfl rfl rfl with
    | ⟨members, henc, _, _, hnames, hdec⟩ => ⟨members, henc, hnames rfl, hdec⟩⟩


/-! ## Signature hash -/

/-- InputSigHash of the Coin-Creation controller is the host hash of the bytes
written to the hasher. -/
theorem coinCreation_inputSigHash_eq (he : HostEncoding C F)
    (cctc : CoinCreationTransactionController C) (t : Transaction C F) (inputIndex : Nat)
    (extraObjects : List (List Byte)) :
    CoinCreationTransactionController.InputSigHash he cctc t inputIndex extraObjects =
      (CoinCreationTransactionController.inputSigHashPreimage he t extraObjects).map
        he.Hash := by
  unfold CoinCreationTransactionController.InputSigHash
    CoinCreationTransactionController.inputSigHashPreimage
  cases CoinCreationTransactionFromTransaction t <;> rfl

/-- InputSigHash of the Minter-Definition controller is the host hash of the
bytes written to the hasher. -/
theorem minterDefinition_inputSigHash_eq (he : HostEncoding C F)
    (mdtc : MinterDefinitionTransactionController C) (t : Transaction C F) (inputIndex : Nat)
    (extraObjects : List (List Byte)) :
    MinterDefinitionTransactionController.InputSigHash he mdtc t inputIndex extraObjects =
      (MinterDefinitionTransactionController.inputSigHashPreimage he t extraObjects).map
        he.Hash := by
  unfold MinterDefinitionTransactionController.InputSigHash
    MinterDefinitionTransactionController.inputSigHashPreimage
  cases MinterDefinitionTransactionFromTransaction t <;> rfl

/-- The extra objects are written when there are some; without any nothing is
written: in both cases the concatenation of their encodings. -/
theorem extraObjects_written (extraObjects : List (List Byte)) :
    (if extraObjects.length > 0 then extraObjects.flatten else []) = extraObjects.flatten := by
  cases extraObjects with
  | nil => rfl
  | cons a l => simp

/-- The pre-image of the Coin-Creation signature hash on a transaction of the
coin-creation shape. -/
theorem coinCreation_preimage_of_shape (he : HostEncoding C F) (t : Transaction C F)
    (ext : CoinCreationTransactionExtension F) (extraObjects : List (List Byte))
    (hs : HasCoinCreationShape t ext) :
    CoinCreationTransactionController.inputSigHashPreimage he t extraObjects =
      .ok (he.EncodeVersion 129 ++ SpecifierCoinCreationTransaction ++ ext.Nonce.val
        ++ extraObjects.flatten ++ he.EncodeCoinOutputs t.CoinOutputs
        ++ he.EncodeCurrencies t.MinerFees ++ he.EncodeBytes t.ArbitraryData) := by
  unfold CoinCreationTransactionController.inputSigHashPreimage
  rw [coinCreationFromTransaction_of_shape hs, extraObjects_written, hs.1]
  simp only [List.append_assoc]

/-- The pre-image of the Minter-Definition signature hash on a transaction of
the minter-definition shape. -/
theorem minterDefinition_preimage_of_shape (he : HostEncoding C F) (t : Transaction C F)
    (ext : MinterDefinitionTransactionExtension C F) (extraObjects : List (List Byte))
    (hs : HasMinterDefinitionShape t ext) :
    MinterDefinitionTransactionController.inputSigHashPreimage he t extraObjects =
      .ok (he.EncodeVersion 128 ++ SpecifierMintDefinitionTransaction ++ ext.Nonce.val
        ++ extraObjects.flatten ++ he.EncodeCondition ext.MintCondition
        ++ he.EncodeCurrencies t.MinerFees ++ he.EncodeBytes t.ArbitraryData) := by
  unfold MinterDefinitionTransactionController.inputSigHashPreimage
  rw [minterDefinitionFromTransaction_of_shape hs, extraObjects_written, hs.1]
  simp only [List.append_assoc]

/-- C21: on a transaction of the coin-creation shape, the pre-image hashed by
InputSigHash of the Coin-Creation controller is exactly the concatenation of
the encodings of the version tag, the coin-creation specifier, the Nonce, the
extra objects in the given order (nothing when there are none), the
CoinOutputs, the MinerFees and the ArbitraryData.  The MintFulfillment is not
part of it: the same transaction with any other MintFulfillment gives the same
pre-image and, for any two controllers and input indices, the same hash. -/
theorem coinCreation_sigHash_preimage (he : HostEncoding C F) (t : Transaction C F)
    (ext : CoinCreationTransactionExtension F) (extraObjects : List (List Byte))
    (hs : HasCoinCreationShape t ext) :
    CoinCreationTransactionController.inputSigHashPreimage he t extraObjects =
      .ok (he.EncodeVersion t.Version ++ SpecifierCoinCreationTransaction ++ ext.Nonce.val
        ++ extraObjects.flatten ++ he.EncodeCoinOutputs t.CoinOutputs
        ++ he.EncodeCurrencies t.MinerFees ++ he.EncodeBytes t.ArbitraryData) ∧
    (extraObjects = [] →
      CoinCreationTransactionController.inputSigHashPreimage he t extraObjects =
        .ok (he.EncodeVersion t.Version ++ SpecifierCoinCreationTransaction ++ ext.Nonce.val
          ++ he.EncodeCoinOutputs t.CoinOutputs
          ++ he.EncodeCurrencies t.MinerFees ++ he.EncodeBytes t.ArbitraryData)) ∧
    (∀ (cctc : CoinCreationTransactionController C) (inputIndex : Nat),
      CoinCreationTransactionController.InputSigHash he cctc t inputIndex extraObjects =
        .ok (he.Hash (he.EncodeVersion t.Version ++ SpecifierCoinCreationTransaction
          ++ ext.Nonce.val ++ extraObjects.flatten ++ he.EncodeCoinOutputs t.CoinOutputs
          ++ he.EncodeCurrencies t.MinerFees ++ he.EncodeBytes t.ArbitraryData))) ∧
    (∀ (fulfillment : F) (cctc1 cctc2 : CoinCreationTransactionController C)
        (inputIndex1 inputIndex2 : Nat),
      CoinCreationTransactionController.inputSigHashPreimage he
          (t.withExtension
            (.coinCreation (some { Nonce := ext.Nonce, MintFulfillment := fulfillment })))
          extraObjects =
        CoinCreationTransactionController.inputSigHashPreimage he t extraObjects ∧
      CoinCreationTransactionController.InputSigHash he cctc2
          (t.withExtension
            (.coinCreation (some { Nonce := ext.Nonce, MintFulfillment := fulfillment })))
          inputIndex2 extraObjects =
        CoinCreationTransactionController.InputSigHash he cctc1 t inputIndex1
          extraObjects) := by
  have hp := coinCreation_preimage_of_shape he t ext extraObjects hs
  have hv : t.Version = 129 := hs.1
  rw [hv]
  refine ⟨hp, ?_, ?_, ?_⟩
  · intro hnil
    rw [hp, hnil]
    simp
  · intro cctc inputIndex
    rw [coinCreation_inputSigHash_eq, hp]
    rfl
  · intro fulfillment cctc1 cctc2 inputIndex1 inputIndex2
    have hs2 : HasCoinCreationShape
        (t.withExtension
          (.coinCreation (some { Nonce := ext.Nonce, MintFulfillment := fulfillment })))
        { Nonce := ext.Nonce, MintFulfillment := fulfillment } := by
      obtain ⟨h1, _, h3, h4, h5, h6, h7⟩ := hs
      exact ⟨h1, rfl, h3, h4, h5, h6, h7⟩
    have hp2 := coinCreation_preimage_of_shape he _ _ extraObjects hs2
    refine ⟨?_, ?_⟩
    · rw [hp2, hp]
      rfl
    · rw [coinCreation_inputSigHash_eq, coinCreation_inputSigHash_eq, hp2, hp]
      rfl

theorem coinCreation_sigHash_preimage_witness :
    HasCoinCreationShape byteCoinCreationTx { Nonce := nonceOne, MintFulfillment := 5 } ∧
      CoinCreationTransactionController.inputSigHashPreimage byteEncoding byteCoinCreationTx
          [[42], [43, 44]] =
        .ok ([129] ++ [99, 111, 105, 110, 32, 109, 105, 110, 116, 32, 116, 120, 0, 0, 0, 0]
          ++ [1, 0, 0, 0, 0, 0, 0, 0] ++ [42, 43, 44]
          ++ [1, 1, 0, 1, 1, 1, 0, 7, 1, 0, 9] ++ [1, 0, 1, 1, 0]
          ++ [1, 1, 1, 0, 10, 20, 30]) :=
  ⟨by decide,
    (coinCreation_sigHash_preimage byteEncoding byteCoinCreationTx
      { Nonce := nonceOne, MintFulfillment := 5 } [[42], [43, 44]] (by decide)).1⟩


/-! ## Transaction ID input -/

/-- Transaction data that is not valid Coin-Creation data is refused with an
error by the conversion, unless its extension is a nil pointer of the extension
type and the rest of the data has the valid shape. -/
theorem coinCreationFromTransactionData_invalid (txData : TransactionData C F)
    (hinv : ¬ ∃ ext : CoinCreationTransactionExtension F,
      txData.Extension = .coinCreation (some ext) ∧
      txData.CoinOutputs ≠ [] ∧ txData.MinerFees ≠ [] ∧ txData.CoinInputs = [] ∧
      txData.BlockStakeInputs = [] ∧ txData.BlockStakeOutputs = [])
    (hnn : ¬ (txData.Extension = .coinCreation none ∧
      txData.CoinOutputs ≠ [] ∧ txData.MinerFees ≠ [] ∧ txData.CoinInputs = [] ∧
      txData.BlockStakeInputs = [] ∧ txData.BlockStakeOutputs = [])) :
    ∃ e, CoinCreationTransactionFromTransactionData txData = .error e := by
  unfold CoinCreationTransactionFromTransactionData
  split
  · rename_i p hp
    split
    · exact ⟨_, rfl⟩
    · split
      · exact ⟨_, rfl⟩
      · rename_i h1 h2
        simp only [not_or, ne_eq, not_not, List.length_eq_zero] at h1 h2
        cases p with
        | none => exact absurd ⟨hp, h1.1, h1.2, h2.1, h2.2.1, h2.2.2⟩ hnn
        | some ext =>
          exact absurd ⟨ext, hp, h1.1, h1.2, h2.1, h2.2.1, h2.2.2⟩ hinv
  · exact ⟨_, rfl⟩

/-- Transaction data that is not valid Minter-Definition data is refused with
an error by the conversion, unless its extension is a nil pointer of the
extension type and the rest of the data has the valid shape. -/
theorem minterDefinitionFromTransactionData_invalid (txData : TransactionData C F)
    (hinv : ¬ ∃ ext : MinterDefinitionTransactionExtension C F,
      txData.Extension = .minterDefinition (some ext) ∧
      txData.MinerFees ≠ [] ∧ txData.CoinInputs = [] ∧ txData.CoinOutputs = [] ∧
      txData.BlockStakeInputs = [] ∧ txData.BlockStakeOutputs = [])
    (hnn : ¬ (txData.Extension = .minterDefinition none ∧
      txData.MinerFees ≠ [] ∧ txData.CoinInputs = [] ∧ txData.CoinOutputs = [] ∧
      txData.BlockStakeInputs = [] ∧ txData.BlockStakeOutputs = [])) :
    ∃ e, MinterDefinitionTransactionFromTransactionData txData = .error e := by
  unfold MinterDefinitionTransactionFromTransactionData
  split
  · rename_i p hp
    split
    · exact ⟨_, rfl⟩
    · split
      · exact ⟨_, rfl⟩
      · rename_i h1 h2
        simp only [not_or, ne_eq, not_not, List.length_eq_zero] at h1 h2
        cases p with
        | none => exact absurd ⟨hp, h1, h2.1, h2.2.1, h2.2.2.1, h2.2.2.2⟩ hnn
        | some ext =>
          exact absurd ⟨ext, hp, h1, h2.1, h2.2.1, h2.2.2.1, h2.2.2.2⟩ hinv
  · exact ⟨_, rfl⟩

/-- C22, the claim as stated fails: transaction data whose extension is a nil
pointer of the extension type of the kind, and whose other fields have the
valid shape, is not valid (the conversion does not succeed), and
EncodeTransactionData and EncodeTransactionIDInput of the controller of that
kind both end in a run-time panic and not in an error. -/
theorem transactionIDInput_nil_extension_counterexample :
    (CoinCreationTransactionFromTransactionData byteDataNilCoinCreation = .panic ∧
      CoinCreationTransactionController.EncodeTransactionData byteEncoding
        { MintCondition := 0 } byteDataNilCoinCreation = .panic ∧
      CoinCreationTransactionController.EncodeTransactionIDInput byteEncoding
        { MintCondition := 0 } byteDataNilCoinCreation = .panic ∧
      ¬ ∃ e, CoinCreationTransactionController.EncodeTransactionIDInput byteEncoding
        { MintCondition := 0 } byteDataNilCoinCreation = .error e) ∧
    (MinterDefinitionTransactionFromTransactionData byteDataNilMinterDefinition = .panic ∧
      MinterDefinitionTransactionController.EncodeTransactionData byteEncoding
        { MintCondition := 0 } byteDataNilMinterDefinition = .panic ∧
      MinterDefinitionTransactionController.EncodeTransactionIDInput byteEncoding
        { MintCondition := 0 } byteDataNilMinterDefinition = .panic ∧
      ¬ ∃ e, MinterDefinitionTransactionController.EncodeTransactionIDInput byteEncoding
        { MintCondition := 0 } byteDataNilMinterDefinition = .error e) := by
  refine ⟨⟨rfl, rfl, rfl, ?_⟩, ⟨rfl, rfl, rfl, ?_⟩⟩
  · rintro ⟨e, he⟩
    have hp : CoinCreationTransactionController.EncodeTransactionIDInput byteEncoding
        { MintCondition := 0 } byteDataNilCoinCreation = .panic := rfl
    rw [hp] at he
    cases he
  · rintro ⟨e, he⟩
    have hp : MinterDefinitionTransactionController.EncodeTransactionIDInput byteEncoding
        { MintCondition := 0 } byteDataNilMinterDefinition = .panic := rfl
    rw [hp] at he
    cases he

/-- C22, amended: for both mint kinds and every valid transaction data, the
bytes written by EncodeTransactionIDInput are the 16 bytes of the kind
specifier followed by exactly the bytes EncodeTransactionData writes for the
same data, the full structure with its MintFulfillment.  For invalid
transaction data both return an error, unless the extension is a nil pointer of
the extension type of the kind and the rest of the data has the valid shape. -/
theorem transactionIDInput_is_specifier_then_data (he : HostEncoding C F)
    (txData : TransactionData C F) :
    (∀ (cctc : CoinCreationTransactionController C) (ext : CoinCreationTransactionExtension F),
      txData.Extension = .coinCreation (some ext) →
      txData.CoinOutputs ≠ [] → txData.MinerFees ≠ [] →
      txData.CoinInputs = [] → txData.BlockStakeInputs = [] →
      txData.BlockStakeOutputs = [] →
      ∃ bytes,
        CoinCreationTransactionController.EncodeTransactionData he cctc txData = .ok bytes ∧
        CoinCreationTransactionController.EncodeTransactionIDInput he cctc txData =
          .ok (SpecifierCoinCreationTransaction ++ bytes) ∧
        SpecifierCoinCreationTransaction.length = 16 ∧
        bytes = ext.Nonce.val ++ he.EncodeFulfillment ext.MintFulfillment
          ++ he.EncodeCoinOutputs txData.CoinOutputs ++ he.EncodeCurrencies txData.MinerFees
          ++ he.EncodeBytes txData.ArbitraryData) ∧
    (∀ (mdtc : MinterDefinitionTransactionController C)
      (ext : MinterDefinitionTransactionExtension C F),
      txData.Extension = .minterDefinition (some ext) →
      txData.MinerFees ≠ [] →
      txData.CoinInputs = [] → txData.CoinOutputs = [] →
      txData.BlockStakeInputs = [] → txData.BlockStakeOutputs = [] →
      ∃ bytes,
        MinterDefinitionTransactionController.EncodeTransactionData he mdtc txData
          = .ok bytes ∧
        MinterDefinitionTransactionController.EncodeTransactionIDInput he mdtc txData =
          .ok (SpecifierMintDefinitionTransaction ++ bytes) ∧
        SpecifierMintDefinitionTransaction.length = 16 ∧
        bytes = ext.Nonce.val ++ he.EncodeFulfillment ext.MintFulfillment
          ++ he.EncodeCondition ext.MintCondition ++ he.EncodeCurrencies txData.MinerFees
          ++ he.EncodeBytes txData.ArbitraryData) ∧
    (∀ cctc : CoinCreationTransactionController C,
      (¬ ∃ ext : CoinCreationTransactionExtension F,
        txData.Extension = .coinCreation (some ext) ∧
        txData.CoinOutputs ≠ [] ∧ txData.MinerFees ≠ [] ∧ txData.CoinInputs = [] ∧
        txData.BlockStakeInputs = [] ∧ txData.BlockStakeOutputs = []) →
      ¬ (txData.Extension = .coinCreation none ∧
        txData.CoinOutputs ≠ [] ∧ txData.MinerFees ≠ [] ∧ txData.CoinInputs = [] ∧
        txData.BlockStakeInputs = [] ∧ txData.BlockStakeOutputs = []) →
      ∃ e,
        CoinCreationTransactionController.EncodeTransactionData he cctc txData = .error e ∧
        CoinCreationTransactionController.EncodeTransactionIDInput he cctc txData
          = .error e) ∧
    (∀ mdtc : MinterDefinitionTransactionController C,
      (¬ ∃ ext : MinterDefinitionTransactionExtension C F,
        txData.Extension = .minterDefinition (some ext) ∧
        txData.MinerFees ≠ [] ∧ txData.CoinInputs = [] ∧ txData.CoinOutputs = [] ∧
        txData.BlockStakeInputs = [] ∧ txData.BlockStakeOutputs = []) →
      ¬ (txData.Extension = .minterDefinition none ∧
        txData.MinerFees ≠ [] ∧ txData.CoinInputs = [] ∧ txData.CoinOutputs = [] ∧
        txData.BlockStakeInputs = [] ∧ txData.BlockStakeOutputs = []) →
      ∃ e,
        MinterDefinitionTransactionController.EncodeTransactionData he mdtc txData
          = .error e ∧
        MinterDefinitionTransactionController.EncodeTransactionIDInput he mdtc txData
          = .error e) := by
  refine ⟨?_, ?_, ?_, ?_⟩
  · intro cctc ext hext ho hf hci hbi hbo
    obtain ⟨cctx, hc, hval, _⟩ :=
      coinCreationFromTransactionData_valid txData ext hext ho hf hci hbi hbo
    refine ⟨cctx.Encode he, ?_, ?_, by decide, ?_⟩
    · simp [CoinCreationTransactionController.EncodeTransactionData, hc]
    · simp [CoinCreationTransactionController.EncodeTransactionIDInput, hc]
    · rw [hval]; rfl
  · intro mdtc ext hext hf hci hco hbi hbo
    obtain ⟨mdtx, hc, hval, _⟩ :=
      minterDefinitionFromTransactionData_valid txData ext hext hf hci hco hbi hbo
    refine ⟨mdtx.Encode he, ?_, ?_, by decide, ?_⟩
    · simp [MinterDefinitionTransactionController.EncodeTransactionData, hc]
    · simp [MinterDefinitionTransactionController.EncodeTransactionIDInput, hc]
    · rw [hval]; rfl
  · intro cctc hinv hnn
    obtain ⟨e, he2⟩ := coinCreationFromTransactionData_invalid txData hinv hnn
    refine ⟨.Errorf "failed to convert txData to a CoinCreationTx: %v" e, ?_, ?_⟩
    · simp [CoinCreationTransactionController.EncodeTransactionData, he2]
    · simp [CoinCreationTransactionController.EncodeTransactionIDInput, he2]
  · intro mdtc hinv hnn
    obtain ⟨e, he2⟩ := minterDefinitionFromTransactionData_invalid txData hinv hnn
    refine ⟨.Errorf "failed to convert txData to a MinterDefinitionTx: %v" e, ?_, ?_⟩
    · simp [MinterDefinitionTransactionController.EncodeTransactionData, he2]
    · simp [MinterDefinitionTransactionController.EncodeTransactionIDInput, he2]

theorem transactionIDInput_is_specifier_then_data_witness :
    ∃ bytes,
      CoinCreationTransactionController.EncodeTransactionData byteEncoding
        { MintCondition := 0 } byteCoinCreationData = .ok bytes ∧
      CoinCreationTransactionController.EncodeTransactionIDInput byteEncoding
        { MintCondition := 0 } byteCoinCreationData =
        .ok ([99, 111, 105, 110, 32, 109, 105, 110, 116, 32, 116, 120, 0, 0, 0, 0] ++ bytes) :=
  match (transactionIDInput_is_specifier_then_data byteEncoding byteCoinCreationData).1
    { MintCondition := 0 } { Nonce := nonceOne, MintFulfillment := 5 }
    rfl (by decide) (by decide) rfl rfl rfl with
  | ⟨bytes, henc, hid, _, _⟩ => ⟨bytes, henc, hid⟩


/-! ## Signing -/

/-- C23, the claim as stated fails: with a signing callback that leaves the
fulfillment untouched and reports no error, SignExtension of the Coin-Creation
controller succeeds and returns the extension with its empty fulfillment, which
the mint condition of the controller accepts in no context. -/
theorem signExtension_unchecked_counterexample :
    (CoinCreationTransactionController.SignExtension
        { MintCondition := sampleMintCondition } unsignedExtension idleSign ()).2 =
      .ok (.coinCreation (some { Nonce := nonceOne, MintFulfillment := [] })) ∧
    ∀ fc : FulfillContext SampleCondition SampleFulfillment,
      sampleHost.Fulfill sampleMintCondition [] fc ≠ none := by
  refine ⟨rfl, ?_⟩
  intro fc
  simp [sampleHost, sampleMintCondition]

/-- The signing callback `honestSign` leaves a fulfillment the condition
accepts whenever it reports no error. -/
theorem honestSign_fulfills (fc : FulfillContext SampleCondition SampleFulfillment)
    (s : Unit) (f : SampleFulfillment) (c : SampleCondition) (s2 : Unit)
    (f2 : SampleFulfillment) (hsign : honestSign s f c = (s2, f2, none)) :
    sampleHost.Fulfill c f2 fc = none := by
  cases c with
  | unlockHash uh =>
    simp only [honestSign, Prod.mk.injEq, and_true] at hsign
    rw [← hsign.2]
    simp [sampleHost]
  | nilCondition => simp [honestSign] at hsign
  | timeLock l uh => simp [honestSign] at hsign
  | multiSignature hs m => simp [honestSign] at hsign

/-- C23, amended: when SignExtension of a mint controller succeeds, the
returned extension is of the kind of the controller and its MintFulfillment is
the one the signing callback left; it satisfies the current MintCondition of
the controller provided the signing callback, whenever it reports no error,
leaves a fulfillment that satisfies the condition it was given.  SignExtension
does not check the fulfillment itself. -/
theorem signExtension_fulfills_when_callback_does (h : Host C F) {S : Type}
    (sign : SignCallback S C F) (fc : FulfillContext C F)
    (hsign : ∀ s f c s2 f2, sign s f c = (s2, f2, none) → h.Fulfill c f2 fc = none) :
    (∀ (cctc : CoinCreationTransactionController C) (extension : Extension C F) (s s2 : S)
        (result : Extension C F),
      CoinCreationTransactionController.SignExtension cctc extension sign s
        = (s2, .ok result) →
      ∃ ext old, extension = .coinCreation (some old) ∧
        result = .coinCreation (some ext) ∧
        ext.MintFulfillment = (sign s old.MintFulfillment cctc.MintCondition).2.1 ∧
        h.Fulfill cctc.MintCondition ext.MintFulfillment fc = none) ∧
    (∀ (mdtc : MinterDefinitionTransactionController C) (extension : Extension C F)
        (s s2 : S) (result : Extension C F),
      MinterDefinitionTransactionController.SignExtension mdtc extension sign s
        = (s2, .ok result) →
      ∃ ext old, extension = .minterDefinition (some old) ∧
        result = .minterDefinition (some ext) ∧
        ext.MintFulfillment = (sign s old.MintFulfillment mdtc.MintCondition).2.1 ∧
        h.Fulfill mdtc.MintCondition ext.MintFulfillment fc = none) := by
  refine ⟨?_, ?_⟩
  · intro cctc extension s s2 result hres
    unfold CoinCreationTransactionController.SignExtension at hres
    split at hres
    · rename_i old
      rcases hcb : sign s old.MintFulfillment cctc.MintCondition with ⟨s3, f3, err⟩
      rw [hcb] at hres
      cases err with
      | some e => simp at hres
      | none =>
        simp only [Prod.mk.injEq, Outcome.ok.injEq] at hres
        refine ⟨_, old, rfl, hres.2.symm, by rw [hcb], ?_⟩
        exact hsign s old.MintFulfillment cctc.MintCondition s3 f3 hcb
    · simp at hres
    · simp at hres
  · intro mdtc extension s s2 result hres
    unfold MinterDefinitionTransactionController.SignExtension at hres
    split at hres
    · rename_i old
      rcases hcb : sign s old.MintFulfillment mdtc.MintCondition with ⟨s3, f3, err⟩
      rw [hcb] at hres
      cases err with
      | some e => simp at hres
      | none =>
        simp only [Prod.mk.injEq, Outcome.ok.injEq] at hres
        refine ⟨_, old, rfl, hres.2.symm, by rw [hcb], ?_⟩
        exact hsign s old.MintFulfillment mdtc.MintCondition s3 f3 hcb
    · simp at hres
    · simp at hres

theorem signExtension_fulfills_when_callback_does_witness :
    ∃ ext old, unsignedExtension = .coinCreation (some old) ∧
      (.coinCreation (some { Nonce := nonceOne, MintFulfillment := [devKey] })
        : Extension SampleCondition SampleFulfillment) = .coinCreation (some ext) ∧
      ext.MintFulfillment = (honestSign () old.MintFulfillment sampleMintCondition).2.1 ∧
      sampleHost.Fulfill sampleMintCondition ext.MintFulfillment
        (mintFulfillContext txValid sampleContext) = none :=
  (signExtension_fulfills_when_callback_does sampleHost honestSign
    (mintFulfillContext txValid sampleContext)
    (honestSign_fulfills (mintFulfillContext txValid sampleContext))).1
    { MintCondition := sampleMintCondition } unsignedExtension () ()
    (.coinCreation (some { Nonce := nonceOne, MintFulfillment := [devKey] })) rfl


/-- C25: when the JSON input decodes to the byte string `b`,
UnmarshalJSON of TransactionNonce succeeds if and only if `b` has exactly 8
bytes, and the nonce is then exactly `b`; for every other length, the empty
byte string of `null` included, it returns the error "invalid tx nonce length"
and leaves the target nonce as it was, without truncating or padding.
Unmarshalling the marshalled form of any nonce gives back that nonce, when the
decoder of byte strings reads back what the encoder writes. -/
theorem nonce_unmarshalJSON_length (hj : HostJson C F) (tn : TransactionNonce)
    (input : Json) (b : List Byte) (hdec : hj.UnmarshalBytes input = .ok b) :
    ((tn.UnmarshalJSON hj input).2 = none ↔ b.length = 8) ∧
    (b.length = 8 →
      (tn.UnmarshalJSON hj input).1.val = b ∧ (tn.UnmarshalJSON hj input).2 = none) ∧
    (b.length ≠ 8 →
      tn.UnmarshalJSON hj input = (tn, some (.New "invalid tx nonce length"))) ∧
    ((∀ bytes, hj.UnmarshalBytes (hj.MarshalBytes bytes) = .ok bytes) →
      ∀ nonce : TransactionNonce, tn.UnmarshalJSON hj (nonce.MarshalJSON hj) = (nonce, none)) := by
  have hgood : b.length = 8 →
      (tn.UnmarshalJSON hj input).1.val = b ∧ (tn.UnmarshalJSON hj input).2 = none := by
    intro hlen
    have hl : ¬ b.length ≠ TransactionNonceLength := not_not.mpr hlen
    simp only [TransactionNonce.UnmarshalJSON, hdec, dif_neg hl]
    exact ⟨trivial, trivial⟩
  have hbad : b.length ≠ 8 →
      tn.UnmarshalJSON hj input = (tn, some (.New "invalid tx nonce length")) := by
    intro hlen
    have hl : b.length ≠ TransactionNonceLength := hlen
    simp only [TransactionNonce.UnmarshalJSON, hdec, dif_pos hl]
  refine ⟨?_, hgood, hbad, ?_⟩
  · constructor
    · intro hnone
      by_contra hlen
      rw [hbad hlen] at hnone
      simp at hnone
    · intro hlen
      exact (hgood hlen).2
  · intro hbytes nonce
    have hl : ¬ nonce.val.length ≠ TransactionNonceLength := not_not.mpr nonce.property
    simp only [TransactionNonce.UnmarshalJSON, TransactionNonce.MarshalJSON, hbytes,
      dif_neg hl]
    rfl

theorem nonce_unmarshalJSON_length_witness :
    byteJson.UnmarshalBytes (.arr [.num 1, .num 2]) = .ok [1, 2] ∧
      nonceOne.UnmarshalJSON byteJson (.arr [.num 1, .num 2]) =
        (nonceOne, some (.New "invalid tx nonce length")) :=
  ⟨rfl,
    (nonce_unmarshalJSON_length byteJson nonceOne (.arr [.num 1, .num 2]) [1, 2] rfl).2.2.1
      (by decide)⟩

/-! ## Output validators -/

/-- C26: ValidateCoinOutputs and ValidateBlockStakeOutputs of the
Coin-Creation controller and of the Minter-Definition controller return
success for every transaction, every context and every map of inputs. -/
theorem output_validators_always_succeed (cctc : CoinCreationTransactionController C)
    (mdtc : MinterDefinitionTransactionController C) (t : Transaction C F)
    (ctx : FundValidationContext) (inputs : OutputMap C) :
    CoinCreationTransactionController.ValidateCoinOutputs cctc t ctx inputs = .ok () ∧
    CoinCreationTransactionController.ValidateBlockStakeOutputs cctc t ctx inputs = .ok () ∧
    MinterDefinitionTransactionController.ValidateCoinOutputs mdtc t ctx inputs = .ok () ∧
    MinterDefinitionTransactionController.ValidateBlockStakeOutputs mdtc t ctx inputs
      = .ok () :=
  ⟨rfl, rfl, rfl, rfl⟩


/-! ## Errors of the encoders and decoders -/

/-- C27, the claim as stated fails: on an empty stream the binary decoder
fails with its read error, and DecodeTransactionData of the Coin-Creation
controller returns another error, which wraps it; on transaction data without
extension the conversion fails, and EncodeTransactionData returns another error,
which wraps the conversion error. -/
theorem codec_errors_unchanged_counterexample :
    CoinCreationTransaction.Decode byteEncoding [] = .error (.New "unexpected EOF") ∧
    CoinCreationTransactionController.DecodeTransactionData byteEncoding
        { MintCondition := 0 } [] =
      .error (.Errorf "failed to binary-decode tx as a CoinCreationTx: %v"
        (.New "unexpected EOF")) ∧
    CoinCreationTransactionController.DecodeTransactionData byteEncoding
        { MintCondition := 0 } [] ≠ .error (.New "unexpected EOF") ∧
    CoinCreationTransactionFromTransactionData byteDataNoExtension =
      .error (.New "invalid extension data for a CoinCreationTransaction") ∧
    CoinCreationTransactionController.EncodeTransactionData byteEncoding
        { MintCondition := 0 } byteDataNoExtension ≠
      .error (.New "invalid extension data for a CoinCreationTransaction") := by
  refine ⟨rfl, rfl, by decide, rfl, by decide⟩

/-- C27, amended: failures of decoding and of the structural conversion
reach the caller wrapped.  When the binary or JSON decoder fails with the error
`e`, DecodeTransactionData and JSONDecodeTransactionData of both mint
controllers return a new error made by `fmt.Errorf` from a text naming the kind
and `e`, and no transaction data; when the structural conversion fails with
`e`, EncodeTransactionData, JSONEncodeTransactionData and
EncodeTransactionIDInput return a new error made by `fmt.Errorf` from the text
"failed to convert txData to a ...Tx" and `e`, and write nothing. -/
theorem codec_errors_are_wrapped (he : HostEncoding C F) (hj : HostJson C F) (e : Error) :
    (∀ (cctc : CoinCreationTransactionController C) (r : List Byte),
      CoinCreationTransaction.Decode he r = .error e →
      CoinCreationTransactionController.DecodeTransactionData he cctc r =
        .error (.Errorf "failed to binary-decode tx as a CoinCreationTx: %v" e)) ∧
    (∀ (mdtc : MinterDefinitionTransactionController C) (r : List Byte),
      MinterDefinitionTransaction.Decode he r = .error e →
      MinterDefinitionTransactionController.DecodeTransactionData he mdtc r =
        .error (.Errorf "failed to binary-decode tx as a MinterDefinitionTx: %v" e)) ∧
    (∀ (cctc : CoinCreationTransactionController C) (data : Json),
      CoinCreationTransaction.jsonUnmarshal hj data = .error e →
      CoinCreationTransactionController.JSONDecodeTransactionData hj cctc data =
        .error (.Errorf "failed to json-decode tx as a CoinCreationTx: %v" e)) ∧
    (∀ (mdtc : MinterDefinitionTransactionController C) (data : Json),
      MinterDefinitionTransaction.jsonUnmarshal hj data = .error e →
      MinterDefinitionTransactionController.JSONDecodeTransactionData hj mdtc data =
        .error (.Errorf "failed to json-decode tx as a MinterDefinitionTx: %v" e)) ∧
    (∀ (cctc : CoinCreationTransactionController C) (txData : TransactionData C F),
      CoinCreationTransactionFromTransactionData txData = .error e →
      CoinCreationTransactionController.EncodeTransactionData he cctc txData =
        .error (.Errorf "failed to convert txData to a CoinCreationTx: %v" e) ∧
      CoinCreationTransactionController.JSONEncodeTransactionData hj cctc txData =
        .error (.Errorf "failed to convert txData to a CoinCreationTx: %v" e) ∧
      CoinCreationTransactionController.EncodeTransactionIDInput he cctc txData =
        .error (.Errorf "failed to convert txData to a CoinCreationTx: %v" e)) ∧
    (∀ (mdtc : MinterDefinitionTransactionController C) (txData : TransactionData C F),
      MinterDefinitionTransactionFromTransactionData txData = .error e →
      MinterDefinitionTransactionController.EncodeTransactionData he mdtc txData =
        .error (.Errorf "failed to convert txData to a MinterDefinitionTx: %v" e) ∧
      MinterDefinitionTransactionController.JSONEncodeTransactionData hj mdtc txData =
        .error (.Errorf "failed to convert txData to a MinterDefinitionTx: %v" e) ∧
      MinterDefinitionTransactionController.EncodeTransactionIDInput he mdtc txData =
        .error (.Errorf "failed to convert txData to a MinterDefinitionTx: %v" e)) := by
  refine ⟨?_, ?_, ?_, ?_, ?_, ?_⟩
  · intro cctc r hd
    simp [CoinCreationTransactionController.DecodeTransactionData, hd]
  · intro mdtc r hd
    simp [MinterDefinitionTransactionController.DecodeTransactionData, hd]
  · intro cctc data hd
    simp [CoinCreationTransactionController.JSONDecodeTransactionData, hd]
  · intro mdtc data hd
    simp [MinterDefinitionTransactionController.JSONDecodeTransactionData, hd]
  · intro cctc txData hc
    simp [CoinCreationTransactionController.EncodeTransactionData,
      CoinCreationTransactionController.JSONEncodeTransactionData,
      CoinCreationTransactionController.EncodeTransactionIDInput, hc]
  · intro mdtc txData hc
    simp [MinterDefinitionTransactionController.EncodeTransactionData,
      MinterDefinitionTransactionController.JSONEncodeTransactionData,
      MinterDefinitionTransactionController.EncodeTransactionIDInput, hc]

theorem codec_errors_are_wrapped_witness :
    CoinCreationTransaction.Decode byteEncoding [] = .error (.New "unexpected EOF") ∧
      CoinCreationTransactionController.DecodeTransactionData byteEncoding
          { MintCondition := 0 } [] =
        .error (.Errorf "failed to binary-decode tx as a CoinCreationTx: %v"
          (.New "unexpected EOF")) :=
  ⟨rfl,
    (codec_errors_are_wrapped byteEncoding byteJson (.New "unexpected EOF")).1
      { MintCondition := 0 } [] rfl⟩


/-! ## Signature hash of the Minter-Definition kind, and the two specifiers -/

/-- The bytes of the two specifiers. -/
theorem specifier_bytes :
    SpecifierMintDefinitionTransaction =
        [109, 105, 110, 116, 101, 114, 32, 100, 101, 102, 105, 110, 32, 116, 120, 0] ∧
      SpecifierCoinCreationTransaction =
        [99, 111, 105, 110, 32, 109, 105, 110, 116, 32, 116, 120, 0, 0, 0, 0] := by
  decide

/-- Two streams that start with the two specifiers differ. -/
theorem specifier_prefix_ne (x y : List Byte) :
    SpecifierCoinCreationTransaction ++ x ≠ SpecifierMintDefinitionTransaction ++ y := by
  intro heq
  have hlen : SpecifierCoinCreationTransaction.length
      = SpecifierMintDefinitionTransaction.length := by decide
  have hne : SpecifierCoinCreationTransaction ≠ SpecifierMintDefinitionTransaction := by
    decide
  exact hne (List.append_inj heq hlen).1

/-- C29: on a transaction of the minter-definition shape, the pre-image
hashed by InputSigHash of the Minter-Definition controller is exactly the
concatenation of the encodings of the version tag, the minter-definition
specifier, the Nonce, the extra objects in order, the new MintCondition, the
MinerFees and the ArbitraryData, without the MintFulfillment.  Two such
transactions that differ in the new MintCondition have, with the same extra
objects, different pre-images, when the host decoder of conditions reads back
what its encoder writes.  The two specifiers, 'minter defin tx' and
'coin mint tx' padded with zero bytes to 16 bytes, are distinct, so no
signature-hash pre-image of a Coin-Creation transaction equals one of a
Minter-Definition transaction, when the host encodes the two version tags in
the same number of bytes, and no transaction-ID input of the one kind equals one
of the other. -/
theorem minterDefinition_sigHash_preimage (he : HostEncoding C F)
    (hcond : ∀ c rest, he.DecodeCondition (he.EncodeCondition c ++ rest) = .ok (c, rest))
    (hver : (he.EncodeVersion 129).length = (he.EncodeVersion 128).length) :
    (∀ (t : Transaction C F) (ext : MinterDefinitionTransactionExtension C F)
        (extraObjects : List (List Byte)),
      HasMinterDefinitionShape t ext →
      MinterDefinitionTransactionController.inputSigHashPreimage he t extraObjects =
        .ok (he.EncodeVersion t.Version ++ SpecifierMintDefinitionTransaction
          ++ ext.Nonce.val ++ extraObjects.flatten ++ he.EncodeCondition ext.MintCondition
          ++ he.EncodeCurrencies t.MinerFees ++ he.EncodeBytes t.ArbitraryData) ∧
      ∀ (mdtc : MinterDefinitionTransactionController C) (inputIndex : Nat),
        MinterDefinitionTransactionController.InputSigHash he mdtc t inputIndex extraObjects =
          .ok (he.Hash (he.EncodeVersion t.Version ++ SpecifierMintDefinitionTransaction
            ++ ext.Nonce.val ++ extraObjects.flatten ++ he.EncodeCondition ext.MintCondition
            ++ he.EncodeCurrencies t.MinerFees ++ he.EncodeBytes t.ArbitraryData))) ∧
    (∀ (t1 t2 : Transaction C F) (ext1 ext2 : MinterDefinitionTransactionExtension C F)
        (extraObjects : List (List Byte)),
      HasMinterDefinitionShape t1 ext1 → HasMinterDefinitionShape t2 ext2 →
      ext1.MintCondition ≠ ext2.MintCondition →
      MinterDefinitionTransactionController.inputSigHashPreimage he t1 extraObjects ≠
        MinterDefinitionTransactionController.inputSigHashPreimage he t2 extraObjects) ∧
    (SpecifierMintDefinitionTransaction =
        [109, 105, 110, 116, 101, 114, 32, 100, 101, 102, 105, 110, 32, 116, 120, 0] ∧
      SpecifierCoinCreationTransaction =
        [99, 111, 105, 110, 32, 109, 105, 110, 116, 32, 116, 120, 0, 0, 0, 0] ∧
      SpecifierMintDefinitionTransaction ≠ SpecifierCoinCreationTransaction) ∧
    (∀ (tc tm : Transaction C F) (extc : CoinCreationTransactionExtension F)
        (extm : MinterDefinitionTransactionExtension C F)
        (extraObjects1 extraObjects2 : List (List Byte)),
      HasCoinCreationShape tc extc → HasMinterDefinitionShape tm extm →
      CoinCreationTransactionController.inputSigHashPreimage he tc extraObjects1 ≠
        MinterDefinitionTransactionController.inputSigHashPreimage he tm extraObjects2) ∧
    (∀ (cctc : CoinCreationTransactionController C)
        (mdtc : MinterDefinitionTransactionController C)
        (data1 data2 : TransactionData C F) (bytes1 bytes2 : List Byte),
      CoinCreationTransactionController.EncodeTransactionIDInput he cctc data1 = .ok bytes1 →
      MinterDefinitionTransactionController.EncodeTransactionIDInput he mdtc data2
        = .ok bytes2 →
      bytes1 ≠ bytes2) := by
  refine ⟨?_, ?_, ⟨specifier_bytes.1, specifier_bytes.2, by decide⟩, ?_, ?_⟩
  · intro t ext extraObjects hs
    have hp := minterDefinition_preimage_of_shape he t ext extraObjects hs
    have hv : t.Version = 128 := hs.1
    rw [hv]
    refine ⟨hp, ?_⟩
    intro mdtc inputIndex
    rw [minterDefinition_inputSigHash_eq, hp]
    rfl
  · intro t1 t2 ext1 ext2 extraObjects hs1 hs2 hne heq
    rw [minterDefinition_preimage_of_shape he t1 ext1 extraObjects hs1,
      minterDefinition_preimage_of_shape he t2 ext2 extraObjects hs2] at heq
    simp only [Outcome.ok.injEq, List.append_assoc] at heq
    have h1 := List.append_cancel_left heq
    have h2 := List.append_cancel_left h1
    have hlen : ext1.Nonce.val.length = ext2.Nonce.val.length := by
      rw [ext1.Nonce.property, ext2.Nonce.property]
    have h3 := (List.append_inj h2 hlen).2
    have h4 := List.append_cancel_left h3
    have h5 := congrArg he.DecodeCondition h4
    rw [hcond, hcond] at h5
    simp only [Except.ok.injEq, Prod.mk.injEq] at h5
    exact hne h5.1
  · intro tc tm extc extm extraObjects1 extraObjects2 hsc hsm heq
    rw [coinCreation_preimage_of_shape he tc extc extraObjects1 hsc,
      minterDefinition_preimage_of_shape he tm extm extraObjects2 hsm] at heq
    simp only [Outcome.ok.injEq, List.append_assoc] at heq
    have h1 := (List.append_inj heq hver).2
    exact specifier_prefix_ne _ _ h1
  · intro cctc mdtc data1 data2 bytes1 bytes2 h1 h2 heq
    unfold CoinCreationTransactionController.EncodeTransactionIDInput at h1
    unfold MinterDefinitionTransactionController.EncodeTransactionIDInput at h2
    cases hc1 : CoinCreationTransactionFromTransactionData data1 with
    | panic => simp [hc1] at h1
    | error e => simp [hc1] at h1
    | ok cctx =>
      cases hc2 : MinterDefinitionTransactionFromTransactionData data2 with
      | panic => simp [hc2] at h2
      | error e => simp [hc2] at h2
      | ok mdtx =>
        simp only [hc1, Outcome.ok.injEq] at h1
        simp only [hc2, Outcome.ok.injEq] at h2
        rw [← h1, ← h2] at heq
        exact specifier_prefix_ne _ _ heq

theorem minterDefinition_sigHash_preimage_witness :
    ((6 : Byte) ≠ 7) ∧
      MinterDefinitionTransactionController.inputSigHashPreimage byteEncoding
          (byteMinterDefinitionTx 6) [] ≠
        MinterDefinitionTransactionController.inputSigHashPreimage byteEncoding
          (byteMinterDefinitionTx 7) [] :=
  ⟨by decide,
    (minterDefinition_sigHash_preimage byteEncoding byteEncoding_lawful.condition rfl).2.1
      (byteMinterDefinitionTx 6) (byteMinterDefinitionTx 7)
      { Nonce := nonceOne, MintFulfillment := 5, MintCondition := 6 }
      { Nonce := nonceOne, MintFulfillment := 5, MintCondition := 7 } []
      (by decide) (by decide) (by decide)⟩


/-! ## The mint condition that validation uses -/

/-- The loop over the coin outputs does not call Fulfill. -/
theorem checkCoinOutputs_without_fulfill (h : Host C F)
    (fulfill2 : C → F → FulfillContext C F → Option Error) (ctx : ValidationContext)
    (outputs : List (CoinOutput C)) :
    checkCoinOutputs { h with Fulfill := fulfill2 } ctx outputs =
      checkCoinOutputs h ctx outputs := by
  induction outputs with
  | nil => rfl
  | cons sco rest ih =>
    unfold checkCoinOutputs
    rw [ih]

/-- ValidateTransaction of the two mint controllers consults Fulfill of the
host on the MintCondition field of the controller only, in a context that
carries the block height of the validation context: the result, accepting or
rejecting, is the same for every Fulfill of the host that agrees with the
present one on that condition at contexts of that block height, whatever it
answers for other conditions or at other heights. -/
theorem mint_validation_uses_controller_condition (h : Host C F)
    (cctc : CoinCreationTransactionController C)
    (mdtc : MinterDefinitionTransactionController C) (t : Transaction C F)
    (ctx : ValidationContext) (constants : TransactionValidationConstants) :
    (∀ fulfill2 : C → F → FulfillContext C F → Option Error,
      (∀ f fc, fc.BlockHeight = ctx.BlockHeight →
        fulfill2 cctc.MintCondition f fc = h.Fulfill cctc.MintCondition f fc) →
      CoinCreationTransactionController.ValidateTransaction
          { h with Fulfill := fulfill2 } cctc t ctx constants =
        CoinCreationTransactionController.ValidateTransaction h cctc t ctx constants) ∧
    (∀ fulfill2 : C → F → FulfillContext C F → Option Error,
      (∀ f fc, fc.BlockHeight = ctx.BlockHeight →
        fulfill2 mdtc.MintCondition f fc = h.Fulfill mdtc.MintCondition f fc) →
      MinterDefinitionTransactionController.ValidateTransaction
          { h with Fulfill := fulfill2 } mdtc t ctx constants =
        MinterDefinitionTransactionController.ValidateTransaction h mdtc t ctx constants) := by
  constructor
  · intro fulfill2 hagree
    have key : ∀ f, fulfill2 cctc.MintCondition f
        { InputIndex := 0, BlockHeight := ctx.BlockHeight, BlockTime := ctx.BlockTime,
          Transaction := t } =
        h.Fulfill cctc.MintCondition f
          { InputIndex := 0, BlockHeight := ctx.BlockHeight, BlockTime := ctx.BlockTime,
            Transaction := t } := fun f => hagree f _ rfl
    unfold CoinCreationTransactionController.ValidateTransaction
    simp only [key, checkCoinOutputs_without_fulfill]
  · intro fulfill2 hagree
    have key : ∀ f, fulfill2 mdtc.MintCondition f
        { InputIndex := 0, BlockHeight := ctx.BlockHeight, BlockTime := ctx.BlockTime,
          Transaction := t } =
        h.Fulfill mdtc.MintCondition f
          { InputIndex := 0, BlockHeight := ctx.BlockHeight, BlockTime := ctx.BlockTime,
            Transaction := t } := fun f => hagree f _ rfl
    unfold MinterDefinitionTransactionController.ValidateTransaction
    simp only [key]
    rfl

/-- The Fulfill that refuses everything above height 7 agrees with the one of
the small host at the height of `sampleContext`. -/
theorem laterUpdateFulfill_agrees (c : SampleCondition) (f : SampleFulfillment)
    (fc : FulfillContext SampleCondition SampleFulfillment)
    (hh : fc.BlockHeight = sampleContext.BlockHeight) :
    laterUpdateFulfill c f fc = sampleHost.Fulfill c f fc := by
  have h7 : fc.BlockHeight = 7 := hh
  unfold laterUpdateFulfill
  rw [if_pos (by omega)]

theorem mint_validation_uses_controller_condition_witness :
    laterUpdateFulfill sampleMintCondition [devKey]
        (mintFulfillContext txValid { sampleContext with BlockHeight := 8 })
        ≠ sampleHost.Fulfill sampleMintCondition [devKey]
          (mintFulfillContext txValid { sampleContext with BlockHeight := 8 }) ∧
      CoinCreationTransactionController.ValidateTransaction
          { sampleHost with Fulfill := laterUpdateFulfill }
          { MintCondition := sampleMintCondition } txValid sampleContext sampleConstants =
        CoinCreationTransactionController.ValidateTransaction sampleHost
          { MintCondition := sampleMintCondition } txValid sampleContext sampleConstants :=
  ⟨by decide,
    (mint_validation_uses_controller_condition sampleHost
      { MintCondition := sampleMintCondition } { MintCondition := sampleMintCondition }
      txValid sampleContext sampleConstants).1 laterUpdateFulfill
      (fun f fc hh => laterUpdateFulfill_agrees sampleMintCondition f fc hh)⟩

/-! ## The fee override against the nominal fee check -/

/-- With a nominal minimum miner fee of zero, a confirmed transaction below the
fee-check height whose miner fee is zero passes the nominal fee check of the
host and is refused by the two base-kind override controllers, which check
against 1. -/
theorem override_never_invalidates_counterexample :
    sampleContext.Confirmed = true ∧ sampleContext.BlockHeight < 10 ∧
      sampleDefaultTransactionValidation txBaseKindZeroFee sampleContext constantsZeroFee
        = none ∧
      DefaultTransactionController.ValidateTransaction sampleDefaultTransactionValidation
          { TransactionFeeCheckBlockHeight := 10 } txBaseKindZeroFee sampleContext
          constantsZeroFee = .error .ErrTooSmallMinerFee ∧
      LegacyTransactionController.ValidateTransaction sampleDefaultTransactionValidation
          { TransactionFeeCheckBlockHeight := 10 } txBaseKindZeroFee sampleContext
          constantsZeroFee = .error .ErrTooSmallMinerFee := by
  decide

/-- The fee check of the small host accepts with a smaller minimum whatever it
accepts with a larger one. -/
theorem sampleDefaultTransactionValidation_monotone
    (t : Transaction SampleCondition SampleFulfillment) (ctx : ValidationContext)
    (constants : TransactionValidationConstants) (m : Currency)
    (hm : m ≤ constants.MinimumMinerFee)
    (hacc : sampleDefaultTransactionValidation t ctx constants = none) :
    sampleDefaultTransactionValidation t ctx
      { BlockSizeLimit := constants.BlockSizeLimit,
        ArbitraryDataSizeLimit := constants.ArbitraryDataSizeLimit,
        MinimumMinerFee := m } = none := by
  unfold sampleDefaultTransactionValidation at hacc ⊢
  rw [checkMinerFees_eq_none_iff] at hacc ⊢
  intro fee hmem
  exact Nat.le_trans hm (hacc fee hmem)

/-- C30, amended: for the two base-kind override controllers, every
transaction, context and fee-check height, and constants whose nominal
MinimumMinerFee is at least 1: when the validation of the host accepts with a
smaller minimum miner fee whatever it accepts with a larger one, and accepts the
transaction with the nominal constants, ValidateTransaction of the controller
accepts it too. -/
theorem override_only_relaxes_above_one
    (DefaultTransactionValidation :
      Transaction C F → ValidationContext → TransactionValidationConstants → Option Error)
    (hmono : ∀ (t : Transaction C F) (ctx : ValidationContext)
      (constants : TransactionValidationConstants) (m : Currency),
      m ≤ constants.MinimumMinerFee →
      DefaultTransactionValidation t ctx constants = none →
      DefaultTransactionValidation t ctx
        { BlockSizeLimit := constants.BlockSizeLimit,
          ArbitraryDataSizeLimit := constants.ArbitraryDataSizeLimit,
          MinimumMinerFee := m } = none)
    (N : Nat) (t : Transaction C F) (ctx : ValidationContext)
    (constants : TransactionValidationConstants)
    (hmin : 1 ≤ constants.MinimumMinerFee)
    (hacc : DefaultTransactionValidation t ctx constants = none) :
    DefaultTransactionController.ValidateTransaction DefaultTransactionValidation
        { TransactionFeeCheckBlockHeight := N } t ctx constants = .ok () ∧
    LegacyTransactionController.ValidateTransaction DefaultTransactionValidation
        { TransactionFeeCheckBlockHeight := N } t ctx constants = .ok () := by
  have h1 := hmono t ctx constants 1 hmin hacc
  constructor
  · unfold DefaultTransactionController.ValidateTransaction
    by_cases hc : ctx.Confirmed = true ∧ ctx.BlockHeight < N
    · simp only [hc, and_self, if_true, NewCurrency64, h1, Outcome.ofError]
    · simp only [hc, if_false, hacc, Outcome.ofError]
  · unfold LegacyTransactionController.ValidateTransaction
    by_cases hc : ctx.Confirmed = true ∧ ctx.BlockHeight < N
    · simp only [hc, and_self, if_true, NewCurrency64, h1, Outcome.ofError]
    · simp only [hc, if_false, hacc, Outcome.ofError]

theorem override_only_relaxes_above_one_witness :
    sampleContext.Confirmed = true ∧ sampleContext.BlockHeight < 10 ∧
      1 ≤ constantsNominalFee.MinimumMinerFee ∧
      sampleDefaultTransactionValidation txBaseKindNominalFee sampleContext
        constantsNominalFee = none ∧
      DefaultTransactionController.ValidateTransaction sampleDefaultTransactionValidation
          { TransactionFeeCheckBlockHeight := 10 } txBaseKindNominalFee sampleContext
          constantsNominalFee = .ok () :=
  ⟨rfl, by decide, by decide, by decide,
    (override_only_relaxes_above_one sampleDefaultTransactionValidation
      sampleDefaultTransactionValidation_monotone 10 txBaseKindNominalFee sampleContext
      constantsNominalFee (by decide) (by decide)).1⟩


/-! ## Packaging into the envelope -/

/-- C32: packaging into the envelope loses nothing.  For every
CoinCreationTransaction `c` with at least one coin output and one miner fee,
CoinCreationTransactionFromTransaction on `c.Transaction` and
CoinCreationTransactionFromTransactionData on `c.TransactionData` both succeed
and return `c`; for every MinterDefinitionTransaction `m` with at least one
miner fee the Minter-Definition functions return `m`.  `c.Transaction` has
version 129 and `m.Transaction` version 128, both without coin inputs,
block-stake inputs and block-stake outputs (and `m.Transaction` without coin
outputs). -/
theorem envelope_packaging_lossless :
    (∀ c : CoinCreationTransaction C F, c.CoinOutputs ≠ [] → c.MinerFees ≠ [] →
      CoinCreationTransactionFromTransaction c.Transaction = .ok c ∧
      CoinCreationTransactionFromTransactionData c.TransactionData = .ok c) ∧
    (∀ m : MinterDefinitionTransaction C F, m.MinerFees ≠ [] →
      MinterDefinitionTransactionFromTransaction m.Transaction = .ok m ∧
      MinterDefinitionTransactionFromTransactionData m.TransactionData = .ok m) ∧
    (∀ c : CoinCreationTransaction C F,
      c.Transaction.Version = 129 ∧ c.Transaction.CoinInputs = [] ∧
      c.Transaction.BlockStakeInputs = [] ∧ c.Transaction.BlockStakeOutputs = [] ∧
      c.TransactionData.CoinInputs = [] ∧ c.TransactionData.BlockStakeInputs = [] ∧
      c.TransactionData.BlockStakeOutputs = []) ∧
    (∀ m : MinterDefinitionTransaction C F,
      m.Transaction.Version = 128 ∧ m.Transaction.CoinInputs = [] ∧
      m.Transaction.CoinOutputs = [] ∧
      m.Transaction.BlockStakeInputs = [] ∧ m.Transaction.BlockStakeOutputs = [] ∧
      m.TransactionData.CoinInputs = [] ∧ m.TransactionData.BlockStakeInputs = [] ∧
      m.TransactionData.BlockStakeOutputs = []) := by
  refine ⟨?_, ?_, ?_, ?_⟩
  · intro c ho hf
    constructor
    · simp [CoinCreationTransactionFromTransaction, CoinCreationTransactionFromTransactionData,
        CoinCreationTransaction.Transaction, ho, hf]
    · simp [CoinCreationTransactionFromTransactionData,
        CoinCreationTransaction.TransactionData, ho, hf]
  · intro m hf
    constructor
    · simp [MinterDefinitionTransactionFromTransaction,
        MinterDefinitionTransactionFromTransactionData,
        MinterDefinitionTransaction.Transaction, hf]
    · simp [MinterDefinitionTransactionFromTransactionData,
        MinterDefinitionTransaction.TransactionData, hf]
  · intro c
    exact ⟨rfl, rfl, rfl, rfl, rfl, rfl, rfl⟩
  · intro m
    exact ⟨rfl, rfl, rfl, rfl, rfl, rfl, rfl, rfl⟩

theorem envelope_packaging_lossless_witness :
    (CoinCreationTransactionFromTransaction byteCoinCreation.Transaction
        = .ok byteCoinCreation ∧
      CoinCreationTransactionFromTransactionData byteCoinCreation.TransactionData
        = .ok byteCoinCreation) ∧
    (MinterDefinitionTransactionFromTransaction byteMinterDefinition.Transaction
        = .ok byteMinterDefinition ∧
      MinterDefinitionTransactionFromTransactionData byteMinterDefinition.TransactionData
        = .ok byteMinterDefinition) :=
  ⟨envelope_packaging_lossless.1 byteCoinCreation (by decide) (by decide),
    envelope_packaging_lossless.2.1 byteMinterDefinition (by decide)⟩


/-! ## Blocks per day -/

/-- The quotient the registrations compute is one more than the integer
quotient of 86400 by the block frequency. -/
theorem blocks_per_day_eq (f : Nat) (hf : 0 < f) : (86400 + f) / f = 86400 / f + 1 :=
  Nat.add_div_right 86400 hf

/-- The ceiling of 86400 / f is the integer quotient when the block frequency
divides 86400, and one more when it does not. -/
theorem ceil_seconds_per_day (f : Nat) (hf : 0 < f) :
    Nat.ceil ((86400 : ℚ) / (f : ℚ)) = if f ∣ 86400 then 86400 / f else 86400 / f + 1 := by
  have hfq : (0 : ℚ) < (f : ℚ) := by exact_mod_cast hf
  by_cases hd : f ∣ 86400
  · rw [if_pos hd]
    obtain ⟨k, hk⟩ := hd
    have hq : 86400 / f = k := by
      rw [hk]
      exact Nat.mul_div_cancel_left k hf
    rw [hq]
    have hcast : (86400 : ℚ) / (f : ℚ) = (k : ℚ) := by
      rw [div_eq_iff (ne_of_gt hfq)]
      have : ((86400 : Nat) : ℚ) = ((f * k : Nat) : ℚ) := by rw [← hk]
      push_cast at this
      linarith
    rw [hcast]
    exact Nat.ceil_natCast k
  · rw [if_neg hd]
    have hne : 86400 / f + 1 ≠ 0 := Nat.succ_ne_zero _
    rw [Nat.ceil_eq_iff hne]
    have hmod : 86400 % f ≠ 0 := fun h0 => hd (Nat.dvd_of_mod_eq_zero h0)
    have hdm := Nat.div_add_mod 86400 f
    have hlt := Nat.mod_lt 86400 hf
    constructor
    · rw [Nat.add_sub_cancel, lt_div_iff₀ hfq]
      have hnat : 86400 / f * f < 86400 := by
        have hpos : 0 < 86400 % f := Nat.pos_of_ne_zero hmod
        have hcomm : f * (86400 / f) = 86400 / f * f := Nat.mul_comm _ _
        omega
      exact_mod_cast hnat
    · rw [div_le_iff₀ hfq]
      have hnat : 86400 ≤ (86400 / f + 1) * f := by
        have hexp : (86400 / f + 1) * f = f * (86400 / f) + f := by ring
        omega
      exact_mod_cast hnat

/-- C31, at the block frequency 120: the registrations compute 721 blocks per
day, and the fee-check heights 74 * 721 and 90 * 721, while 86400 / 120 is
exactly 720 and so is its ceiling. -/
theorem blocks_per_day_at_120 :
    (86400 + 120) / 120 = 721 ∧
    standardTxnFeeCheckBlockHeight 120 = 74 * 721 ∧
    testTxnFeeCheckBlockHeight 120 = 90 * 721 ∧
    Nat.ceil ((86400 : ℚ) / ((120 : Nat) : ℚ)) = 720 ∧
    (RegisterTransactionTypesForStandardNetwork lenientHost 120 emptyRegistry).map
        (fun reg => reg TransactionVersionOne) =
      some (some (.Default { TransactionFeeCheckBlockHeight := 53354 })) := by
  refine ⟨by decide, by decide, by decide, ?_, by decide⟩
  rw [ceil_seconds_per_day 120 (by decide)]
  decide

/-! ## The version named by the version error -/

/-- C34, at a transaction of version 1:
MinterDefinitionTransactionFromTransaction rejects it for its version with an
error that names version 129, the tag of the Coin-Creation kind, where the tag
of the Minter-Definition kind is 128; the Coin-Creation counterpart names 129,
its own tag. -/
theorem minterDefinition_version_error_names_129 :
    txBaseKind.Version = 1 ∧
    MinterDefinitionTransactionFromTransaction txBaseKind =
      .error (.ErrorfNum "a minter definition transaction requires tx version %d" 129) ∧
    MinterDefinitionTransactionFromTransaction txBaseKind ≠
      .error (.ErrorfNum "a minter definition transaction requires tx version %d" 128) ∧
    TransactionVersionMinterDefinition = 128 ∧
    TransactionVersionCoinCreation = 129 ∧
    CoinCreationTransactionFromTransaction txBaseKind =
      .error (.ErrorfNum "a coin creation transaction requires tx version %d" 129) := by
  decide


/-! ## The registry after the registration of a profile -/

/-- The slice literal has as many unlock hashes as hex strings. -/
theorem unlockHashSliceFromHex_length (h : Host C F) :
    ∀ (hexes : List String) (uhs : List UnlockHash),
      unlockHashSliceFromHex h hexes = some uhs → uhs.length = hexes.length
  | [], uhs, hl => by
    simp only [unlockHashSliceFromHex, Option.some.injEq] at hl
    subst hl
    rfl
  | hstr :: rest, uhs, hl => by
    unfold unlockHashSliceFromHex at hl
    cases h1 : unlockHashFromHex h hstr with
    | none => simp [h1] at hl
    | some uh =>
      cases h2 : unlockHashSliceFromHex h rest with
      | none => simp [h1, h2] at hl
      | some tl =>
        simp only [h1, h2, Option.some.injEq] at hl
        subst hl
        simp [unlockHashSliceFromHex_length h rest tl h2]

/-- The registry after the standard registration, when the unlock hashes of
its mint condition load as `uhs`. -/
theorem registerStandardNetwork_eq (h : Host C F) (f : Nat) (reg : Registry C)
    (uhs : List UnlockHash)
    (hload : unlockHashSliceFromHex h standardNetworkMintUnlockHashHexes = some uhs) :
    RegisterTransactionTypesForStandardNetwork h f reg =
      some (RegisterTransactionVersion
        (RegisterTransactionVersion
          (RegisterTransactionVersion
            (RegisterTransactionVersion reg TransactionVersionZero
              (.Legacy { TransactionFeeCheckBlockHeight := standardTxnFeeCheckBlockHeight f }))
            TransactionVersionOne
            (.Default { TransactionFeeCheckBlockHeight := standardTxnFeeCheckBlockHeight f }))
          TransactionVersionMinterDefinition
          (.MinterDefinition { MintCondition := h.NewMultiSignatureCondition uhs 2 }))
        TransactionVersionCoinCreation
        (.CoinCreation { MintCondition := h.NewMultiSignatureCondition uhs 2 })) := by
  simp only [RegisterTransactionTypesForStandardNetwork, hload, NewCondition]

/-- The registry after the test registration, when the unlock hashes of its
mint condition load as `uhs`. -/
theorem registerTestNetwork_eq (h : Host C F) (f : Nat) (reg : Registry C)
    (uhs : List UnlockHash)
    (hload : unlockHashSliceFromHex h testNetworkMintUnlockHashHexes = some uhs) :
    RegisterTransactionTypesForTestNetwork h f reg =
      some (RegisterTransactionVersion
        (RegisterTransactionVersion
          (RegisterTransactionVersion
            (RegisterTransactionVersion reg TransactionVersionZero
              (.Legacy { TransactionFeeCheckBlockHeight := testTxnFeeCheckBlockHeight f }))
            TransactionVersionOne
            (.Default { TransactionFeeCheckBlockHeight := testTxnFeeCheckBlockHeight f }))
          TransactionVersionMinterDefinition
          (.MinterDefinition { MintCondition := h.NewMultiSignatureCondition uhs 2 }))
        TransactionVersionCoinCreation
        (.CoinCreation { MintCondition := h.NewMultiSignatureCondition uhs 2 })) := by
  simp only [RegisterTransactionTypesForTestNetwork, hload, NewCondition]

/-- What the registry holds after four registrations for the tags 0, 1, 128
and 129. -/
theorem registry_after_four (reg : Registry C) (c0 c1 c128 c129 : TransactionController C) :
    (RegisterTransactionVersion (RegisterTransactionVersion (RegisterTransactionVersion
        (RegisterTransactionVersion reg TransactionVersionZero c0)
          TransactionVersionOne c1) TransactionVersionMinterDefinition c128)
          TransactionVersionCoinCreation c129) 0 = some c0 ∧
    (RegisterTransactionVersion (RegisterTransactionVersion (RegisterTransactionVersion
        (RegisterTransactionVersion reg TransactionVersionZero c0)
          TransactionVersionOne c1) TransactionVersionMinterDefinition c128)
          TransactionVersionCoinCreation c129) 1 = some c1 ∧
    (RegisterTransactionVersion (RegisterTransactionVersion (RegisterTransactionVersion
        (RegisterTransactionVersion reg TransactionVersionZero c0)
          TransactionVersionOne c1) TransactionVersionMinterDefinition c128)
          TransactionVersionCoinCreation c129) 128 = some c128 ∧
    (RegisterTransactionVersion (RegisterTransactionVersion (RegisterTransactionVersion
        (RegisterTransactionVersion reg TransactionVersionZero c0)
          TransactionVersionOne c1) TransactionVersionMinterDefinition c128)
          TransactionVersionCoinCreation c129) 129 = some c129 ∧
    ∀ v : TransactionVersion, v ≠ 0 → v ≠ 1 → v ≠ 128 → v ≠ 129 →
      (RegisterTransactionVersion (RegisterTransactionVersion (RegisterTransactionVersion
        (RegisterTransactionVersion reg TransactionVersionZero c0)
          TransactionVersionOne c1) TransactionVersionMinterDefinition c128)
          TransactionVersionCoinCreation c129) v = reg v := by
  refine ⟨?_, ?_, ?_, ?_, ?_⟩
  · simp [RegisterTransactionVersion, TransactionVersionZero, TransactionVersionOne,
      TransactionVersionCoinCreation, TransactionVersionMinterDefinition]
  · simp [RegisterTransactionVersion, TransactionVersionZero, TransactionVersionOne,
      TransactionVersionCoinCreation, TransactionVersionMinterDefinition]
  · simp [RegisterTransactionVersion, TransactionVersionZero, TransactionVersionOne,
      TransactionVersionCoinCreation, TransactionVersionMinterDefinition]
  · simp [RegisterTransactionVersion, TransactionVersionZero, TransactionVersionOne,
      TransactionVersionCoinCreation, TransactionVersionMinterDefinition]
  · intro v h0 h1 h128 h129
    simp [RegisterTransactionVersion, TransactionVersionZero, TransactionVersionOne,
      TransactionVersionCoinCreation, TransactionVersionMinterDefinition, h0, h1, h128, h129]

/-- C33: for each of the three network profiles, when the unlock hashes of
its mint condition load, the registration function returns, over every registry
it starts from, a registry that maps tag 0 to the Legacy override controller and
tag 1 to the Default override controller, both with the same fee-check height
(that of the profile), tag 128 to a Minter-Definition controller and tag 129 to
a Coin-Creation controller, both with the same mint condition: the
multi-signature condition over the three loaded unlock hashes with 2 required
signatures for production and test, the unlock-hash condition of the one loaded
unlock hash for development.  Every other tag keeps what the registry held. -/
theorem registry_after_registration (h : Host C F) (reg : Registry C) (f : Nat) :
    (∀ uhs, unlockHashSliceFromHex h standardNetworkMintUnlockHashHexes = some uhs →
      uhs.length = 3 ∧
      ∃ reg2, RegisterTransactionTypesForStandardNetwork h f reg = some reg2 ∧
        reg2 0 = some (.Legacy
          { TransactionFeeCheckBlockHeight := standardTxnFeeCheckBlockHeight f }) ∧
        reg2 1 = some (.Default
          { TransactionFeeCheckBlockHeight := standardTxnFeeCheckBlockHeight f }) ∧
        reg2 128 = some (.MinterDefinition
          { MintCondition := h.NewMultiSignatureCondition uhs 2 }) ∧
        reg2 129 = some (.CoinCreation
          { MintCondition := h.NewMultiSignatureCondition uhs 2 }) ∧
        ∀ v : TransactionVersion, v ≠ 0 → v ≠ 1 → v ≠ 128 → v ≠ 129 → reg2 v = reg v) ∧
    (∀ uhs, unlockHashSliceFromHex h testNetworkMintUnlockHashHexes = some uhs →
      uhs.length = 3 ∧
      ∃ reg2, RegisterTransactionTypesForTestNetwork h f reg = some reg2 ∧
        reg2 0 = some (.Legacy
          { TransactionFeeCheckBlockHeight := testTxnFeeCheckBlockHeight f }) ∧
        reg2 1 = some (.Default
          { TransactionFeeCheckBlockHeight := testTxnFeeCheckBlockHeight f }) ∧
        reg2 128 = some (.MinterDefinition
          { MintCondition := h.NewMultiSignatureCondition uhs 2 }) ∧
        reg2 129 = some (.CoinCreation
          { MintCondition := h.NewMultiSignatureCondition uhs 2 }) ∧
        ∀ v : TransactionVersion, v ≠ 0 → v ≠ 1 → v ≠ 128 → v ≠ 129 → reg2 v = reg v) ∧
    (∀ uh, h.LoadString devNetworkMintUnlockHashHex = .ok uh →
      ∃ reg2, RegisterTransactionTypesForDevNetwork h reg = some reg2 ∧
        reg2 0 = some (.Legacy { TransactionFeeCheckBlockHeight := 0 }) ∧
        reg2 1 = some (.Default { TransactionFeeCheckBlockHeight := 0 }) ∧
        reg2 128 = some (.MinterDefinition
          { MintCondition := h.NewUnlockHashCondition uh }) ∧
        reg2 129 = some (.CoinCreation
          { MintCondition := h.NewUnlockHashCondition uh }) ∧
        ∀ v : TransactionVersion, v ≠ 0 → v ≠ 1 → v ≠ 128 → v ≠ 129 → reg2 v = reg v) := by
  refine ⟨?_, ?_, ?_⟩
  · intro uhs hload
    refine ⟨unlockHashSliceFromHex_length h _ uhs hload, _,
      registerStandardNetwork_eq h f reg uhs hload, ?_⟩
    exact registry_after_four reg _ _ _ _
  · intro uhs hload
    refine ⟨unlockHashSliceFromHex_length h _ uhs hload, _,
      registerTestNetwork_eq h f reg uhs hload, ?_⟩
    exact registry_after_four reg _ _ _ _
  · intro uh hload
    refine ⟨_, registerDevNetwork_eq h reg uh hload, ?_⟩
    exact registry_after_four reg _ _ _ _

theorem registry_after_registration_witness :
    (∃ reg2, RegisterTransactionTypesForDevNetwork sampleHost populatedRegistry = some reg2 ∧
      reg2 0 = some (.Legacy { TransactionFeeCheckBlockHeight := 0 }) ∧
      reg2 1 = some (.Default { TransactionFeeCheckBlockHeight := 0 }) ∧
      reg2 128 = some (.MinterDefinition { MintCondition := .unlockHash devKey }) ∧
      reg2 129 = some (.CoinCreation { MintCondition := .unlockHash devKey }) ∧
      ∀ v : TransactionVersion, v ≠ 0 → v ≠ 1 → v ≠ 128 → v ≠ 129 →
        reg2 v = populatedRegistry v) ∧
    (∃ reg2, RegisterTransactionTypesForStandardNetwork lenientHost 120 populatedRegistry
        = some reg2 ∧
      reg2 0 = some (.Legacy
        { TransactionFeeCheckBlockHeight := standardTxnFeeCheckBlockHeight 120 }) ∧
      reg2 1 = some (.Default
        { TransactionFeeCheckBlockHeight := standardTxnFeeCheckBlockHeight 120 }) ∧
      reg2 128 = some (.MinterDefinition
        { MintCondition := .multiSignature
            [{ Type_ := 1, Hash := [78] }, { Type_ := 1, Hash := [78] },
              { Type_ := 1, Hash := [78] }] 2 }) ∧
      reg2 129 = some (.CoinCreation
        { MintCondition := .multiSignature
            [{ Type_ := 1, Hash := [78] }, { Type_ := 1, Hash := [78] },
              { Type_ := 1, Hash := [78] }] 2 }) ∧
      ∀ v : TransactionVersion, v ≠ 0 → v ≠ 1 → v ≠ 128 → v ≠ 129 →
        reg2 v = populatedRegistry v) :=
  ⟨(registry_after_registration sampleHost populatedRegistry 120).2.2 devKey rfl,
    ((registry_after_registration lenientHost populatedRegistry 120).1
      [{ Type_ := 1, Hash := [78] }, { Type_ := 1, Hash := [78] },
        { Type_ := 1, Hash := [78] }] rfl).2⟩

end Tfchain

